import Mathlib

/-!
# Secure-sign operator: reconciliation pipeline and Rekor public-key resolution

A shallow embedding of

* `controllers/ctlog/ctlog_controller.go` (`CTlogReconciler.Reconcile`), and
* `controllers/rekor/actions/server/resolve_pub_key.go` (`resolvePubKeyAction`),

together with theorems about the ordered-action pipeline, the condition ledger
and the bounded retry of the dependency resolver.

Effectful Go code is embedded as a pure function that (a) consults an explicit
environment for the answer of every external call and (b) returns, next to its
Go results, the list of calls it made, in program order.
-/

namespace SecureSign

/-! ## Common data -/

/-- Go `error` values, identified by their message (`err.Error()`); a nil
error is `none : Option GoError`. -/
abbrev GoError := String

/-- The scheduling directive `reconcile.Result` of controller-runtime.
`RequeueAfter` is a `time.Duration` (nanoseconds). `Result{}` is `⟨false, 0⟩`. -/
structure ReconcileResult where
  Requeue : Bool
  RequeueAfter : Nat
  deriving DecidableEq, Repr

/-- The zero value `reconcile.Result{}`. -/
def ReconcileResult.empty : ReconcileResult := ⟨false, 0⟩

/-- Modelled from the spec: `action.Result` (package `controllers/common/action`,
not among the sources). `Reconcile` reads its two fields `Result` and `Err`;
a nil `*action.Result` (the spec's `Continue`) is `none : Option ActionResult`. -/
structure ActionResult where
  Result : ReconcileResult
  Err : Option GoError
  deriving DecidableEq, Repr

/-- Modelled from the spec: the `action.Action[T]` interface (package
`controllers/common/action`, not among the sources): `Name`, `CanHandle(resource) → bool`,
`Handle(resource) → Result`. `T` is the in-memory resource (`target`), `C` the
cluster behind the injected client. `CanHandle` is a predicate over both;
`Handle` may change both and returns a `*action.Result`. -/
structure Action (T C : Type) where
  Name : String
  CanHandle : T → C → Bool
  Handle : T → C → (T × C) × Option ActionResult

/-- One call made by the pipeline on the Action at position `idx` of `acs`. -/
inductive Call where
  | canHandle (idx : Nat) (ok : Bool)
  | handle (idx : Nat) (result : Option ActionResult)
  deriving DecidableEq, Repr

/-- Position in `acs` of the Action a call was made on. -/
def Call.idx : Call → Nat
  | .canHandle i _ => i
  | .handle i _ => i

/-- A call of `Handle`. -/
def Call.isHandle : Call → Bool
  | .handle _ _ => true
  | .canHandle _ _ => false

/-- A call of `Handle` that returned a non-nil (non-Continue) result. -/
def Call.isEffectiveHandle : Call → Bool
  | .handle _ (some _) => true
  | _ => false

/-- A call of `Handle` that returned nil (Continue). -/
def Call.isContinueHandle : Call → Bool
  | .handle _ none => true
  | _ => false

/-! ## `CTlogReconciler.Reconcile` -/

/-- State after the `for _, a := range acs` loop: the target, the cluster, the
calls made and the non-nil result that ended the loop early, if any. -/
structure LoopOut (T C : Type) where
  target : T
  cluster : C
  calls : List Call
  result : Option ActionResult

/-- The loop of `Reconcile` (lines 99-112), from position `idx` on:
```go
for _, a := range acs {
    ...
    if a.CanHandle(ctx, target) {
        result := a.Handle(ctx, target)
        if result != nil {
            return result.Result, result.Err
        }
    }
}
```
The log lines and the three `Inject*` calls are not part of the model. -/
def actionLoop {T C : Type} : List (Action T C) → Nat → T → C → LoopOut T C
  | [], _, target, cluster => ⟨target, cluster, [], none⟩
  | a :: rest, idx, target, cluster =>
    if a.CanHandle target cluster then
      match a.Handle target cluster with
      | ((target1, cluster1), some result) =>
        ⟨target1, cluster1, [Call.canHandle idx true, Call.handle idx (some result)], some result⟩
      | ((target1, cluster1), none) =>
        let out := actionLoop rest (idx + 1) target1 cluster1
        ⟨out.target, out.cluster,
          Call.canHandle idx true :: Call.handle idx none :: out.calls, out.result⟩
    else
      let out := actionLoop rest (idx + 1) target cluster
      ⟨out.target, out.cluster, Call.canHandle idx false :: out.calls, out.result⟩

/-- The reconciler: `Get` is `r.Client.Get(ctx, req.NamespacedName, &instance)`
on the current cluster, `IsNotFound` is `errors.IsNotFound`, `acs` the ordered
Action list built at lines 81-97. -/
structure Reconciler (T C : Type) where
  Get : C → Except GoError T
  IsNotFound : GoError → Bool
  acs : List (Action T C)

/-- What one invocation of `Reconcile` leaves behind: the cluster, the calls
made on Actions, and the returned pair `(ctrl.Result, error)`. -/
structure ReconcileOut (C : Type) where
  cluster : C
  calls : List Call
  Result : ReconcileResult
  Err : Option GoError

/-- `CTlogReconciler.Reconcile` (lines 64-114). -/
def Reconcile {T C : Type} (r : Reconciler T C) (cluster : C) : ReconcileOut C :=
  match r.Get cluster with
  | .error err =>
    if r.IsNotFound err then
      ⟨cluster, [], ReconcileResult.empty, none⟩
    else
      ⟨cluster, [], ReconcileResult.empty, some err⟩
  | .ok inst =>
    let target := inst
    let out := actionLoop r.acs 0 target cluster
    match out.result with
    | some result => ⟨out.cluster, out.calls, result.Result, result.Err⟩
    | none => ⟨out.cluster, out.calls, ReconcileResult.empty, none⟩

/-- The loop falls through the Actions of a list: each of them either is not
applicable (`CanHandle` false) or is handled and returns Continue (nil).
`Skips acs t c t1 c1`: starting from target `t` and cluster `c` the loop leaves
`acs` behind without returning, with target `t1` and cluster `c1`. -/
inductive Skips {T C : Type} : List (Action T C) → T → C → T → C → Prop where
  | nil (t : T) (c : C) : Skips [] t c t c
  | notApplicable (a : Action T C) (rest : List (Action T C)) (t : T) (c : C) (t1 : T) (c1 : C) :
      a.CanHandle t c = false → Skips rest t c t1 c1 → Skips (a :: rest) t c t1 c1
  | continued (a : Action T C) (rest : List (Action T C)) (t : T) (c : C) (t0 : T) (c0 : C)
      (t1 : T) (c1 : C) :
      a.CanHandle t c = true → a.Handle t c = ((t0, c0), none) → Skips rest t0 c0 t1 c1 →
      Skips (a :: rest) t c t1 c1

/-! ## The Rekor resource and its condition ledger -/

/-- Raw bytes (`[]byte`); a nil slice is the empty list. -/
abbrev Bytes := List Nat

/-- A Go `map[string]string`, as an association list. -/
abbrev Labels := List (String × String)

/-- The map read `m[k]` with its `ok` flag. -/
def Labels.get? (m : Labels) (k : String) : Option String :=
  m.lookup k

/-- The map write `m[k] = v`. -/
def Labels.set (m : Labels) (k v : String) : Labels :=
  m.filter (fun p => p.1 != k) ++ [(k, v)]

/-- `metav1.ConditionStatus`, a string type; the zero value is `""`. -/
abbrev ConditionStatus := String

namespace metav1

/-- `metav1.ConditionTrue`. -/
def ConditionTrue : ConditionStatus := "True"

/-- `metav1.ConditionFalse`. -/
def ConditionFalse : ConditionStatus := "False"

/-- `metav1.ConditionUnknown`. -/
def ConditionUnknown : ConditionStatus := "Unknown"

end metav1

/-- `metav1.Condition` (the field `Type` is written `Type_`); `LastTransitionTime`
is a clock reading, zero when unset. -/
structure Condition where
  Type_ : String
  Status : ConditionStatus
  ObservedGeneration : Int
  LastTransitionTime : Nat
  Reason : String
  Message : String
  deriving DecidableEq, Repr

/-- `v1alpha1.LocalObjectReference`. -/
structure LocalObjectReference where
  Name : String
  deriving DecidableEq, Repr

/-- `v1alpha1.SecretKeySelector`: an embedded `LocalObjectReference` and a `Key`. -/
structure SecretKeySelector where
  LocalObjectReference : LocalObjectReference
  Key : String
  deriving DecidableEq, Repr

/-- The promoted field `sks.Name`. -/
def SecretKeySelector.Name (sks : SecretKeySelector) : String :=
  sks.LocalObjectReference.Name

/-- `v1alpha1.RekorSigner` (rekor_types.go, lines 38-49). -/
structure RekorSigner where
  KMS : String
  PasswordRef : Option SecretKeySelector
  KeyRef : Option SecretKeySelector
  deriving DecidableEq, Repr

/-- `v1alpha1.RekorSearchUI` (rekor_types.go, lines 51-56). -/
structure RekorSearchUI where
  Enabled : Bool
  deriving DecidableEq, Repr

/-- `v1alpha1.BackFillRedis` (rekor_types.go, lines 58-67). -/
structure BackFillRedis where
  Enabled : Option Bool
  Schedule : String
  deriving DecidableEq, Repr

/-- `v1alpha1.RekorSpec` (rekor_types.go, lines 11-36). The fields
`ExternalAccess`, `Monitoring` and `Pvc` have types declared outside the sources
and are read by none of the embedded functions; they are left out.
`ExternalTrillian` is read by `CreateRekorDeployment`. -/
structure RekorSpec where
  TreeID : Option Int
  RekorSearchUI : RekorSearchUI
  Signer : RekorSigner
  BackFillRedis : BackFillRedis
  TrillianAddress : String
  TrillianPort : String
  ExternalTrillian : String
  deriving DecidableEq, Repr

/-- `v1alpha1.RekorStatus` (rekor_types.go, lines 70-84). `PublicKeyRef` is the
field read and written by `resolvePubKeyAction`. -/
structure RekorStatus where
  ServerConfigRef : Option LocalObjectReference
  Signer : RekorSigner
  PvcName : String
  Url : String
  RekorSearchUIUrl : String
  TreeID : Option Int
  PublicKeyRef : Option SecretKeySelector
  Conditions : List Condition
  deriving DecidableEq, Repr

/-- `v1alpha1.Rekor` (rekor_types.go, lines 92-98), with the `Name` and
`Namespace` of its `ObjectMeta`. -/
structure Rekor where
  Name : String
  Namespace : String
  Spec : RekorSpec
  Status : RekorStatus
  deriving DecidableEq, Repr

/-- The zero value `RekorSigner{}`. -/
def RekorSigner.zero : RekorSigner := ⟨"", none, none⟩

/-- The zero value `RekorSpec{}`. -/
def RekorSpec.zero : RekorSpec := ⟨none, ⟨false⟩, RekorSigner.zero, ⟨none, ""⟩, "", "", ""⟩

/-- The zero value `RekorStatus{}`. -/
def RekorStatus.zero : RekorStatus := ⟨none, RekorSigner.zero, "", "", "", none, none, []⟩

/-- The zero value `Rekor{}`. -/
def Rekor.zero : Rekor := ⟨"", "", RekorSpec.zero, RekorStatus.zero⟩

/-- `instance.Status.Conditions = conds`. -/
def Rekor.withConditions (inst : Rekor) (conds : List Condition) : Rekor :=
  { inst with Status := { inst.Status with Conditions := conds } }

/-- `instance.Status.PublicKeyRef = ref`. -/
def Rekor.withPublicKeyRef (inst : Rekor) (ref : Option SecretKeySelector) : Rekor :=
  { inst with Status := { inst.Status with PublicKeyRef := ref } }

namespace constants

/-- Modelled from the spec: the condition type and Reason `Ready` of package
`controllers/constants` (not among the sources). -/
def Ready : String := "Ready"

/-- Modelled from the spec: the Reason `Initialize` of package `controllers/constants`. -/
def Initialize : String := "Initialize"

/-- Modelled from the spec: the Reason `Pending` of package `controllers/constants`. -/
def Pending : String := "Pending"

/-- Modelled from the spec: the Reason `Creating` of package `controllers/constants`. -/
def Creating : String := "Creating"

/-- Modelled from the spec: the Reason `Failure` of package `controllers/constants`. -/
def Failure : String := "Failure"

end constants

namespace actions

/-- Modelled from the spec: the condition type `ServerCondition` of package
`controllers/rekor/actions` (not among the sources), named after the pattern of
the condition types in `controllers/securesign/actions/constants.go`. The
theorems use of it only that it differs from `Ready`. -/
def ServerCondition : String := "ServerAvailable"

/-- Modelled from the spec: `ServerDeploymentName` of package `controllers/rekor/actions`. -/
def ServerDeploymentName : String := "rekor-server"

/-- Modelled from the spec: `ServerComponentName` of package `controllers/rekor/actions`. -/
def ServerComponentName : String := "rekor-server"

end actions

/-- Modelled from the spec: the label `RekorPubLabel` (declared in package
`server` outside the sources; the comment at line 75 of resolve_pub_key.go names it). -/
def RekorPubLabel : String := "rhtas.redhat.com/rekor.pub"

/-- The constant `pubSecretNameFormat = "rekor-public-%s-"`, applied to its argument. -/
def pubSecretNameFormat (name : String) : String :=
  "rekor-public-" ++ name ++ "-"

namespace meta

/-- `meta.FindStatusCondition` (k8s.io/apimachinery): the first condition of the
given type, or nil. -/
def FindStatusCondition (conditions : List Condition) (conditionType : String) :
    Option Condition :=
  conditions.find? (fun c => c.Type_ == conditionType)

/-- `meta.IsStatusConditionTrue` (k8s.io/apimachinery): the first condition of
the given type is present and has status True. -/
def IsStatusConditionTrue (conditions : List Condition) (conditionType : String) : Bool :=
  match FindStatusCondition conditions conditionType with
  | some c => c.Status == metav1.ConditionTrue
  | none => false

/-- The update of an existing condition in `meta.SetStatusCondition`: the status
is taken over, with the transition time moved only when the status changed; the
reason, message and observed generation are taken over. -/
def mergeCondition (now : Nat) (existing newCondition : Condition) : Condition :=
  { Type_ := existing.Type_
    Status := newCondition.Status
    ObservedGeneration := newCondition.ObservedGeneration
    LastTransitionTime :=
      if existing.Status = newCondition.Status then existing.LastTransitionTime
      else if newCondition.LastTransitionTime = 0 then now
      else newCondition.LastTransitionTime
    Reason := newCondition.Reason
    Message := newCondition.Message }

/-- The walk of `meta.SetStatusCondition` over the ledger: the first condition
of the new condition's type is updated in place; when there is none the new
condition is appended, stamped with the current time if it carries none. -/
def SetStatusCondition (now : Nat) : List Condition → Condition → List Condition
  | [], newCondition =>
    [{ newCondition with
        LastTransitionTime :=
          if newCondition.LastTransitionTime = 0 then now else newCondition.LastTransitionTime }]
  | c :: rest, newCondition =>
    if c.Type_ == newCondition.Type_ then mergeCondition now c newCondition :: rest
    else c :: SetStatusCondition now rest newCondition

end meta

/-! ## `resolvePubKeyAction` -/

/-- `metav1.PartialObjectMetadata` of a secret: its name and labels. -/
structure PartialObjectMetadata where
  Name : String
  Labels : Labels
  deriving DecidableEq, Repr

/-- Modelled from the spec: the object built by `k8sutils.CreateImmutableSecret`
(package `controllers/common/utils/kubernetes`, not among the sources) from a
generate-name, a namespace, the data and the labels: a secret that is immutable.
`Owner` is the controller reference put on it by
`controllerutil.SetControllerReference`. -/
structure Secret where
  GenerateName : String
  Namespace : String
  Data : List (String × Bytes)
  Labels : Labels
  Immutable : Bool
  Owner : Option String
  deriving DecidableEq, Repr

/-- What `http.Get` and reading the body give for one request: a transport
error, or a response with its status code, status line, the bytes `io.ReadAll`
returns for the body and the error `io.ReadAll` returns. -/
inductive HttpReply where
  | transportError (err : GoError)
  | response (StatusCode : Nat) (Status : String) (Body : Bytes) (readErr : Option GoError)
  deriving DecidableEq, Repr

/-- `http.StatusOK`. -/
def StatusOK : Nat := 200

/-- `time.Second`, in nanoseconds, the unit of `time.Duration`. -/
def Second : Nat := 1000000000

/-- A call made by `resolvePubKeyAction` on one of its collaborators. -/
inductive Effect where
  | findSecret (ns label : String)
  | sleep (d : Nat)
  | httpGet (url : String)
  | logInfo (msg : String)
  | getSecretData (ns : String) (sks : SecretKeySelector)
  | delete (scr : PartialObjectMetadata)
  | event (eventtype reason message : String)
  | setControllerReference (owner : String) (secret : Secret)
  | create (secret : Secret)
  | failed (err : GoError)
  | statusUpdate (inst : Rekor)
  | failedWithStatusUpdate (err : GoError) (inst : Rekor)
  deriving DecidableEq, Repr

/-- Modelled from the spec: the helpers `Failed`, `StatusUpdate` and
`FailedWithStatusUpdate` of `action.BaseAction` (package `controllers/common/action`,
not among the sources), which build the `*action.Result` of an invocation (the
spec's `Failed(err)` and `StatusChanged`). `Failed` is given the error only;
the other two are given the instance, persist its status, and leave the
in-memory instance as it is. The results they return are parameters. -/
structure BaseAction where
  Failed : GoError → Option ActionResult
  StatusUpdate : Rekor → Option ActionResult
  FailedWithStatusUpdate : GoError → Rekor → Option ActionResult

/-- The answers of the collaborators of `resolvePubKeyAction` during one
invocation, next to the helpers of its embedded `BaseAction`:

* `findSecret`: the object returned by `k8sutils.FindSecret` (its error is dropped at line 54);
* `http n url`: the outcome of the `n`-th `http.Get` of the invocation, sent to `url`;
* `getSecretData`: the pair returned by `k8sutils.GetSecretData`;
* `delete`, `setControllerReference`: the error of `Client.Delete`, `SetControllerReference`;
* `create`: the error of `Client.Create`, or the name the API server gave the new secret;
* `now`: the clock read by `meta.SetStatusCondition`;
* `LabelsFor`: `constants.LabelsFor`. -/
structure Env extends BaseAction where
  findSecret : Option PartialObjectMetadata
  http : Nat → String → HttpReply
  getSecretData : Bytes × Option GoError
  delete : Option GoError
  setControllerReference : Option GoError
  create : Except GoError String
  now : Nat
  LabelsFor : String → String → String → Labels

namespace resolvePubKeyAction

/-- `resolvePubKeyAction.Name`. -/
def Name : String := "resolve public key"

/-- `resolvePubKeyAction.CanHandle` (lines 37-44). `none` is the run-time panic
of `c.Reason` on a nil `c`: the left operand of `||` is evaluated first. -/
def CanHandle (inst : Rekor) : Option Bool :=
  match meta.FindStatusCondition inst.Status.Conditions constants.Ready with
  | none => none
  | some c =>
    if (c.Reason != constants.Initialize && c.Reason != constants.Ready)
        || !meta.IsStatusConditionTrue inst.Status.Conditions actions.ServerCondition then
      some false
    else
      some (inst.Status.PublicKeyRef == none)

/-- `resolvePubKeyAction.requestPublicKey` (lines 152-168) issuing the `n`-th
request of the invocation: the returned pair `([]byte, error)` and the calls made.
The error of closing the body is only logged. -/
def requestPublicKey (i : Env) (n : Nat) (basePath : String) :
    (Bytes × Option GoError) × List Effect :=
  let url := basePath ++ "/api/v1/log/publicKey"
  match i.http n url with
  | .transportError err => (([], some err), [Effect.httpGet url])
  | .response StatusCode Status Body readErr =>
    if StatusCode = StatusOK then
      ((Body, readErr), [Effect.httpGet url])
    else
      (([], some ("unexpected http response " ++ Status)), [Effect.httpGet url])

/-- The loop of `resolvePubKey` (lines 141-147) over the remaining values of
`retry`, with the current value of `err`. Iteration `retry` issues request
number `retry`. -/
def resolvePubKeyLoop (i : Env) (inst : Rekor) :
    List Nat → Option GoError → (Bytes × Option GoError) × List Effect
  | [], err => (([], err), [])
  | retry :: rest, _ =>
    let sleep := Effect.sleep (retry * Second)
    let req := requestPublicKey i retry
      ("http://" ++ actions.ServerDeploymentName ++ "." ++ inst.Namespace ++ ".svc")
    match req.1.2 with
    | none => ((req.1.1, none), sleep :: req.2)
    | some err =>
      let next := resolvePubKeyLoop i inst rest (some err)
      (next.1, sleep :: req.2 ++ Effect.logInfo "retrying to get rekor public key" :: next.2)

/-- `resolvePubKeyAction.resolvePubKey` (lines 136-150):
`for retry := 1; retry < 5; retry++` runs through `retry = 1, 2, 3, 4`. -/
def resolvePubKey (i : Env) (inst : Rekor) : (Bytes × Option GoError) × List Effect :=
  resolvePubKeyLoop i inst [1, 2, 3, 4] none

/-- What `Handle` leaves behind: the instance as mutated through the pointer,
the returned `*action.Result` and the calls made, in order. -/
structure HandleOut where
  inst : Rekor
  result : Option ActionResult
  effects : List Effect
  deriving DecidableEq, Repr

/-- Lines 54-61 of `Handle`: the selector `sks` built from the secret found by
label, when that secret carries the label. -/
def discover (scr : Option PartialObjectMetadata) : Option SecretKeySelector :=
  match scr with
  | none => none
  | some scr =>
    match scr.Labels.get? RekorPubLabel with
    | some key => some ⟨⟨scr.Name⟩, key⟩
    | none => none

/-- The test of line 64: a selector was discovered, `Status.Signer.KeyRef` is
set, and both name the same secret. -/
def usesDiscovered (sks : Option SecretKeySelector) (inst : Rekor) : Bool :=
  match sks, inst.Status.Signer.KeyRef with
  | some sks, some keyRef => sks.Name == keyRef.Name
  | _, _ => false

/-- Lines 97-133 of `Handle`: create the new secret with the public key. `pre`
are the calls made so far. -/
def createSecret (i : Env) (inst : Rekor) (publicKey : Bytes) (pre : List Effect) : HandleOut :=
  let keyName := "public"
  let labels := (i.LabelsFor actions.ServerComponentName actions.ServerDeploymentName
    inst.Name).set RekorPubLabel keyName
  let newConfig : Secret :=
    ⟨pubSecretNameFormat inst.Name, inst.Namespace, [(keyName, publicKey)], labels, true, none⟩
  let pre := pre ++ [Effect.setControllerReference inst.Name newConfig]
  match i.setControllerReference with
  | some err =>
    let err := "could not set controller reference for Secret: " ++ err
    ⟨inst, i.Failed err, pre ++ [Effect.failed err]⟩
  | none =>
    let newConfig := { newConfig with Owner := some inst.Name }
    let pre := pre ++ [Effect.create newConfig]
    match i.create with
    | .error err =>
      let conds := meta.SetStatusCondition i.now inst.Status.Conditions
        ⟨actions.ServerCondition, metav1.ConditionFalse, 0, 0, constants.Failure, err⟩
      let conds := meta.SetStatusCondition i.now conds
        ⟨constants.Ready, metav1.ConditionFalse, 0, 0, constants.Failure, err⟩
      let inst := inst.withConditions conds
      ⟨inst, i.FailedWithStatusUpdate err inst, pre ++ [Effect.failedWithStatusUpdate err inst]⟩
    | .ok name =>
      let pre := pre ++
        [Effect.event "Normal" "PublicKeySecretCreated" ("New Rekor public key created: " ++ name)]
      let conds := meta.SetStatusCondition i.now inst.Status.Conditions
        ⟨actions.ServerCondition, metav1.ConditionFalse, 0, 0, constants.Ready,
          "Server config created"⟩
      let inst := inst.withConditions conds
      ⟨inst, i.StatusUpdate inst, pre ++ [Effect.statusUpdate inst]⟩

/-- `resolvePubKeyAction.Handle` (lines 46-134). -/
def Handle (i : Env) (inst : Rekor) : HandleOut :=
  let scr := i.findSecret
  let sks := discover scr
  let fx := [Effect.findSecret inst.Namespace RekorPubLabel]
  -- Use discovered public key if it is stored in same secret like private key
  if usesDiscovered sks inst then
    let inst := inst.withPublicKeyRef sks
    ⟨inst, i.StatusUpdate inst, fx ++ [Effect.statusUpdate inst]⟩
  else
    -- Resolve public key from Rekors API
    let resolved := resolvePubKey i inst
    let publicKey := resolved.1.1
    let fx := fx ++ resolved.2
    match resolved.1.2 with
    | some err => ⟨inst, i.Failed err, fx ++ [Effect.failed err]⟩
    | none =>
      -- Compare key from API and from discovered secret
      match sks, scr with
      | some sks, some scr =>
        let fx := fx ++ [Effect.getSecretData inst.Namespace sks]
        match i.getSecretData.2 with
        | some err => ⟨inst, i.Failed err, fx ++ [Effect.failed err]⟩
        | none =>
          let sksPublicKey := i.getSecretData.1
          if sksPublicKey = publicKey then
            let inst := inst.withPublicKeyRef (some sks)
            ⟨inst, i.StatusUpdate inst, fx ++ [Effect.statusUpdate inst]⟩
          else
            -- Delete secret
            let fx := fx ++ [Effect.delete scr]
            match i.delete with
            | some err => ⟨inst, i.Failed err, fx ++ [Effect.failed err]⟩
            | none =>
              createSecret i inst publicKey (fx ++
                [Effect.event "Normal" "PublicKeySecretDeleted"
                  ("Secret with public key deleted: " ++ scr.Name)])
      | _, _ => createSecret i inst publicKey fx

end resolvePubKeyAction

/-! ## Properties of the ledger and of call lists -/

/-- Condition consistency of a ledger: `Ready` is True iff every other
condition of the ledger is True. -/
def ConditionConsistent (conditions : List Condition) : Prop :=
  meta.IsStatusConditionTrue conditions constants.Ready = true ↔
    ∀ c ∈ conditions, c.Type_ ≠ constants.Ready → c.Status = metav1.ConditionTrue

/-- The durations slept, in order. -/
def sleeps : List Effect → List Nat
  | [] => []
  | Effect.sleep d :: rest => d :: sleeps rest
  | _ :: rest => sleeps rest

/-- The number of HTTP requests issued. -/
def requests : List Effect → Nat
  | [] => 0
  | Effect.httpGet _ :: rest => requests rest + 1
  | _ :: rest => requests rest

/-- A call that `resolvePubKey` makes: a sleep, a request or a log line. -/
def Effect.isResolver : Effect → Bool
  | .sleep _ => true
  | .httpGet _ => true
  | .logInfo _ => true
  | _ => false

/-- The event recorded at line 126, after the new secret has been created. -/
def Effect.isCreated : Effect → Bool
  | .event _ reason _ => reason == "PublicKeySecretCreated"
  | _ => false

/-- The calls include the event of line 126: a new secret has been created. -/
def created (fx : List Effect) : Bool :=
  fx.any Effect.isCreated

/-- The `Ready` condition of a ledger is False with a Reason of the vocabulary
`Pending`, `Creating`, `Failure`. -/
def ReadyFalseWithReason (conditions : List Condition) : Bool :=
  match meta.FindStatusCondition conditions constants.Ready with
  | some c =>
    c.Status == metav1.ConditionFalse &&
      (c.Reason == constants.Pending || c.Reason == constants.Creating
        || c.Reason == constants.Failure)
  | none => false

instance (conditions : List Condition) : Decidable (ConditionConsistent conditions) := by
  unfold ConditionConsistent
  infer_instance

/-- The ledger written at lines 111-122, when creating the secret failed with `err`. -/
def ledgerAfterCreateFailure (i : Env) (inst : Rekor) (err : GoError) : List Condition :=
  meta.SetStatusCondition i.now
    (meta.SetStatusCondition i.now inst.Status.Conditions
      ⟨actions.ServerCondition, metav1.ConditionFalse, 0, 0, constants.Failure, err⟩)
    ⟨constants.Ready, metav1.ConditionFalse, 0, 0, constants.Failure, err⟩

/-- The ledger written at lines 127-132, after the secret has been created. -/
def ledgerAfterCreate (i : Env) (inst : Rekor) : List Condition :=
  meta.SetStatusCondition i.now inst.Status.Conditions
    ⟨actions.ServerCondition, metav1.ConditionFalse, 0, 0, constants.Ready,
      "Server config created"⟩

/-- The ways an invocation of `Handle` on `inst` can end, read off its outcome:

* success without a new secret: the ledger is as before, no failure helper was called;
* failure through `Failed`: the instance is as before and the last call is `Failed`;
* failed `Create`: the ledger is that of lines 111-122 and the last call is
  `FailedWithStatusUpdate` on it;
* created secret: the ledger is that of lines 127-132 and the event of line 126 was recorded. -/
def HandleEnds (i : Env) (inst : Rekor) (out : resolvePubKeyAction.HandleOut) : Prop :=
  (out.inst.Status.Conditions = inst.Status.Conditions ∧ created out.effects = false ∧
    (∀ e, Effect.failed e ∉ out.effects) ∧
    (∀ e x, Effect.failedWithStatusUpdate e x ∉ out.effects)) ∨
  (out.inst = inst ∧ created out.effects = false ∧
    (∀ e x, Effect.failedWithStatusUpdate e x ∉ out.effects) ∧
    ∃ err, out.effects.getLast? = some (Effect.failed err)) ∨
  (∃ err, i.create = .error err ∧
    out.inst = inst.withConditions (ledgerAfterCreateFailure i inst err) ∧
    created out.effects = false ∧
    (∀ e, Effect.failed e ∉ out.effects) ∧
    out.effects.getLast? = some (Effect.failedWithStatusUpdate err
      (inst.withConditions (ledgerAfterCreateFailure i inst err)))) ∨
  (∃ name, i.create = .ok name ∧
    out.inst = inst.withConditions (ledgerAfterCreate i inst) ∧
    created out.effects = true ∧
    (∀ e, Effect.failed e ∉ out.effects) ∧
    (∀ e x, Effect.failedWithStatusUpdate e x ∉ out.effects))

/-- The base path `resolvePubKey` sends its requests to (line 143). -/
def resolvePubKeyAction.basePath (inst : Rekor) : String :=
  "http://" ++ actions.ServerDeploymentName ++ "." ++ inst.Namespace ++ ".svc"

/-- The error returned by `requestPublicKey` for the `n`-th request of
`resolvePubKey`; `none` when the request succeeds. -/
def resolvePubKeyAction.requestError (i : Env) (inst : Rekor) (n : Nat) : Option GoError :=
  (resolvePubKeyAction.requestPublicKey i n (resolvePubKeyAction.basePath inst)).1.2

/-- The data returned by `requestPublicKey` for the `n`-th request of `resolvePubKey`. -/
def resolvePubKeyAction.requestData (i : Env) (inst : Rekor) (n : Nat) : Bytes :=
  (resolvePubKeyAction.requestPublicKey i n (resolvePubKeyAction.basePath inst)).1.1

/-- The total time slept, in nanoseconds. -/
def totalSlept (fx : List Effect) : Nat :=
  (sleeps fx).sum

/-- The URL `requestPublicKey` sends the requests of `resolvePubKey` to
(lines 143 and 153). -/
def resolvePubKeyAction.url (inst : Rekor) : String :=
  resolvePubKeyAction.basePath inst ++ "/api/v1/log/publicKey"

/-- The calls of an iteration of `resolvePubKey` whose request fails: the
sleep, the request and the log line of line 146. -/
def resolvePubKeyAction.failedAttempt (inst : Rekor) (retry : Nat) : List Effect :=
  [ Effect.sleep (retry * Second), Effect.httpGet (resolvePubKeyAction.url inst),
    Effect.logInfo "retrying to get rekor public key" ]

/-- The calls of the iterations `1, ..., n` of `resolvePubKey` when all of
their requests fail. -/
def resolvePubKeyAction.failedAttempts (inst : Rekor) : Nat → List Effect
  | 0 => []
  | n + 1 =>
    resolvePubKeyAction.failedAttempts inst n ++ resolvePubKeyAction.failedAttempt inst (n + 1)

/-- The number of `Client.Delete` calls. -/
def deletes : List Effect → Nat
  | [] => 0
  | Effect.delete _ :: rest => deletes rest + 1
  | _ :: rest => deletes rest

/-- The number of `Client.Create` calls. -/
def creates : List Effect → Nat
  | [] => 0
  | Effect.create _ :: rest => creates rest + 1
  | _ :: rest => creates rest

/-- The secret `Handle` submits to `Client.Create` for the resolved key
`publicKey` (lines 98-106). -/
def newPublicKeySecret (i : Env) (inst : Rekor) (publicKey : Bytes) : Secret :=
  { GenerateName := pubSecretNameFormat inst.Name
    Namespace := inst.Namespace
    Data := [("public", publicKey)]
    Labels := (i.LabelsFor actions.ServerComponentName actions.ServerDeploymentName
      inst.Name).set RekorPubLabel "public"
    Immutable := true
    Owner := some inst.Name }

/-! ## `CreateRekorDeployment` -/

namespace core

/-- `core.KeyToPath`. -/
structure KeyToPath where
  Key : String
  Path : String
  deriving DecidableEq, Repr

/-- `core.SecretVolumeSource`. -/
structure SecretVolumeSource where
  SecretName : String
  Items : List KeyToPath
  deriving DecidableEq, Repr

/-- `core.ConfigMapVolumeSource`, with the `Name` of its `LocalObjectReference`. -/
structure ConfigMapVolumeSource where
  Name : String
  deriving DecidableEq, Repr

/-- `core.PersistentVolumeClaimVolumeSource`. -/
structure PersistentVolumeClaimVolumeSource where
  ClaimName : String
  deriving DecidableEq, Repr

/-- `core.VolumeSource`, with the three sources `CreateRekorDeployment` uses. -/
structure VolumeSource where
  ConfigMap : Option ConfigMapVolumeSource
  PersistentVolumeClaim : Option PersistentVolumeClaimVolumeSource
  Secret : Option SecretVolumeSource
  deriving DecidableEq, Repr

/-- `core.Volume`. -/
structure Volume where
  Name : String
  VolumeSource : VolumeSource
  deriving DecidableEq, Repr

/-- `core.VolumeMount`. -/
structure VolumeMount where
  Name : String
  MountPath : String
  ReadOnly : Bool
  deriving DecidableEq, Repr

/-- `core.SecretKeySelector`, with the `Name` of its `LocalObjectReference`. -/
structure SecretKeySelector where
  Name : String
  Key : String
  deriving DecidableEq, Repr

/-- `core.EnvVarSource`. -/
structure EnvVarSource where
  SecretKeyRef : Option SecretKeySelector
  deriving DecidableEq, Repr

/-- `core.EnvVar`. -/
structure EnvVar where
  Name : String
  ValueFrom : Option EnvVarSource
  deriving DecidableEq, Repr

set_option linter.dupNamespace false in
/-- `core.ContainerPort`. -/
structure ContainerPort where
  ContainerPort : Int
  Name : String
  Protocol : String
  deriving DecidableEq, Repr

/-- `core.Container`. -/
structure Container where
  Name : String
  Image : String
  Ports : List ContainerPort
  Env : List EnvVar
  Args : List String
  VolumeMounts : List VolumeMount
  deriving DecidableEq, Repr

/-- `core.PodSpec`. -/
structure PodSpec where
  ServiceAccountName : String
  Volumes : List Volume
  Containers : List Container
  deriving DecidableEq, Repr

/-- `core.PodTemplateSpec`, with the `Labels` of its `ObjectMeta`. -/
structure PodTemplateSpec where
  Labels : Labels
  Spec : PodSpec
  deriving DecidableEq, Repr

end core

namespace apps

/-- `apps.DeploymentSpec`; `Selector` holds the `MatchLabels` of the label selector. -/
structure DeploymentSpec where
  Replicas : Option Int
  Selector : Labels
  Template : core.PodTemplateSpec
  deriving DecidableEq, Repr

/-- `apps.Deployment`, with the `Name`, `Namespace` and `Labels` of its `ObjectMeta`. -/
structure Deployment where
  Name : String
  Namespace : String
  Labels : Labels
  Spec : DeploymentSpec
  deriving DecidableEq, Repr

end apps

namespace utils

/-- `CreateRekorDeployment` (rekor_deployment.go, lines 14-177). The constant
`constants.RekorServerImage` (package `controllers/constants`, not among the
sources) is the parameter `RekorServerImage`. `%d` of the tree id is its decimal
representation. The four local slices `env`, `appArgs`, `volumes` and
`volumeMounts` are threaded through the two `if` blocks of lines 73-123 and the
deployment of lines 126-176 is built from them. -/
def CreateRekorDeployment (RekorServerImage : String) (inst : Rekor) (dpName : String)
    (sa : String) (labels : Labels) : Except GoError apps.Deployment :=
  match inst.Status.ServerConfigRef with
  | none => .error "server config name not specified"
  | some serverConfigRef =>
    match inst.Status.TreeID with
    | none => .error "reference to trillian TreeID not set"
    | some treeID =>
      let env : List core.EnvVar := []
      let trillianNamespace :=
        if inst.Spec.ExternalTrillian != "" then inst.Spec.ExternalTrillian else inst.Namespace
      let appArgs : List String :=
        [ "serve",
          "--trillian_log_server.address=trillian-logserver." ++ trillianNamespace ++ ".svc",
          "--trillian_log_server.port=8091",
          "--trillian_log_server.sharding_config=/sharding/sharding-config.yaml",
          "--redis_server.address=rekor-redis",
          "--redis_server.port=6379",
          "--rekor_server.address=0.0.0.0",
          "--enable_retrieve_api=true",
          "--trillian_log_server.tlog_id=" ++ toString treeID,
          "--enable_attestation_storage",
          "--attestation_storage_bucket=file:///var/run/attestations" ]
      let volumes : List core.Volume :=
        [ ⟨"rekor-sharding-config", ⟨some ⟨serverConfigRef.Name⟩, none, none⟩⟩,
          ⟨"storage", ⟨none, some ⟨inst.Status.PvcName⟩, none⟩⟩ ]
      let volumeMounts : List core.VolumeMount :=
        [ ⟨"rekor-sharding-config", "/sharding", false⟩,
          ⟨"storage", "/var/run/attestations", false⟩ ]
      -- KMS memory
      let appArgs :=
        if inst.Spec.Signer.KMS == "memory" then appArgs ++ ["--rekor_server.signer=memory"]
        else appArgs
      -- KMS secret
      let slices : Except GoError
          (List core.EnvVar × List String × List core.Volume × List core.VolumeMount) :=
        if inst.Spec.Signer.KMS == "secret" || inst.Spec.Signer.KMS == "" then
          match inst.Status.Signer.KeyRef with
          | none => .error "signer key ref not specified"
          | some keyRef =>
            let svsPrivate : core.SecretVolumeSource :=
              ⟨keyRef.Name, [⟨keyRef.Key, "private"⟩]⟩
            let appArgs := appArgs ++ ["--rekor_server.signer=/key/private"]
            let volumes := volumes ++ [⟨"rekor-private-key-volume", ⟨none, none, some svsPrivate⟩⟩]
            let volumeMounts := volumeMounts ++ [⟨"rekor-private-key-volume", "/key", true⟩]
            -- Add signer password
            match inst.Status.Signer.PasswordRef with
            | some passwordRef =>
              .ok (env ++ [⟨"SIGNER_PASSWORD", some ⟨some ⟨passwordRef.Name, passwordRef.Key⟩⟩⟩],
                appArgs ++ ["--rekor_server.signer-passwd=$(SIGNER_PASSWORD)"],
                volumes, volumeMounts)
            | none => .ok (env, appArgs, volumes, volumeMounts)
        else .ok (env, appArgs, volumes, volumeMounts)
      match slices with
      | .error err => .error err
      | .ok (env, appArgs, volumes, volumeMounts) =>
        let replicas : Int := 1
        .ok
          { Name := dpName
            Namespace := inst.Namespace
            Labels := labels
            Spec :=
              { Replicas := some replicas
                Selector := labels
                Template :=
                  { Labels := labels
                    Spec :=
                      { ServiceAccountName := sa
                        Volumes := volumes
                        Containers :=
                          [ { Name := dpName
                              Image := RekorServerImage
                              Ports := [⟨3000, "rekor-server", ""⟩, ⟨2112, "", "TCP"⟩]
                              Env := env
                              Args := appArgs
                              VolumeMounts := volumeMounts } ] } } } }

end utils

/-- The arguments of lines 29-41, before a signer is configured. -/
def utils.baseArgs (inst : Rekor) (treeID : Int) : List String :=
  [ "serve",
    "--trillian_log_server.address=trillian-logserver."
      ++ (if inst.Spec.ExternalTrillian != "" then inst.Spec.ExternalTrillian
          else inst.Namespace) ++ ".svc",
    "--trillian_log_server.port=8091",
    "--trillian_log_server.sharding_config=/sharding/sharding-config.yaml",
    "--redis_server.address=rekor-redis",
    "--redis_server.port=6379",
    "--rekor_server.address=0.0.0.0",
    "--enable_retrieve_api=true",
    "--trillian_log_server.tlog_id=" ++ toString treeID,
    "--enable_attestation_storage",
    "--attestation_storage_bucket=file:///var/run/attestations" ]

/-- The pod volume of lines 94-99 for the signer key selected by `keyRef`. -/
def utils.privateKeyVolume (keyRef : SecretKeySelector) : core.Volume :=
  ⟨"rekor-private-key-volume", ⟨none, none, some ⟨keyRef.Name, [⟨keyRef.Key, "private"⟩]⟩⟩⟩

/-- The environment of lines 109-122 for the signer password selected by
`passwordRef`: empty when there is none. -/
def utils.passwordEnv (passwordRef : Option SecretKeySelector) : List core.EnvVar :=
  match passwordRef with
  | some passwordRef => [⟨"SIGNER_PASSWORD", some ⟨some ⟨passwordRef.Name, passwordRef.Key⟩⟩⟩]
  | none => []

/-- The argument of line 110 for the signer password selected by `passwordRef`:
none when there is no password. -/
def utils.passwordArgs (passwordRef : Option SecretKeySelector) : List String :=
  match passwordRef with
  | some _ => ["--rekor_server.signer-passwd=$(SIGNER_PASSWORD)"]
  | none => []

/-- `instance.Status.Signer.KeyRef = ref`. -/
def Rekor.withSignerKeyRef (inst : Rekor) (ref : Option SecretKeySelector) : Rekor :=
  { inst with Status := { inst.Status with Signer := { inst.Status.Signer with KeyRef := ref } } }

/-- `instance.Status.Signer.PasswordRef = ref`. -/
def Rekor.withSignerPasswordRef (inst : Rekor) (ref : Option SecretKeySelector) : Rekor :=
  { inst with
    Status := { inst.Status with Signer := { inst.Status.Signer with PasswordRef := ref } } }

/-- Secret-based signing: `Spec.Signer.KMS` is `secret` or empty (line 79). -/
def secretSigning (inst : Rekor) : Prop :=
  inst.Spec.Signer.KMS = "secret" ∨ inst.Spec.Signer.KMS = ""

/-- The string `a` starts with the string `p`. -/
def startsWith (p a : String) : Bool :=
  a.data.take p.length == p.data

/-- The arguments that configure the signer: those of the form
`--rekor_server.signer=...`. -/
def signerArgs (args : List String) : List String :=
  args.filter (startsWith "--rekor_server.signer=")

/-- The arguments that pass a signer password: those of the form
`--rekor_server.signer-passwd=...`. -/
def signerPasswdArgs (args : List String) : List String :=
  args.filter (startsWith "--rekor_server.signer-passwd=")

/-- The arguments of the one container of a synthesized deployment; empty when
synthesis failed. -/
def containerArgs (r : Except GoError apps.Deployment) : List String :=
  match r with
  | .ok d => (d.Spec.Template.Spec.Containers.map (fun c => c.Args)).flatten
  | .error _ => []

/-- `instance.Spec.TrillianAddress = address; instance.Spec.TrillianPort = port`. -/
def Rekor.withTrillian (inst : Rekor) (address port : String) : Rekor :=
  { inst with Spec := { inst.Spec with TrillianAddress := address, TrillianPort := port } }

/-- `instance.Spec.Signer.KMS = kms`. -/
def Rekor.withKMS (inst : Rekor) (kms : String) : Rekor :=
  { inst with Spec := { inst.Spec with Signer := { inst.Spec.Signer with KMS := kms } } }

/-! ## What an invocation writes, and why `Handle` fails -/

/-- The state the `Handle`s of the logged calls leave when they are run, in the
order of the log, from target `t` and cluster `c`: a logged `Handle` on position
`idx` runs the `Handle` of `acs[idx]`, a logged `CanHandle` writes nothing. -/
def replay {T C : Type} (acs : List (Action T C)) : List Call → T → C → T × C
  | [], t, c => (t, c)
  | Call.canHandle _ _ :: rest, t, c => replay acs rest t c
  | Call.handle idx _ :: rest, t, c =>
    match acs[idx]? with
    | some a => replay acs rest (a.Handle t c).1.1 (a.Handle t c).1.2
    | none => replay acs rest t c

/-- The public key cannot be resolved from the API: `Handle` gets past line 66
(the discovered secret is not the one of the signer key) and `resolvePubKey`
returns the error `err` (lines 70-73). -/
def resolveFails (i : Env) (inst : Rekor) (err : GoError) : Prop :=
  resolvePubKeyAction.usesDiscovered (resolvePubKeyAction.discover i.findSecret) inst = false ∧
    (resolvePubKeyAction.resolvePubKey i inst).1.2 = some err

/-- Reading the discovered secret fails: the key has been resolved, a labelled
secret was discovered, and `GetSecretData` returns the error `err` (lines 78-83). -/
def readFails (i : Env) (inst : Rekor) (err : GoError) : Prop :=
  resolvePubKeyAction.usesDiscovered (resolvePubKeyAction.discover i.findSecret) inst = false ∧
    (resolvePubKeyAction.resolvePubKey i inst).1.2 = none ∧
    resolvePubKeyAction.discover i.findSecret ≠ none ∧
    i.getSecretData.2 = some err

/-- Deleting the stale secret fails: the key has been resolved, the discovered
secret holds other data, and `Client.Delete` returns the error `err`
(lines 85-93). -/
def deleteFails (i : Env) (inst : Rekor) (err : GoError) : Prop :=
  resolvePubKeyAction.usesDiscovered (resolvePubKeyAction.discover i.findSecret) inst = false ∧
    (resolvePubKeyAction.resolvePubKey i inst).1.2 = none ∧
    resolvePubKeyAction.discover i.findSecret ≠ none ∧
    i.getSecretData.2 = none ∧
    i.getSecretData.1 ≠ (resolvePubKeyAction.resolvePubKey i inst).1.1 ∧
    i.delete = some err

/-- `Handle` reaches line 97, where the new secret is built: the key has been
resolved and either no labelled secret was discovered, or the discovered secret
held other data and has been deleted. -/
def reachesCreate (i : Env) (inst : Rekor) : Prop :=
  resolvePubKeyAction.usesDiscovered (resolvePubKeyAction.discover i.findSecret) inst = false ∧
    (resolvePubKeyAction.resolvePubKey i inst).1.2 = none ∧
    (resolvePubKeyAction.discover i.findSecret = none ∨
      (i.getSecretData.2 = none ∧
        i.getSecretData.1 ≠ (resolvePubKeyAction.resolvePubKey i inst).1.1 ∧
        i.delete = none))

/-- Setting the owner reference fails: `Handle` reaches line 97 and
`SetControllerReference` returns the error `err` (lines 106-108). -/
def ownerFails (i : Env) (inst : Rekor) (err : GoError) : Prop :=
  reachesCreate i inst ∧ i.setControllerReference = some err

/-- Creating the new secret fails: `Handle` reaches line 97, the owner reference
is set and `Client.Create` returns the error `err` (lines 110-124). -/
def createFails (i : Env) (inst : Rekor) (err : GoError) : Prop :=
  reachesCreate i inst ∧ i.setControllerReference = none ∧ i.create = .error err

/-! ## The validation rules of `Enabled` -/

/-- The rule of the `XValidation` marker on `RekorSearchUI.Enabled`
(rekor_types.go, line 53): `(self || !oldSelf)`. -/
def RekorSearchUI.EnabledRule (self oldSelf : Bool) : Bool :=
  self || !oldSelf

/-- The message of the `XValidation` marker on `RekorSearchUI.Enabled`
(rekor_types.go, line 53). -/
def RekorSearchUI.EnabledMessage : String := "Feature cannot be disabled"

/-- The rule of the `XValidation` marker on `BackFillRedis.Enabled`
(rekor_types.go, line 60), on the values the pointers point to:
`(self || !oldSelf)`. -/
def BackFillRedis.EnabledRule (self oldSelf : Bool) : Bool :=
  self || !oldSelf

/-- The message of the `XValidation` marker on `BackFillRedis.Enabled`
(rekor_types.go, line 60). -/
def BackFillRedis.EnabledMessage : String := "Feature cannot be disabled"

/-- The meaning of an `XValidation` marker with a transition rule: the update of
the field from `oldSelf` to `self` is accepted when the rule evaluates to true,
and it is refused with the message of the marker otherwise. -/
def XValidation (rule : Bool → Bool → Bool) (message : String) (oldSelf self : Bool) :
    Except GoError Unit :=
  if rule self oldSelf then .ok () else .error message

/-- The update of `Spec.RekorSearchUI` from `old` to `new`, validated by the
marker on `Enabled`. -/
def RekorSearchUI.validateUpdate (old new : RekorSearchUI) : Except GoError Unit :=
  XValidation RekorSearchUI.EnabledRule RekorSearchUI.EnabledMessage old.Enabled new.Enabled

/-- The update of the value of `BackFillRedis.Enabled` from `oldSelf` to `self`,
validated by the marker on the field. -/
def BackFillRedis.validateEnabled (oldSelf self : Bool) : Except GoError Unit :=
  XValidation BackFillRedis.EnabledRule BackFillRedis.EnabledMessage oldSelf self

/-- The successive values of an `Enabled` field, each update of which is
accepted by `validate`. -/
def AcceptedUpdates (validate : Bool → Bool → Except GoError Unit) (values : List Bool) : Prop :=
  List.Chain' (fun oldSelf self => validate oldSelf self = .ok ()) values

/-- Once true, always true: no value that follows a true one is false. -/
def NeverDisabled (values : List Bool) : Prop :=
  List.Pairwise (fun earlier later => earlier = true → later = true) values

/-! ## The generate-signer Action -/

/-- Modelled from the spec: the condition type `SignerCondition` of package
`internal/controller/rekor/actions` (not among the sources;
generate_signer_test.go refers to it), named after the pattern of
`ServerCondition`. The theorems use of it only that it differs from
`ServerCondition`. -/
def actions.SignerCondition : String := "SignerAvailable"

/-- `meta.IsStatusConditionFalse` (k8s.io/apimachinery): the first condition of
the given type is present and has status False. -/
def meta.IsStatusConditionFalse (conditions : List Condition) (conditionType : String) : Bool :=
  match meta.FindStatusCondition conditions conditionType with
  | some c => c.Status == metav1.ConditionFalse
  | none => false

namespace generateSigner

/-- Modelled from the spec: `CanHandle` of the generate-signer Action
(generate_signer.go is not among the sources; its table of expected answers is
`TestGenerateSigner_CanHandle`). The Action applies when the `SignerCondition`
is not True, when secret-based signing has no key reference in Status, and when
Status does not mirror Spec: another KMS, another password reference, or a key
reference given by Spec that Status does not hold. -/
def CanHandle (inst : Rekor) : Bool :=
  if !meta.IsStatusConditionTrue inst.Status.Conditions actions.SignerCondition then
    true
  else if (inst.Spec.Signer.KMS == "secret" || inst.Spec.Signer.KMS == "")
      && inst.Status.Signer.KeyRef == none then
    true
  else if inst.Spec.Signer.KMS != inst.Status.Signer.KMS then
    true
  else if inst.Spec.Signer.PasswordRef != inst.Status.Signer.PasswordRef then
    true
  else
    match inst.Spec.Signer.KeyRef with
    | none => false
    | some keyRef => inst.Status.Signer.KeyRef != some keyRef

/-- Modelled from the spec: the generate-name of the secret with the generated
signer key, `rekor-signer-<instance name>-`. -/
def secretNameFormat (name : String) : String :=
  "rekor-signer-" ++ name ++ "-"

/-- Modelled from the spec: the signer that `Handle` of the generate-signer
Action records in Status. The KMS is the one of Spec. A key reference given by
Spec is taken over together with the password reference of Spec; without one,
secret-based signing gets the reference to the generated key (`suffix` is what
the API server appends to the generate-name of its secret) and no password
reference, and every other KMS gets no reference at all. -/
def effectiveSigner (suffix : String) (inst : Rekor) : RekorSigner :=
  match inst.Spec.Signer.KeyRef with
  | some keyRef => ⟨inst.Spec.Signer.KMS, inst.Spec.Signer.PasswordRef, some keyRef⟩
  | none =>
    if inst.Spec.Signer.KMS == "secret" || inst.Spec.Signer.KMS == "" then
      ⟨inst.Spec.Signer.KMS, none, some ⟨⟨secretNameFormat inst.Name ++ suffix⟩, "private"⟩⟩
    else
      ⟨inst.Spec.Signer.KMS, none, none⟩

/-- Modelled from the spec: `Handle` of the generate-signer Action
(generate_signer.go is not among the sources; its table of expected outcomes is
`TestGenerateSigner_Handle`): the instance as mutated through the pointer and
the returned `*action.Result`. Status gets the effective signer, the
`SignerCondition` becomes True and the `ServerCondition` False with Reason
`Pending`, and the result is the one of `StatusUpdate`. The spec describes no
failure of the generation of the key. -/
def Handle (i : BaseAction) (now : Nat) (suffix : String) (inst : Rekor) :
    Rekor × Option ActionResult :=
  let conds := meta.SetStatusCondition now inst.Status.Conditions
    ⟨actions.SignerCondition, metav1.ConditionTrue, 0, 0, constants.Ready, ""⟩
  let conds := meta.SetStatusCondition now conds
    ⟨actions.ServerCondition, metav1.ConditionFalse, 0, 0, constants.Pending, ""⟩
  let inst :=
    { inst with
      Status := { inst.Status with Signer := effectiveSigner suffix inst, Conditions := conds } }
  (inst, i.StatusUpdate inst)

end generateSigner

/-! ## Example inputs -/

/-- A reconciler over a cluster that counts the writes made to it, with two
Actions that both apply: the first writes and returns Continue (nil), the
second writes and returns an empty, error-free result. -/
def twoHandles : Reconciler Unit Nat :=
  { Get := fun _ => .ok ()
    IsNotFound := fun _ => false
    acs :=
      [ ⟨"first", fun _ _ => true, fun t c => ((t, c + 1), none)⟩,
        ⟨"second", fun _ _ => true, fun t c => ((t, c + 1), some ⟨ReconcileResult.empty, none⟩)⟩ ] }

/-- A reconciler over a cluster that counts the writes made to it, with `n`
Actions that all apply, write and return Continue (nil). -/
def continuing (n : Nat) : Reconciler Unit Nat :=
  { Get := fun _ => .ok ()
    IsNotFound := fun _ => false
    acs := List.replicate n ⟨"continue", fun _ _ => true, fun t c => ((t, c + 1), none)⟩ }

/-- An Action that applies while the cluster counter is below 1, writes and
returns Continue (nil). -/
def deferring : Action Unit Nat :=
  ⟨"deferring", fun _ c => decide (c < 1), fun t c => ((t, c + 1), none)⟩

/-- An Action that never applies. -/
def idle : Action Unit Nat :=
  ⟨"idle", fun _ _ => false, fun t c => ((t, c + 1), none)⟩

/-- An Action that always applies, writes, and fails with error `boom`, asking
to be requeued after five seconds. -/
def failing : Action Unit Nat :=
  ⟨"failing", fun _ _ => true, fun t c => ((t, c + 1), some ⟨⟨false, 5 * Second⟩, some "boom"⟩)⟩

/-- A reconciler whose resource always loads, over given Actions. -/
def loaded (acs : List (Action Unit Nat)) : Reconciler Unit Nat :=
  { Get := fun _ => .ok (), IsNotFound := fun _ => false, acs := acs }

/-- A reconciler whose resource fails to load with the error `gone`, which
`IsNotFound` recognises, or with any other error. -/
def unloadable (err : GoError) : Reconciler Unit Nat :=
  { Get := fun _ => .error err, IsNotFound := fun e => e == "gone", acs := [failing] }

/-- A Rekor named `rekor` in namespace `default` without public key reference,
whose ledger holds `Ready` with the given status and Reason and a True
`ServerCondition`. -/
def rekorWith (readyStatus : ConditionStatus) (readyReason : String) : Rekor :=
  { Rekor.zero with
    Name := "rekor"
    Namespace := "default"
    Status :=
      { RekorStatus.zero with
        Conditions :=
          [ ⟨constants.Ready, readyStatus, 0, 1, readyReason, ""⟩,
            ⟨actions.ServerCondition, metav1.ConditionTrue, 0, 1, constants.Ready, ""⟩ ] } }

/-- An environment without labelled secret in which every request is refused;
the cluster calls would succeed. -/
def envDown : Env :=
  { findSecret := none
    http := fun _ _ => HttpReply.transportError "connection refused"
    getSecretData := ([], none)
    delete := none
    setControllerReference := none
    create := .ok "rekor-public-rekor-x2x9q"
    now := 100
    LabelsFor := fun component name inst =>
      [("app.kubernetes.io/component", component), ("app.kubernetes.io/name", name),
        ("app.kubernetes.io/instance", inst)]
    Failed := fun err => some ⟨⟨false, 0⟩, some err⟩
    StatusUpdate := fun _ => some ⟨⟨false, 0⟩, none⟩
    FailedWithStatusUpdate := fun err _ => some ⟨⟨false, 0⟩, some err⟩ }

/-- As `envDown`, but every request is answered `200 OK` with the key `[1, 2, 3]`. -/
def envUp : Env :=
  { envDown with http := fun _ _ => HttpReply.response 200 "200 OK" [1, 2, 3] none }

/-- As `envUp`, but creating the secret fails with `forbidden`. -/
def envCreateFails : Env :=
  { envUp with create := .error "forbidden" }

/-- As `envDown`, but the endpoint answers `503` to the first `n` requests and
`200 OK` with the key `[1, 2, 3]` to every later one. -/
def envFlaky (n : Nat) : Env :=
  { envDown with
    http := fun k _ =>
      if k ≤ n then HttpReply.response 503 "503 Service Unavailable" [] none
      else HttpReply.response 200 "200 OK" [1, 2, 3] none }

/-- A secret named `rekor-public-rekor-old` that carries the public-key label
with value `public`. -/
def staleSecret : PartialObjectMetadata :=
  ⟨"rekor-public-rekor-old", [(RekorPubLabel, "public")]⟩

/-- As `envUp` (the API resolves the key `[1, 2, 3]`), with the labelled secret
`staleSecret` found, which stores the bytes `[7, 7]`. -/
def envStale : Env :=
  { envUp with findSecret := some staleSecret, getSecretData := ([7, 7], none) }

/-- As `envStale`, but the found secret stores the resolved key `[1, 2, 3]`. -/
def envSame : Env :=
  { envUp with findSecret := some staleSecret, getSecretData := ([1, 2, 3], none) }

/-- A Rekor in namespace `default` ready for deployment: server config
`rekor-config`, tree 42, volume claim `rekor-pvc`, secret-based signing with the
key `private` of secret `my-rekor-secret` and no password. -/
def rekorDeployable : Rekor :=
  { Rekor.zero with
    Name := "rekor"
    Namespace := "default"
    Spec := { RekorSpec.zero with Signer := ⟨"secret", none, none⟩ }
    Status :=
      { RekorStatus.zero with
        ServerConfigRef := some ⟨"rekor-config"⟩
        TreeID := some 42
        PvcName := "rekor-pvc"
        Signer := ⟨"secret", none, some ⟨⟨"my-rekor-secret"⟩, "private"⟩⟩ } }

/-- The labels of the examples. -/
def exampleLabels : Labels :=
  [("app.kubernetes.io/name", "rekor-server")]

/-- As `rekorDeployable`, with the signer of an external KMS provider. -/
def rekorAwsKms : Rekor :=
  (rekorDeployable.withKMS
    "awskms://1234abcd-12ab-34cd-56ef-1234567890ab?region=us-east-1").withSignerKeyRef none

/-- The instance of a row of `TestGenerateSigner_CanHandle`: the signers of Spec
and of Status, and the conditions set one after the other on an empty ledger. -/
def signerRow (status : List Condition) (signer statusSigner : RekorSigner) : Rekor :=
  { Rekor.zero with
    Spec := { RekorSpec.zero with Signer := signer }
    Status :=
      { RekorStatus.zero with
        Signer := statusSigner
        Conditions := status.foldl (meta.SetStatusCondition 1) [] } }

/-- The instance of a row of `TestGenerateSigner_Handle`: named `rekor` in
namespace `default`, with `Ready` and a False `SignerCondition`, both with Reason
`Pending`, set on an empty ledger. -/
def signerHandleRow (spec status : RekorSigner) : Rekor :=
  { Rekor.zero with
    Name := "rekor"
    Namespace := "default"
    Spec := { RekorSpec.zero with Signer := spec }
    Status :=
      { RekorStatus.zero with
        Signer := status
        Conditions :=
          meta.SetStatusCondition 1
            (meta.SetStatusCondition 1 [] ⟨constants.Ready, "", 0, 0, constants.Pending, ""⟩)
            ⟨actions.SignerCondition, metav1.ConditionFalse, 0, 0, constants.Pending, ""⟩ } }

/-- The `SignerCondition` of the rows of `TestGenerateSigner_CanHandle`, with the
given status and Reason. -/
def signerCondition (status : ConditionStatus) (reason : String) : Condition :=
  ⟨actions.SignerCondition, status, 0, 0, reason, ""⟩

/-- The key reference `{Name: name, Key: key}`. -/
def keySelector (name key : String) : Option SecretKeySelector :=
  some ⟨⟨name⟩, key⟩

/-- A base action whose helpers return no result; the theorems on `Handle` of
the generate-signer Action hold for every base action. -/
def baseActionNil : BaseAction :=
  ⟨fun _ => none, fun _ => none, fun _ _ => none⟩

/-! ## Theorems: the pipeline -/

/-- One step of the loop on an Action that is not applicable. -/
theorem actionLoop_cons_false {T C : Type} (a : Action T C) (rest : List (Action T C))
    (idx : Nat) (t : T) (c : C) (hcan : a.CanHandle t c = false) :
    actionLoop (a :: rest) idx t c =
      ⟨(actionLoop rest (idx + 1) t c).target, (actionLoop rest (idx + 1) t c).cluster,
        Call.canHandle idx false :: (actionLoop rest (idx + 1) t c).calls,
        (actionLoop rest (idx + 1) t c).result⟩ := by
  simp [actionLoop, hcan]

/-- One step of the loop on an applicable Action that returns Continue. -/
theorem actionLoop_cons_continue {T C : Type} (a : Action T C) (rest : List (Action T C))
    (idx : Nat) (t : T) (c : C) (t0 : T) (c0 : C) (hcan : a.CanHandle t c = true)
    (hres : a.Handle t c = ((t0, c0), none)) :
    actionLoop (a :: rest) idx t c =
      ⟨(actionLoop rest (idx + 1) t0 c0).target, (actionLoop rest (idx + 1) t0 c0).cluster,
        Call.canHandle idx true :: Call.handle idx none :: (actionLoop rest (idx + 1) t0 c0).calls,
        (actionLoop rest (idx + 1) t0 c0).result⟩ := by
  simp [actionLoop, hcan, hres]

/-- One step of the loop on an applicable Action that returns a result. -/
theorem actionLoop_cons_stop {T C : Type} (a : Action T C) (rest : List (Action T C))
    (idx : Nat) (t : T) (c : C) (t0 : T) (c0 : C) (r : ActionResult)
    (hcan : a.CanHandle t c = true) (hres : a.Handle t c = ((t0, c0), some r)) :
    actionLoop (a :: rest) idx t c =
      ⟨t0, c0, [Call.canHandle idx true, Call.handle idx (some r)], some r⟩ := by
  simp [actionLoop, hcan, hres]

/-- Along the loop, a non-nil `Handle` result can only be the last call: when
the loop ends without a result no call is an effective `Handle`; when it ends
with result `r` the calls are some calls without effective `Handle` followed by
the `Handle` that returned `r`. -/
theorem actionLoop_shape {T C : Type} (acs : List (Action T C)) (idx : Nat) (t : T) (c : C) :
    ((actionLoop acs idx t c).result = none ∧
      ∀ call ∈ (actionLoop acs idx t c).calls, call.isEffectiveHandle = false) ∨
    (∃ r pre i, (actionLoop acs idx t c).result = some r ∧
      (actionLoop acs idx t c).calls = pre ++ [Call.handle i (some r)] ∧
      ∀ call ∈ pre, call.isEffectiveHandle = false) := by
  induction acs generalizing idx t c with
  | nil => left; simp [actionLoop]
  | cons a rest ih =>
    by_cases hcan : a.CanHandle t c = true
    · rcases hres : a.Handle t c with ⟨⟨t1, c1⟩, _ | r⟩
      · rcases ih (idx + 1) t1 c1 with ⟨h1, h2⟩ | ⟨r, pre, i, h1, h2, h3⟩
        · left
          simp only [actionLoop, hcan, hres, if_true]
          refine ⟨h1, ?_⟩
          intro call hcall
          simp only [List.mem_cons] at hcall
          rcases hcall with rfl | rfl | hcall
          · rfl
          · rfl
          · exact h2 call hcall
        · right
          refine ⟨r, Call.canHandle idx true :: Call.handle idx none :: pre, i, ?_, ?_, ?_⟩
          · simp only [actionLoop, hcan, hres, if_true]; exact h1
          · simp only [actionLoop, hcan, hres, if_true, h2, List.cons_append]
          · intro call hcall
            simp only [List.mem_cons] at hcall
            rcases hcall with rfl | rfl | hcall
            · rfl
            · rfl
            · exact h3 call hcall
      · right
        refine ⟨r, [Call.canHandle idx true], idx, ?_, ?_, ?_⟩
        · simp only [actionLoop, hcan, hres, if_true]
        · simp only [actionLoop, hcan, hres, if_true, List.singleton_append]
        · intro call hcall
          simp only [List.mem_singleton] at hcall
          subst hcall
          rfl
    · rcases ih (idx + 1) t c with ⟨h1, h2⟩ | ⟨r, pre, i, h1, h2, h3⟩
      · left
        simp only [actionLoop, hcan]
        refine ⟨h1, ?_⟩
        intro call hcall
        simp only [Bool.false_eq_true, if_false, List.mem_cons] at hcall
        rcases hcall with rfl | hcall
        · rfl
        · exact h2 call hcall
      · right
        refine ⟨r, Call.canHandle idx false :: pre, i, ?_, ?_, ?_⟩
        · simp only [actionLoop, hcan]; exact h1
        · simp only [actionLoop, hcan, Bool.false_eq_true, if_false, h2, List.cons_append]
        · intro call hcall
          simp only [List.mem_cons] at hcall
          rcases hcall with rfl | hcall
          · rfl
          · exact h3 call hcall

/-- Every call of the loop started at position `idx` is on a position from
`idx` up to the end of the list. -/
theorem actionLoop_idx_bounds {T C : Type} (acs : List (Action T C)) (idx : Nat) (t : T) (c : C) :
    ∀ call ∈ (actionLoop acs idx t c).calls, idx ≤ call.idx ∧ call.idx < idx + acs.length := by
  induction acs generalizing idx t c with
  | nil => simp [actionLoop]
  | cons a rest ih =>
    intro call hcall
    by_cases hcan : a.CanHandle t c = true
    · rcases hres : a.Handle t c with ⟨⟨t1, c1⟩, _ | r⟩
      · simp only [actionLoop, hcan, hres, if_true, List.mem_cons] at hcall
        rcases hcall with rfl | rfl | hcall
        · simp [Call.idx]
        · simp [Call.idx]
        · have := ih (idx + 1) t1 c1 call hcall
          simp only [List.length_cons]
          omega
      · simp only [actionLoop, hcan, hres, if_true, List.mem_cons, List.mem_singleton,
          List.not_mem_nil, or_false] at hcall
        rcases hcall with rfl | rfl
        · simp [Call.idx]
        · simp [Call.idx]
    · simp only [actionLoop, hcan, Bool.false_eq_true, if_false, List.mem_cons] at hcall
      rcases hcall with rfl | hcall
      · simp [Call.idx]
      · have := ih (idx + 1) t c call hcall
        simp only [List.length_cons]
        omega

/-- The calls of the loop follow the order of the list. -/
theorem actionLoop_idx_sorted {T C : Type} (acs : List (Action T C)) (idx : Nat) (t : T) (c : C) :
    ((actionLoop acs idx t c).calls.map Call.idx).Pairwise (fun i j => i ≤ j) := by
  induction acs generalizing idx t c with
  | nil => simp [actionLoop]
  | cons a rest ih =>
    by_cases hcan : a.CanHandle t c = true
    · rcases hres : a.Handle t c with ⟨⟨t1, c1⟩, _ | r⟩
      · rw [actionLoop_cons_continue a rest idx t c t1 c1 hcan hres]
        simp only [List.map_cons, List.pairwise_cons, List.mem_cons, List.mem_map]
        refine ⟨?_, ?_, ih (idx + 1) t1 c1⟩
        · rintro j (rfl | ⟨call, hcall, rfl⟩)
          · exact le_refl _
          · have := actionLoop_idx_bounds rest (idx + 1) t1 c1 call hcall
            show idx ≤ call.idx
            omega
        · rintro j ⟨call, hcall, rfl⟩
          have := actionLoop_idx_bounds rest (idx + 1) t1 c1 call hcall
          show idx ≤ call.idx
          omega
      · rw [actionLoop_cons_stop a rest idx t c t1 c1 r hcan hres]
        simp [Call.idx]
    · have hcan : a.CanHandle t c = false := by simpa using hcan
      rw [actionLoop_cons_false a rest idx t c hcan]
      simp only [List.map_cons, List.pairwise_cons, List.mem_map]
      refine ⟨?_, ih (idx + 1) t c⟩
      rintro j ⟨call, hcall, rfl⟩
      have := actionLoop_idx_bounds rest (idx + 1) t c call hcall
      show idx ≤ call.idx
      omega

/-- An Action whose `CanHandle` returned false does not have its `Handle` called. -/
theorem actionLoop_false_not_handled {T C : Type} (acs : List (Action T C)) (idx : Nat)
    (t : T) (c : C) (i : Nat) (h : Call.canHandle i false ∈ (actionLoop acs idx t c).calls)
    (x : Option ActionResult) : Call.handle i x ∉ (actionLoop acs idx t c).calls := by
  induction acs generalizing idx t c with
  | nil => simp [actionLoop] at h
  | cons a rest ih =>
    by_cases hcan : a.CanHandle t c = true
    · rcases hres : a.Handle t c with ⟨⟨t1, c1⟩, _ | r⟩
      · simp only [actionLoop, hcan, hres, if_true, List.mem_cons, Call.canHandle.injEq,
          Bool.false_eq_true, and_false, false_or, reduceCtorEq] at h ⊢
        have hb := actionLoop_idx_bounds rest (idx + 1) t1 c1 _ h
        simp only [Call.idx] at hb
        rintro (⟨rfl, -⟩ | hx)
        · omega
        · exact ih (idx + 1) t1 c1 h hx
      · simp [actionLoop, hcan, hres] at h
    · simp only [actionLoop, hcan, Bool.false_eq_true, if_false, List.mem_cons,
        Call.canHandle.injEq, and_true, reduceCtorEq, false_or] at h ⊢
      rcases h with rfl | h
      · intro hx
        have hb := actionLoop_idx_bounds rest (i + 1) t c _ hx
        simp only [Call.idx] at hb
        omega
      · exact ih (idx + 1) t c h

/-- When the loop falls through the Actions of `pre`, running it on `pre ++ rest`
is running it on `rest` from the state `pre` left, after calls that are all on
positions inside `pre`. -/
theorem actionLoop_skips {T C : Type} (pre rest : List (Action T C)) (idx : Nat)
    (t : T) (c : C) (t1 : T) (c1 : C) (h : Skips pre t c t1 c1) :
    ∃ calls, (∀ call ∈ calls, call.idx < idx + pre.length) ∧
      (actionLoop (pre ++ rest) idx t c).calls
        = calls ++ (actionLoop rest (idx + pre.length) t1 c1).calls ∧
      (actionLoop (pre ++ rest) idx t c).result
        = (actionLoop rest (idx + pre.length) t1 c1).result ∧
      (actionLoop (pre ++ rest) idx t c).target
        = (actionLoop rest (idx + pre.length) t1 c1).target ∧
      (actionLoop (pre ++ rest) idx t c).cluster
        = (actionLoop rest (idx + pre.length) t1 c1).cluster := by
  induction h generalizing idx with
  | nil t c => exact ⟨[], by simp⟩
  | notApplicable a l t c t1 c1 hcan _ ih =>
    obtain ⟨calls, hb, h1, h2, h3, h4⟩ := ih (idx + 1)
    have hlen : idx + (a :: l).length = idx + 1 + l.length := by
      simp only [List.length_cons]; omega
    rw [List.cons_append, actionLoop_cons_false a (l ++ rest) idx t c hcan, hlen]
    refine ⟨Call.canHandle idx false :: calls, ?_, ?_, h2, h3, h4⟩
    · intro call hcall
      simp only [List.mem_cons] at hcall
      rcases hcall with rfl | hcall
      · simp only [Call.idx]; omega
      · exact hb call hcall
    · simp only [h1, List.cons_append]
  | continued a l t c t0 c0 t1 c1 hcan hres _ ih =>
    obtain ⟨calls, hb, h1, h2, h3, h4⟩ := ih (idx + 1)
    have hlen : idx + (a :: l).length = idx + 1 + l.length := by
      simp only [List.length_cons]; omega
    rw [List.cons_append, actionLoop_cons_continue a (l ++ rest) idx t c t0 c0 hcan hres, hlen]
    refine ⟨Call.canHandle idx true :: Call.handle idx none :: calls, ?_, ?_, h2, h3, h4⟩
    · intro call hcall
      simp only [List.mem_cons] at hcall
      rcases hcall with rfl | rfl | hcall
      · simp only [Call.idx]; omega
      · simp only [Call.idx]; omega
      · exact hb call hcall
    · simp only [h1, List.cons_append]

/-- When no Action of the list is applicable in a state, the loop calls
`CanHandle` on each, calls no `Handle`, ends without a result and leaves the
state as it was. -/
theorem actionLoop_none_applicable {T C : Type} (acs : List (Action T C)) (idx : Nat)
    (t : T) (c : C) (h : ∀ a ∈ acs, a.CanHandle t c = false) :
    (actionLoop acs idx t c).result = none ∧ (actionLoop acs idx t c).cluster = c ∧
      (actionLoop acs idx t c).target = t ∧
      ∀ call ∈ (actionLoop acs idx t c).calls, call.isHandle = false := by
  induction acs generalizing idx with
  | nil => simp [actionLoop]
  | cons a rest ih =>
    have ha : a.CanHandle t c = false := h a (List.mem_cons_self _ _)
    obtain ⟨h1, h2, h3, h4⟩ := ih (idx + 1) (fun b hb => h b (List.mem_cons_of_mem _ hb))
    simp only [actionLoop, ha, Bool.false_eq_true, if_false]
    refine ⟨h1, h2, h3, ?_⟩
    intro call hcall
    simp only [List.mem_cons] at hcall
    rcases hcall with rfl | hcall
    · rfl
    · exact h4 call hcall

/-- `Reconcile` after a successful load: everything is decided by the loop over
`acs`, started from the loaded resource. -/
theorem Reconcile_ok {T C : Type} (r : Reconciler T C) (c : C) (inst : T)
    (hget : r.Get c = .ok inst) :
    (Reconcile r c).calls = (actionLoop r.acs 0 inst c).calls ∧
      (Reconcile r c).cluster = (actionLoop r.acs 0 inst c).cluster ∧
      (Reconcile r c).Result = (match (actionLoop r.acs 0 inst c).result with
        | some result => result.Result
        | none => ReconcileResult.empty) ∧
      (Reconcile r c).Err = (match (actionLoop r.acs 0 inst c).result with
        | some result => result.Err
        | none => none) := by
  unfold Reconcile
  rw [hget]
  rcases hres : (actionLoop r.acs 0 inst c).result with _ | res <;> simp [hres]

/-- `Reconcile` after a failed load. -/
theorem Reconcile_error {T C : Type} (r : Reconciler T C) (c : C) (err : GoError)
    (hget : r.Get c = .error err) :
    (Reconcile r c).calls = [] ∧ (Reconcile r c).cluster = c ∧
      (Reconcile r c).Result = ReconcileResult.empty ∧
      (Reconcile r c).Err = if r.IsNotFound err then none else some err := by
  unfold Reconcile
  rw [hget]
  by_cases h : r.IsNotFound err = true <;> simp [h]

/-- The calls of one invocation: either none of them is an effective `Handle`,
or they end with the one effective `Handle`, whose result is what `Reconcile`
returns. -/
theorem Reconcile_shape {T C : Type} (r : Reconciler T C) (c : C) :
    (∀ call ∈ (Reconcile r c).calls, call.isEffectiveHandle = false) ∨
    (∃ res pre i, (Reconcile r c).calls = pre ++ [Call.handle i (some res)] ∧
      (∀ call ∈ pre, call.isEffectiveHandle = false) ∧
      (Reconcile r c).Result = res.Result ∧ (Reconcile r c).Err = res.Err) := by
  rcases hget : r.Get c with err | inst
  · left
    rw [(Reconcile_error r c err hget).1]
    simp
  · obtain ⟨h1, -, h3, h4⟩ := Reconcile_ok r c inst hget
    rcases actionLoop_shape r.acs 0 inst c with ⟨-, hno⟩ | ⟨res, pre, i, hres, hcalls, hpre⟩
    · left
      rw [h1]
      exact hno
    · right
      refine ⟨res, pre, i, by rw [h1, hcalls], hpre, ?_, ?_⟩
      · rw [h3, hres]
      · rw [h4, hres]

/-- The calls of one invocation follow the order of `acs`. -/
theorem Reconcile_idx_sorted {T C : Type} (r : Reconciler T C) (c : C) :
    ((Reconcile r c).calls.map Call.idx).Pairwise (fun i j => i ≤ j) := by
  rcases hget : r.Get c with err | inst
  · rw [(Reconcile_error r c err hget).1]
    simp
  · rw [(Reconcile_ok r c inst hget).1]
    exact actionLoop_idx_sorted r.acs 0 inst c

/-- C1, as stated, fails: with two applicable Actions of which the first
returns Continue, one invocation of `Reconcile` executes two `Handle`s (and
makes two writes). -/
theorem Reconcile_two_handles :
    ((Reconcile twoHandles 0).calls.filter Call.isHandle).length = 2 ∧
      (Reconcile twoHandles 0).cluster = 2 ∧
      ¬ ((Reconcile twoHandles 0).calls.filter Call.isHandle).length ≤ 1 := by
  decide

/-- The loop over `n` Actions that all apply, write and return Continue: every
one of them is handled, none returns a result, and `n` writes are made. -/
theorem actionLoop_continuing (n idx : Nat) (c : Nat) :
    ((actionLoop (continuing n).acs idx () c).calls.filter Call.isContinueHandle).length = n ∧
      ((actionLoop (continuing n).acs idx () c).calls.filter Call.isEffectiveHandle).length = 0 ∧
      (actionLoop (continuing n).acs idx () c).cluster = c + n := by
  induction n generalizing idx c with
  | zero => simp [continuing, actionLoop]
  | succ n ih =>
    have hstep : (continuing (n + 1)).acs
        = ⟨"continue", fun _ _ => true, fun t c => ((t, c + 1), none)⟩ :: (continuing n).acs := by
      simp [continuing, List.replicate_succ]
    rw [hstep, actionLoop_cons_continue _ _ idx () c () (c + 1) rfl rfl]
    obtain ⟨h1, h2, h3⟩ := ih (idx + 1) (c + 1)
    refine ⟨?_, ?_, ?_⟩
    · simp only [List.filter_cons, Call.isContinueHandle, Bool.false_eq_true, if_false, if_true,
        List.length_cons, h1]
    · simp only [List.filter_cons, Call.isEffectiveHandle, Bool.false_eq_true, if_false, h2]
    · simp only [h3]
      omega

/-- C1, amended: for every Action list and state, one invocation of `Reconcile`
executes at most one `Handle` that returns a non-Continue (non-nil) result, and
every call before the last call of the invocation is a `CanHandle` or a `Handle`
that returned Continue. The number of `Handle`s that return Continue in one
invocation is not bounded: for every `n` there is an invocation that executes
`n` of them (and makes `n` writes), none of which returns a result. -/
theorem Reconcile_at_most_one_effective_handle {T C : Type} (r : Reconciler T C) (c : C) :
    ((Reconcile r c).calls.filter Call.isEffectiveHandle).length ≤ 1 ∧
      (∀ call ∈ (Reconcile r c).calls.dropLast, call.isEffectiveHandle = false) ∧
      (∀ n : Nat,
        ((Reconcile (continuing n) 0).calls.filter Call.isContinueHandle).length = n ∧
          ((Reconcile (continuing n) 0).calls.filter Call.isHandle).length = n ∧
          (Reconcile (continuing n) 0).cluster = n) := by
  refine ⟨?_, ?_, ?_⟩
  · rcases Reconcile_shape r c with hno | ⟨res, pre, i, hcalls, hpre, -, -⟩
    · rw [List.filter_eq_nil_iff.mpr (fun call hcall => by simp [hno call hcall])]
      simp
    · rw [hcalls, List.filter_append,
        List.filter_eq_nil_iff.mpr (fun call hcall => by simp [hpre call hcall])]
      simp [List.filter_cons, Call.isEffectiveHandle]
  · rcases Reconcile_shape r c with hno | ⟨res, pre, i, hcalls, hpre, -, -⟩
    · intro call hcall
      exact hno call (List.dropLast_subset _ hcall)
    · rw [hcalls, List.dropLast_concat]
      exact hpre
  · intro n
    obtain ⟨h1, h2, -, -⟩ := Reconcile_ok (continuing n) 0 () rfl
    obtain ⟨k1, k2, k3⟩ := actionLoop_continuing n 0 0
    rw [h1, h2]
    refine ⟨k1, ?_, by simpa using k3⟩
    have hsplit : ∀ calls : List Call,
        (calls.filter Call.isHandle).length
          = (calls.filter Call.isContinueHandle).length
            + (calls.filter Call.isEffectiveHandle).length := by
      intro calls
      induction calls with
      | nil => rfl
      | cons call rest ih =>
        rcases call with ⟨idx, ok⟩ | ⟨idx, _ | res⟩ <;>
          simp [List.filter_cons, Call.isHandle, Call.isContinueHandle,
            Call.isEffectiveHandle, ih] <;> omega
    rw [hsplit, k1, k2, Nat.add_zero]

/-- C2: `Reconcile` evaluates the Actions in list order. If `acs = pre ++ a :: post`
where the loop falls through `pre` (each Action of `pre` is not applicable or
returns Continue) and `a` is applicable and its `Handle` returns the non-nil
result `res`, then `Reconcile` returns exactly `(res.Result, res.Err)` and leaves
the cluster as `a` left it; the last call is that `Handle`; no call is made on a
position after `a`; the calls are in list order; and no Action whose `CanHandle`
returned false has its `Handle` called. -/
theorem Reconcile_first_effective {T C : Type} (r : Reconciler T C) (c : C) (inst : T)
    (pre : List (Action T C)) (a : Action T C) (post : List (Action T C))
    (t1 : T) (c1 : C) (t2 : T) (c2 : C) (res : ActionResult)
    (hget : r.Get c = .ok inst)
    (hacs : r.acs = pre ++ a :: post)
    (hpre : Skips pre inst c t1 c1)
    (hcan : a.CanHandle t1 c1 = true)
    (hres : a.Handle t1 c1 = ((t2, c2), some res)) :
    (Reconcile r c).Result = res.Result ∧ (Reconcile r c).Err = res.Err ∧
      (Reconcile r c).cluster = c2 ∧
      (Reconcile r c).calls.getLast? = some (Call.handle pre.length (some res)) ∧
      (∀ call ∈ (Reconcile r c).calls, call.idx ≤ pre.length) ∧
      ((Reconcile r c).calls.map Call.idx).Pairwise (fun i j => i ≤ j) ∧
      (∀ i, Call.canHandle i false ∈ (Reconcile r c).calls →
        ∀ x, Call.handle i x ∉ (Reconcile r c).calls) := by
  obtain ⟨h1, h2, h3, h4⟩ := Reconcile_ok r c inst hget
  obtain ⟨calls, hb, k1, k2, k3, k4⟩ := actionLoop_skips pre (a :: post) 0 inst c t1 c1 hpre
  rw [← hacs, actionLoop_cons_stop a post (0 + pre.length) t1 c1 t2 c2 res hcan hres] at k1 k2 k4
  simp only [Nat.zero_add] at k1 k2 k4 hb
  refine ⟨?_, ?_, ?_, ?_, ?_, Reconcile_idx_sorted r c, ?_⟩
  · rw [h3, k2]
  · rw [h4, k2]
  · rw [h2, k4]
  · rw [h1, k1]
    simp [List.getLast?_append]
  · rw [h1, k1]
    intro call hcall
    simp only [List.mem_append, List.mem_cons, List.mem_singleton, List.not_mem_nil,
      or_false] at hcall
    rcases hcall with hcall | rfl | rfl
    · exact Nat.le_of_lt (hb call hcall)
    · exact le_refl _
    · exact le_refl _
  · rw [h1]
    intro i hi x
    exact actionLoop_false_not_handled r.acs 0 inst c i hi x

/-- C2 at a concrete input: in `[deferring, idle, failing]` from cluster 0 the
loop falls through the first two Actions and `failing` is the first effective one. -/
theorem Reconcile_first_effective_witness :
    (Reconcile (loaded [deferring, idle, failing]) 0).Result = ⟨false, 5 * Second⟩ ∧
      (Reconcile (loaded [deferring, idle, failing]) 0).Err = some "boom" ∧
      (Reconcile (loaded [deferring, idle, failing]) 0).cluster = 2 ∧
      (Reconcile (loaded [deferring, idle, failing]) 0).calls.getLast?
        = some (Call.handle 2 (some ⟨⟨false, 5 * Second⟩, some "boom"⟩)) :=
  have h := Reconcile_first_effective (loaded [deferring, idle, failing]) 0 ()
    [deferring, idle] failing [] () 1 () 2 ⟨⟨false, 5 * Second⟩, some "boom"⟩ rfl rfl
    (Skips.continued deferring [idle] () 0 () 1 () 1 rfl rfl
      (Skips.notApplicable idle [] () 1 () 1 rfl (Skips.nil () 1)))
    rfl rfl
  ⟨h.1, h.2.1, h.2.2.1, h.2.2.2.1⟩

/-- C3: when the resource loads and no Action's `CanHandle` holds in the loaded
state, `Reconcile` executes no `Handle`, leaves the cluster unchanged and returns
the Converged directive (empty `Result`, nil error); a second invocation on the
cluster it left does exactly the same. -/
theorem Reconcile_converged {T C : Type} (r : Reconciler T C) (c : C) (inst : T)
    (hget : r.Get c = .ok inst)
    (hnone : ∀ a ∈ r.acs, a.CanHandle inst c = false) :
    (∀ call ∈ (Reconcile r c).calls, call.isHandle = false) ∧
      (Reconcile r c).cluster = c ∧
      (Reconcile r c).Result = ReconcileResult.empty ∧
      (Reconcile r c).Err = none ∧
      Reconcile r (Reconcile r c).cluster = Reconcile r c := by
  obtain ⟨h1, h2, h3, h4⟩ := Reconcile_ok r c inst hget
  obtain ⟨k1, k2, -, k4⟩ := actionLoop_none_applicable r.acs 0 inst c hnone
  have hcl : (Reconcile r c).cluster = c := by rw [h2, k2]
  refine ⟨?_, hcl, ?_, ?_, ?_⟩
  · rw [h1]
    exact k4
  · rw [h3, k1]
  · rw [h4, k1]
  · rw [hcl]

/-- C3 at a concrete input: `deferring` is not applicable at cluster 1, `idle` never is. -/
theorem Reconcile_converged_witness :
    (Reconcile (loaded [deferring, idle]) 1).cluster = 1 ∧
      (Reconcile (loaded [deferring, idle]) 1).Result = ReconcileResult.empty ∧
      (Reconcile (loaded [deferring, idle]) 1).Err = none ∧
      Reconcile (loaded [deferring, idle]) (Reconcile (loaded [deferring, idle]) 1).cluster
        = Reconcile (loaded [deferring, idle]) 1 :=
  (Reconcile_converged (loaded [deferring, idle]) 1 () rfl (by decide)).2

/-- C4: if a `Handle` executed by `Reconcile` returns a result carrying the error
`e`, then `Reconcile` returns `e` together with that result's scheduling
directive, that `Handle` is the last call of the invocation, and no call is made
on a later Action. -/
theorem Reconcile_returns_handle_error {T C : Type} (r : Reconciler T C) (c : C)
    (i : Nat) (res : ActionResult) (e : GoError)
    (hcall : Call.handle i (some res) ∈ (Reconcile r c).calls)
    (herr : res.Err = some e) :
    (Reconcile r c).Err = some e ∧ (Reconcile r c).Result = res.Result ∧
      (Reconcile r c).calls.getLast? = some (Call.handle i (some res)) ∧
      ∀ call ∈ (Reconcile r c).calls, call.idx ≤ i := by
  have hsorted := Reconcile_idx_sorted r c
  rcases Reconcile_shape r c with hno | ⟨res1, pre, j, hcalls, hpre, hR, hE⟩
  · have := hno _ hcall
    simp [Call.isEffectiveHandle] at this
  · rw [hcalls] at hcall hsorted ⊢
    simp only [List.mem_append, List.mem_singleton] at hcall
    rcases hcall with hcall | hcall
    · have := hpre _ hcall
      simp [Call.isEffectiveHandle] at this
    · injection hcall with hij hres
      injection hres with hres
      subst hij hres
      refine ⟨by rw [hE, herr], hR, by simp [List.getLast?_append], ?_⟩
      intro call hmem
      simp only [List.mem_append, List.mem_singleton] at hmem
      rcases hmem with hmem | rfl
      · simp only [List.map_append, List.map_cons, List.map_nil, List.pairwise_append,
          List.mem_map, List.mem_singleton] at hsorted
        exact hsorted.2.2 call.idx ⟨call, hmem, rfl⟩ _ rfl
      · exact le_refl _

/-- C4 at a concrete input: `failing` runs after `idle` and its error `boom` is
what `Reconcile` returns, with the five-second directive. -/
theorem Reconcile_returns_handle_error_witness :
    (Reconcile (loaded [idle, failing, deferring]) 0).Err = some "boom" ∧
      (Reconcile (loaded [idle, failing, deferring]) 0).Result = ⟨false, 5 * Second⟩ ∧
      (Reconcile (loaded [idle, failing, deferring]) 0).calls.getLast?
        = some (Call.handle 1 (some ⟨⟨false, 5 * Second⟩, some "boom"⟩)) :=
  have h := Reconcile_returns_handle_error (loaded [idle, failing, deferring]) 0 1
    ⟨⟨false, 5 * Second⟩, some "boom"⟩ "boom" (by decide) rfl
  ⟨h.1, h.2.1, h.2.2.1⟩

/-- C5: when loading the resource fails, `Reconcile` makes no call on any Action
and leaves the cluster unchanged; for a NotFound error it returns the empty
`Result` with a nil error, for every other error the empty `Result` with exactly
that error. -/
theorem Reconcile_load_failure {T C : Type} (r : Reconciler T C) (c : C) (err : GoError)
    (hget : r.Get c = .error err) :
    (Reconcile r c).calls = [] ∧ (Reconcile r c).cluster = c ∧
      (Reconcile r c).Result = ReconcileResult.empty ∧
      (r.IsNotFound err = true → (Reconcile r c).Err = none) ∧
      (r.IsNotFound err = false → (Reconcile r c).Err = some err) := by
  obtain ⟨h1, h2, h3, h4⟩ := Reconcile_error r c err hget
  refine ⟨h1, h2, h3, ?_, ?_⟩
  · intro h
    rw [h4, if_pos h]
  · intro h
    rw [h4, h]
    simp

/-- C5 at concrete inputs: a load failing with an error that is not NotFound,
and a load failing with NotFound. -/
theorem Reconcile_load_failure_witness :
    (Reconcile (unloadable "timeout") 7).calls = [] ∧
      (Reconcile (unloadable "timeout") 7).cluster = 7 ∧
      (Reconcile (unloadable "timeout") 7).Result = ReconcileResult.empty ∧
      (Reconcile (unloadable "timeout") 7).Err = some "timeout" ∧
      (Reconcile (unloadable "gone") 7).calls = [] ∧
      (Reconcile (unloadable "gone") 7).Result = ReconcileResult.empty ∧
      (Reconcile (unloadable "gone") 7).Err = none :=
  have h := Reconcile_load_failure (unloadable "timeout") 7 "timeout" rfl
  have g := Reconcile_load_failure (unloadable "gone") 7 "gone" rfl
  ⟨h.1, h.2.1, h.2.2.1, h.2.2.2.2 (by decide), g.1, g.2.2.1, g.2.2.2.1 (by decide)⟩

/-! ## Theorems: the condition ledger -/

/-- Setting a condition leaves the entries of every other type as they were. -/
theorem FindStatusCondition_Set_of_ne (now : Nat) (conditions : List Condition)
    (newCondition : Condition) (conditionType : String)
    (h : newCondition.Type_ ≠ conditionType) :
    meta.FindStatusCondition (meta.SetStatusCondition now conditions newCondition) conditionType
      = meta.FindStatusCondition conditions conditionType := by
  induction conditions with
  | nil =>
    have hb : (newCondition.Type_ == conditionType) = false := by simpa using h
    simp [meta.SetStatusCondition, meta.FindStatusCondition, List.find?_cons, hb]
  | cons c rest ih =>
    unfold meta.FindStatusCondition at ih ⊢
    by_cases hc : c.Type_ = newCondition.Type_
    · have hb : (c.Type_ == conditionType) = false := by
        rw [hc]; simpa using h
      have hm : ((meta.mergeCondition now c newCondition).Type_ == conditionType) = false := hb
      have hcb : (c.Type_ == newCondition.Type_) = true := by simpa using hc
      simp only [meta.SetStatusCondition, hcb, if_true, List.find?_cons, hm, hb]
    · have hcb : (c.Type_ == newCondition.Type_) = false := by simpa using hc
      simp only [meta.SetStatusCondition, hcb, Bool.false_eq_true, if_false, List.find?_cons, ih]

/-- After setting a condition, the entry of its type carries the new status,
reason and message. -/
theorem FindStatusCondition_Set_same (now : Nat) (conditions : List Condition)
    (newCondition : Condition) :
    ∃ c, meta.FindStatusCondition (meta.SetStatusCondition now conditions newCondition)
        newCondition.Type_ = some c ∧
      c.Status = newCondition.Status ∧ c.Reason = newCondition.Reason ∧
      c.Message = newCondition.Message := by
  induction conditions with
  | nil =>
    simp [meta.SetStatusCondition, meta.FindStatusCondition, List.find?_cons]
  | cons c rest ih =>
    unfold meta.FindStatusCondition at ih ⊢
    by_cases hc : c.Type_ = newCondition.Type_
    · have hcb : (c.Type_ == newCondition.Type_) = true := by simpa using hc
      have hm : ((meta.mergeCondition now c newCondition).Type_ == newCondition.Type_) = true := hcb
      simp only [meta.SetStatusCondition, hcb, if_true, List.find?_cons, hm]
      exact ⟨_, rfl, rfl, rfl, rfl⟩
    · have hcb : (c.Type_ == newCondition.Type_) = false := by simpa using hc
      simp only [meta.SetStatusCondition, hcb, Bool.false_eq_true, if_false, List.find?_cons]
      exact ih

/-! ## Theorems: `resolvePubKeyAction` -/

/-- Every call of `requestPublicKey` issues exactly one GET, to the public-key path. -/
theorem requestPublicKey_effects (i : Env) (n : Nat) (basePath : String) :
    (resolvePubKeyAction.requestPublicKey i n basePath).2
      = [Effect.httpGet (basePath ++ "/api/v1/log/publicKey")] := by
  unfold resolvePubKeyAction.requestPublicKey
  rcases hreply : i.http n (basePath ++ "/api/v1/log/publicKey") with
    err | ⟨code, status, body, readErr⟩
  · simp [hreply]
  · by_cases h : code = StatusOK <;> simp [hreply, h]

/-- The retry loop only sleeps, requests and logs. -/
theorem resolvePubKeyLoop_effects (i : Env) (inst : Rekor) (retries : List Nat)
    (err : Option GoError) :
    ∀ e ∈ (resolvePubKeyAction.resolvePubKeyLoop i inst retries err).2, e.isResolver = true := by
  induction retries generalizing err with
  | nil => simp [resolvePubKeyAction.resolvePubKeyLoop]
  | cons retry rest ih =>
    intro e he
    unfold resolvePubKeyAction.resolvePubKeyLoop at he
    simp only [requestPublicKey_effects] at he
    split at he
    · simp only [List.mem_cons, List.mem_singleton, List.not_mem_nil, or_false] at he
      rcases he with rfl | rfl <;> rfl
    · rename_i err1 _
      simp only [List.mem_cons, List.cons_append, List.nil_append] at he
      rcases he with rfl | rfl | rfl | he
      · rfl
      · rfl
      · rfl
      · exact ih (some err1) e he

/-- The resolver records no secret-created event. -/
theorem resolvePubKey_created (i : Env) (inst : Rekor) :
    created (resolvePubKeyAction.resolvePubKey i inst).2 = false := by
  unfold created
  rw [List.any_eq_false]
  intro e he
  have := resolvePubKeyLoop_effects i inst [1, 2, 3, 4] none e he
  cases e <;> simp_all [Effect.isResolver, Effect.isCreated]

/-- The resolver does not call `Failed`. -/
theorem resolvePubKey_no_failed (i : Env) (inst : Rekor) (err : GoError) :
    Effect.failed err ∉ (resolvePubKeyAction.resolvePubKey i inst).2 := by
  intro he
  have := resolvePubKeyLoop_effects i inst [1, 2, 3, 4] none _ he
  simp [Effect.isResolver] at this

/-- The resolver does not call `FailedWithStatusUpdate`. -/
theorem resolvePubKey_no_failedWithStatusUpdate (i : Env) (inst : Rekor) (err : GoError)
    (x : Rekor) :
    Effect.failedWithStatusUpdate err x ∉ (resolvePubKeyAction.resolvePubKey i inst).2 := by
  intro he
  have := resolvePubKeyLoop_effects i inst [1, 2, 3, 4] none _ he
  simp [Effect.isResolver] at this

/-- The last element of a list that ends in a non-empty block is the last
element of that block. -/
theorem getLast?_cons_append_cons {α : Type} (a : α) (l : List α) (b : α) (m : List α) :
    (a :: (l ++ b :: m)).getLast? = (b :: m).getLast? := by
  rw [← List.cons_append, List.getLast?_append]
  rcases h : (b :: m).getLast? with _ | x
  · simp at h
  · simp

/-- The three ways `createSecret` (lines 97-133) ends: the owner reference
cannot be set (`Failed`, ledger untouched); `Create` fails (ledger of lines
111-122, `FailedWithStatusUpdate`); the secret is created (ledger of lines
127-132, `StatusUpdate`). -/
theorem createSecret_paths (i : Env) (inst : Rekor) (publicKey : Bytes) (pre : List Effect)
    (hc : created pre = false) (hf : ∀ e, Effect.failed e ∉ pre)
    (hw : ∀ e x, Effect.failedWithStatusUpdate e x ∉ pre) :
    HandleEnds i inst (resolvePubKeyAction.createSecret i inst publicKey pre) := by
  unfold HandleEnds
  unfold created at hc ⊢
  rcases hs : i.setControllerReference with _ | serr
  · rcases hcr : i.create with cerr | name
    · right; right; left
      refine ⟨cerr, rfl, ?_, ?_, ?_, ?_⟩
      · simp [resolvePubKeyAction.createSecret, hs, hcr, ledgerAfterCreateFailure]
      · simp [resolvePubKeyAction.createSecret, hs, hcr, hc, Effect.isCreated]
      · simp [resolvePubKeyAction.createSecret, hs, hcr, hf]
      · simp [resolvePubKeyAction.createSecret, hs, hcr, ledgerAfterCreateFailure,
          List.getLast?_append]
    · right; right; right
      refine ⟨name, rfl, ?_, ?_, ?_, ?_⟩
      · simp [resolvePubKeyAction.createSecret, hs, hcr, ledgerAfterCreate]
      · simp [resolvePubKeyAction.createSecret, hs, hcr, Effect.isCreated]
      · simp [resolvePubKeyAction.createSecret, hs, hcr, hf]
      · simp [resolvePubKeyAction.createSecret, hs, hcr, hw]
  · right; left
    refine ⟨?_, ?_, ?_, ?_⟩
    · simp [resolvePubKeyAction.createSecret, hs]
    · simp [resolvePubKeyAction.createSecret, hs, hc, Effect.isCreated]
    · simp [resolvePubKeyAction.createSecret, hs, hw]
    · simp [resolvePubKeyAction.createSecret, hs, List.getLast?_append]

/-- Every invocation of `Handle` ends in one of the four ways of `HandleEnds`. -/
theorem Handle_paths (i : Env) (inst : Rekor) :
    HandleEnds i inst (resolvePubKeyAction.Handle i inst) := by
  have hrc := resolvePubKey_created i inst
  have hrf := resolvePubKey_no_failed i inst
  have hrw := resolvePubKey_no_failedWithStatusUpdate i inst
  unfold created at hrc
  have lift : ∀ pre, created pre = false → (∀ e, Effect.failed e ∉ pre) →
      (∀ e x, Effect.failedWithStatusUpdate e x ∉ pre) →
      resolvePubKeyAction.Handle i inst
        = resolvePubKeyAction.createSecret i inst (resolvePubKeyAction.resolvePubKey i inst).1.1 pre →
      HandleEnds i inst (resolvePubKeyAction.Handle i inst) := fun pre hc hf hw heq => by
    rw [heq]
    exact createSecret_paths i inst _ pre hc hf hw
  by_cases hu : resolvePubKeyAction.usesDiscovered (resolvePubKeyAction.discover i.findSecret) inst
      = true
  · left
    simp [resolvePubKeyAction.Handle, hu, created, Effect.isCreated, Rekor.withPublicKeyRef]
  · have hu : resolvePubKeyAction.usesDiscovered (resolvePubKeyAction.discover i.findSecret) inst
        = false := by simpa using hu
    rcases hres : (resolvePubKeyAction.resolvePubKey i inst).1.2 with _ | rerr
    · rcases hsks : resolvePubKeyAction.discover i.findSecret with _ | sks
      · rw [hsks] at hu
        apply lift ([Effect.findSecret inst.Namespace RekorPubLabel]
            ++ (resolvePubKeyAction.resolvePubKey i inst).2)
        · simp [created, hrc, Effect.isCreated]
        · simp [hrf]
        · simp [hrw]
        · unfold resolvePubKeyAction.Handle
          simp only [hsks, hu, Bool.false_eq_true, if_false, hres]
      · rw [hsks] at hu
        rcases hscr : i.findSecret with _ | scr
        · simp [resolvePubKeyAction.discover, hscr] at hsks
        · rcases hget : i.getSecretData.2 with _ | gerr
          · by_cases heq : i.getSecretData.1 = (resolvePubKeyAction.resolvePubKey i inst).1.1
            · left
              unfold resolvePubKeyAction.Handle
              simp only [hsks]
              simp only [hu, Bool.false_eq_true, if_false, hres, hscr, hget, heq, if_true]
              simp [created, hrc, hrf, hrw, Effect.isCreated, Rekor.withPublicKeyRef]
            · rcases hdel : i.delete with _ | derr
              · apply lift ([Effect.findSecret inst.Namespace RekorPubLabel]
                  ++ (resolvePubKeyAction.resolvePubKey i inst).2
                  ++ [Effect.getSecretData inst.Namespace sks] ++ [Effect.delete scr]
                  ++ [Effect.event "Normal" "PublicKeySecretDeleted"
                      ("Secret with public key deleted: " ++ scr.Name)])
                · simp [created, hrc, Effect.isCreated]
                · simp [hrf]
                · simp [hrw]
                · unfold resolvePubKeyAction.Handle
                  simp only [hsks]
                  simp only [hu, Bool.false_eq_true, if_false, hres, hscr, hget, heq, hdel]
              · right; left
                unfold resolvePubKeyAction.Handle
                simp only [hsks]
                simp only [hu, Bool.false_eq_true, if_false, hres, hscr, hget, heq, hdel]
                simp [created, hrc, hrw, Effect.isCreated, getLast?_cons_append_cons]
          · right; left
            unfold resolvePubKeyAction.Handle
            simp only [hsks]
            simp only [hu, Bool.false_eq_true, if_false, hres, hscr, hget]
            simp [created, hrc, hrw, Effect.isCreated, getLast?_cons_append_cons]
    · right; left
      unfold resolvePubKeyAction.Handle
      simp only [hu, Bool.false_eq_true, if_false, hres]
      simp [created, hrc, hrw, Effect.isCreated, getLast?_cons_append_cons]

/-- After a failed `Create` the `Ready` entry is False with Reason `Failure` and
the error as message. -/
theorem ledgerAfterCreateFailure_ready (i : Env) (inst : Rekor) (err : GoError) :
    ∃ c, meta.FindStatusCondition (ledgerAfterCreateFailure i inst err) constants.Ready = some c ∧
      c.Status = metav1.ConditionFalse ∧ c.Reason = constants.Failure ∧ c.Message = err :=
  FindStatusCondition_Set_same i.now _
    ⟨constants.Ready, metav1.ConditionFalse, 0, 0, constants.Failure, err⟩

/-- A ledger in which `Ready` is not True and some other condition is not True
is consistent. -/
theorem ConditionConsistent_of_both_false (conditions : List Condition) (c : Condition)
    (hready : meta.IsStatusConditionTrue conditions constants.Ready = false)
    (hfind : meta.FindStatusCondition conditions actions.ServerCondition = some c)
    (hc : c.Status = metav1.ConditionFalse) :
    ConditionConsistent conditions := by
  unfold ConditionConsistent
  rw [hready]
  constructor
  · intro h
    simp at h
  · intro h
    exfalso
    unfold meta.FindStatusCondition at hfind
    have hmem := List.mem_of_find?_eq_some hfind
    have htype : c.Type_ = actions.ServerCondition := by
      simpa using List.find?_some hfind
    have := h c hmem (by rw [htype]; decide)
    rw [hc] at this
    revert this
    decide

/-- The ledger written after a failed `Create` is consistent. -/
theorem ledgerAfterCreateFailure_consistent (i : Env) (inst : Rekor) (err : GoError) :
    ConditionConsistent (ledgerAfterCreateFailure i inst err) := by
  obtain ⟨c, hc, hs, -, -⟩ := ledgerAfterCreateFailure_ready i inst err
  obtain ⟨d, hd, hds, -, -⟩ := FindStatusCondition_Set_same i.now inst.Status.Conditions
    ⟨actions.ServerCondition, metav1.ConditionFalse, 0, 0, constants.Failure, err⟩
  refine ConditionConsistent_of_both_false _ d ?_ ?_ hds
  · unfold meta.IsStatusConditionTrue
    rw [hc]
    simp only [hs]
    decide
  · unfold ledgerAfterCreateFailure
    rw [FindStatusCondition_Set_of_ne _ _ _ _
      (show constants.Ready ≠ actions.ServerCondition by decide)]
    exact hd

/-- After the secret has been created the `Ready` entry is as before and the
`ServerCondition` entry is False. -/
theorem ledgerAfterCreate_entries (i : Env) (inst : Rekor) :
    meta.FindStatusCondition (ledgerAfterCreate i inst) constants.Ready
        = meta.FindStatusCondition inst.Status.Conditions constants.Ready ∧
      ∃ c, meta.FindStatusCondition (ledgerAfterCreate i inst) actions.ServerCondition = some c ∧
        c.Status = metav1.ConditionFalse := by
  constructor
  · exact FindStatusCondition_Set_of_ne _ _ _ _
      (show actions.ServerCondition ≠ constants.Ready by decide)
  · obtain ⟨d, hd, hds, -, -⟩ := FindStatusCondition_Set_same i.now inst.Status.Conditions
      ⟨actions.ServerCondition, metav1.ConditionFalse, 0, 0, constants.Ready,
        "Server config created"⟩
    exact ⟨d, hd, hds⟩

/-- After the secret has been created the ledger is consistent exactly when
`Ready` was not True before. -/
theorem ledgerAfterCreate_consistent_iff (i : Env) (inst : Rekor) :
    ConditionConsistent (ledgerAfterCreate i inst) ↔
      meta.IsStatusConditionTrue inst.Status.Conditions constants.Ready = false := by
  obtain ⟨hready, d, hd, hds⟩ := ledgerAfterCreate_entries i inst
  have hsame : meta.IsStatusConditionTrue (ledgerAfterCreate i inst) constants.Ready
      = meta.IsStatusConditionTrue inst.Status.Conditions constants.Ready := by
    unfold meta.IsStatusConditionTrue
    rw [hready]
  constructor
  · intro hcons
    unfold ConditionConsistent at hcons
    rw [hsame] at hcons
    by_contra hne
    have htrue : meta.IsStatusConditionTrue inst.Status.Conditions constants.Ready = true := by
      simpa using hne
    have hall := hcons.mp htrue
    unfold meta.FindStatusCondition at hd
    have hmem := List.mem_of_find?_eq_some hd
    have htype : d.Type_ = actions.ServerCondition := by
      simpa using List.find?_some hd
    have := hall d hmem (by rw [htype]; decide)
    rw [hds] at this
    revert this
    decide
  · intro hfalse
    exact ConditionConsistent_of_both_false _ d (by rw [hsame]; exact hfalse) hd hds

/-- C6, as stated, fails: on a Rekor whose ledger is consistent with `Ready` True
and `ServerCondition` True and whose public key reference is lost, `CanHandle`
holds; when the key is resolved and the new secret created, `Handle` sets
`ServerCondition` to False and leaves `Ready` True, so the ledger is no longer
consistent. -/
theorem Handle_breaks_consistency :
    resolvePubKeyAction.CanHandle (rekorWith metav1.ConditionTrue constants.Ready) = some true ∧
      ConditionConsistent (rekorWith metav1.ConditionTrue constants.Ready).Status.Conditions ∧
      meta.IsStatusConditionTrue
        (resolvePubKeyAction.Handle envUp
          (rekorWith metav1.ConditionTrue constants.Ready)).inst.Status.Conditions
        constants.Ready = true ∧
      meta.IsStatusConditionTrue
        (resolvePubKeyAction.Handle envUp
          (rekorWith metav1.ConditionTrue constants.Ready)).inst.Status.Conditions
        actions.ServerCondition = false ∧
      ¬ ConditionConsistent
        (resolvePubKeyAction.Handle envUp
          (rekorWith metav1.ConditionTrue constants.Ready)).inst.Status.Conditions := by
  decide

/-- C6, amended: for every Rekor on which `CanHandle` holds and whose ledger is
consistent, the ledger is consistent again after `Handle` on every path except
one: when a new public-key secret has been created (lines 126-133) while `Ready`
was True, `ServerCondition` becomes False and `Ready` stays True. -/
theorem Handle_condition_consistency (i : Env) (inst : Rekor)
    (hcan : resolvePubKeyAction.CanHandle inst = some true)
    (hcons : ConditionConsistent inst.Status.Conditions) :
    ConditionConsistent (resolvePubKeyAction.Handle i inst).inst.Status.Conditions ↔
      ¬ (created (resolvePubKeyAction.Handle i inst).effects = true ∧
          meta.IsStatusConditionTrue inst.Status.Conditions constants.Ready = true) := by
  have _ := hcan
  rcases Handle_paths i inst with ⟨h1, h2, -, -⟩ | ⟨h1, h2, -, -⟩ | ⟨err, -, h1, h2, -, -⟩ |
    ⟨name, -, h1, h2, -, -⟩
  · rw [h1, h2]
    simpa using hcons
  · rw [h1, h2]
    simpa using hcons
  · rw [h1, h2]
    simpa [Rekor.withConditions] using ledgerAfterCreateFailure_consistent i inst err
  · rw [h1, h2]
    simpa [Rekor.withConditions] using ledgerAfterCreate_consistent_iff i inst

/-- C6, amended, at a concrete input: with the endpoint down `Handle` fails
before any write and the consistent ledger stays consistent. -/
theorem Handle_condition_consistency_witness :
    ConditionConsistent
      (resolvePubKeyAction.Handle envDown
        (rekorWith metav1.ConditionTrue constants.Ready)).inst.Status.Conditions :=
  (Handle_condition_consistency envDown (rekorWith metav1.ConditionTrue constants.Ready)
    (by decide) (by decide)).mpr (by decide)

/-- When `CanHandle` holds, the ledger has a `Ready` entry whose Reason is
`Initialize` or `Ready`. -/
theorem CanHandle_ready_reason (inst : Rekor)
    (hcan : resolvePubKeyAction.CanHandle inst = some true) :
    ∃ c, meta.FindStatusCondition inst.Status.Conditions constants.Ready = some c ∧
      (c.Reason = constants.Initialize ∨ c.Reason = constants.Ready) := by
  unfold resolvePubKeyAction.CanHandle at hcan
  rcases hfind : meta.FindStatusCondition inst.Status.Conditions constants.Ready with _ | c
  · rw [hfind] at hcan
    simp at hcan
  · rw [hfind] at hcan
    refine ⟨c, rfl, ?_⟩
    by_contra hne
    simp only [not_or] at hne
    have h1 : (c.Reason != constants.Initialize) = true := by simpa using hne.1
    have h2 : (c.Reason != constants.Ready) = true := by simpa using hne.2
    simp [h1, h2] at hcan

/-- When `Handle` reaches line 97 it ends the way `createSecret` does. -/
theorem Handle_of_reachesCreate (i : Env) (inst : Rekor) (h : reachesCreate i inst) :
    ∃ pre, resolvePubKeyAction.Handle i inst
      = resolvePubKeyAction.createSecret i inst (resolvePubKeyAction.resolvePubKey i inst).1.1
          pre := by
  obtain ⟨hu, hres, hrest⟩ := h
  rcases hsks : resolvePubKeyAction.discover i.findSecret with _ | sks
  · rw [hsks] at hu
    refine ⟨[Effect.findSecret inst.Namespace RekorPubLabel]
      ++ (resolvePubKeyAction.resolvePubKey i inst).2, ?_⟩
    unfold resolvePubKeyAction.Handle
    simp only [hsks, hu, Bool.false_eq_true, if_false, hres]
  · rw [hsks] at hu
    rcases hrest with hnone | ⟨hget, hne, hdel⟩
    · rw [hsks] at hnone
      cases hnone
    · rcases hscr : i.findSecret with _ | scr
      · simp [resolvePubKeyAction.discover, hscr] at hsks
      · refine ⟨[Effect.findSecret inst.Namespace RekorPubLabel]
          ++ (resolvePubKeyAction.resolvePubKey i inst).2
          ++ [Effect.getSecretData inst.Namespace sks] ++ [Effect.delete scr]
          ++ [Effect.event "Normal" "PublicKeySecretDeleted"
              ("Secret with public key deleted: " ++ scr.Name)], ?_⟩
        unfold resolvePubKeyAction.Handle
        simp only [hsks]
        simp only [hu, Bool.false_eq_true, if_false, hres, hscr, hget, hne, hdel]

/-- The instance and the result `createSecret` leaves when `Create` fails: the
ledger of lines 111-122 and the result of `FailedWithStatusUpdate`. -/
theorem createSecret_create_fails (i : Env) (inst : Rekor) (publicKey : Bytes)
    (pre : List Effect) (err : GoError)
    (hs : i.setControllerReference = none) (hcr : i.create = .error err) :
    (resolvePubKeyAction.createSecret i inst publicKey pre).inst
        = inst.withConditions (ledgerAfterCreateFailure i inst err) ∧
      (resolvePubKeyAction.createSecret i inst publicKey pre).result
        = i.FailedWithStatusUpdate err
            (inst.withConditions (ledgerAfterCreateFailure i inst err)) := by
  simp [resolvePubKeyAction.createSecret, hs, hcr, ledgerAfterCreateFailure]

/-- The instance and the result `createSecret` leaves when the owner reference
cannot be set: the instance as it was and the result of `Failed`. -/
theorem createSecret_owner_fails (i : Env) (inst : Rekor) (publicKey : Bytes)
    (pre : List Effect) (err : GoError) (hs : i.setControllerReference = some err) :
    (resolvePubKeyAction.createSecret i inst publicKey pre).inst = inst ∧
      (resolvePubKeyAction.createSecret i inst publicKey pre).result
        = i.Failed ("could not set controller reference for Secret: " ++ err) := by
  simp [resolvePubKeyAction.createSecret, hs]

/-- The three failures before line 97 return through `Failed` with the error of
the failing call and leave the instance as it was. -/
theorem Handle_fails_before_create (i : Env) (inst : Rekor) (err : GoError)
    (h : resolveFails i inst err ∨ readFails i inst err ∨ deleteFails i inst err) :
    (resolvePubKeyAction.Handle i inst).inst = inst ∧
      (resolvePubKeyAction.Handle i inst).result = i.Failed err := by
  rcases h with ⟨hu, hres⟩ | ⟨hu, hres, hsome, hget⟩ | ⟨hu, hres, hsome, hget, hne, hdel⟩
  · unfold resolvePubKeyAction.Handle
    simp only [hu, Bool.false_eq_true, if_false, hres]
    constructor <;> trivial
  · rcases hsks : resolvePubKeyAction.discover i.findSecret with _ | sks
    · exact absurd hsks hsome
    · rw [hsks] at hu
      rcases hscr : i.findSecret with _ | scr
      · simp [resolvePubKeyAction.discover, hscr] at hsks
      · unfold resolvePubKeyAction.Handle
        simp only [hsks]
        simp only [hu, Bool.false_eq_true, if_false, hres, hscr, hget]
        constructor <;> trivial
  · rcases hsks : resolvePubKeyAction.discover i.findSecret with _ | sks
    · exact absurd hsks hsome
    · rw [hsks] at hu
      rcases hscr : i.findSecret with _ | scr
      · simp [resolvePubKeyAction.discover, hscr] at hsks
      · unfold resolvePubKeyAction.Handle
        simp only [hsks]
        simp only [hu, Bool.false_eq_true, if_false, hres, hscr, hget, hne, hdel]
        constructor <;> trivial

/-- C7, as stated, fails: with the endpoint down, `Handle` returns the result of
`Failed` and leaves the ledger untouched, so `Ready` is still True with Reason
`Ready` (respectively False with Reason `Initialize`), not False with a Reason
among `Pending`, `Creating`, `Failure`. -/
theorem Handle_failed_leaves_ready :
    resolvePubKeyAction.CanHandle (rekorWith metav1.ConditionTrue constants.Ready) = some true ∧
      (resolvePubKeyAction.Handle envDown
        (rekorWith metav1.ConditionTrue constants.Ready)).result
        = envDown.Failed "connection refused" ∧
      (resolvePubKeyAction.Handle envDown
        (rekorWith metav1.ConditionTrue constants.Ready)).effects.getLast?
        = some (Effect.failed "connection refused") ∧
      ReadyFalseWithReason
        (resolvePubKeyAction.Handle envDown
          (rekorWith metav1.ConditionTrue constants.Ready)).inst.Status.Conditions = false ∧
      resolvePubKeyAction.CanHandle (rekorWith metav1.ConditionFalse constants.Initialize)
        = some true ∧
      (resolvePubKeyAction.Handle envDown
        (rekorWith metav1.ConditionFalse constants.Initialize)).effects.getLast?
        = some (Effect.failed "connection refused") ∧
      ReadyFalseWithReason
        (resolvePubKeyAction.Handle envDown
          (rekorWith metav1.ConditionFalse constants.Initialize)).inst.Status.Conditions = false := by
  decide

/-- The ledger read off the last call of `Handle`, for a Rekor on which
`CanHandle` holds: after `FailedWithStatusUpdate`, `Ready` is False with Reason
`Failure` and the error as message; after `Failed` the instance is exactly as it
was, so `Ready` keeps its status and its Reason `Initialize` or `Ready`. -/
theorem Handle_ledger_of_last_call (i : Env) (inst : Rekor)
    (hcan : resolvePubKeyAction.CanHandle inst = some true) :
    (∀ err x, (resolvePubKeyAction.Handle i inst).effects.getLast?
        = some (Effect.failedWithStatusUpdate err x) →
      ReadyFalseWithReason (resolvePubKeyAction.Handle i inst).inst.Status.Conditions = true ∧
      ∃ c, meta.FindStatusCondition (resolvePubKeyAction.Handle i inst).inst.Status.Conditions
          constants.Ready = some c ∧
        c.Status = metav1.ConditionFalse ∧ c.Reason = constants.Failure ∧ c.Message = err) ∧
    (∀ err, (resolvePubKeyAction.Handle i inst).effects.getLast? = some (Effect.failed err) →
      (resolvePubKeyAction.Handle i inst).inst = inst ∧
      ReadyFalseWithReason (resolvePubKeyAction.Handle i inst).inst.Status.Conditions = false ∧
      ∃ c, meta.FindStatusCondition (resolvePubKeyAction.Handle i inst).inst.Status.Conditions
          constants.Ready = some c ∧
        (c.Reason = constants.Initialize ∨ c.Reason = constants.Ready)) := by
  obtain ⟨c0, hc0, hreason⟩ := CanHandle_ready_reason inst hcan
  have hvocab : ReadyFalseWithReason inst.Status.Conditions = false := by
    unfold ReadyFalseWithReason
    rw [hc0]
    have hp : (constants.Initialize == constants.Pending || constants.Initialize == constants.Creating
        || constants.Initialize == constants.Failure) = false := by decide
    have hq : (constants.Ready == constants.Pending || constants.Ready == constants.Creating
        || constants.Ready == constants.Failure) = false := by decide
    rcases hreason with h | h
    · simp only [h, hp, Bool.and_false]
    · simp only [h, hq, Bool.and_false]
  rcases Handle_paths i inst with ⟨-, -, h3, h4⟩ | ⟨h1, -, h3, -⟩ | ⟨cerr, -, h1, -, h3, h4⟩ |
    ⟨name, -, -, -, h3, h4⟩
  · exact ⟨fun err x h => absurd (List.mem_of_getLast?_eq_some h) (h4 err x),
      fun err h => absurd (List.mem_of_getLast?_eq_some h) (h3 err)⟩
  · refine ⟨fun err x h => absurd (List.mem_of_getLast?_eq_some h) (h3 err x), fun err _ => ?_⟩
    rw [h1]
    exact ⟨rfl, hvocab, c0, hc0, hreason⟩
  · refine ⟨fun err x h => ?_, fun err h => absurd (List.mem_of_getLast?_eq_some h) (h3 err)⟩
    rw [h4] at h
    injection h with h
    injection h with herr _
    subst herr
    obtain ⟨c, hc, hs, hr, hm⟩ := ledgerAfterCreateFailure_ready i inst cerr
    rw [h1]
    refine ⟨?_, c, hc, hs, hr, hm⟩
    unfold ReadyFalseWithReason
    simp only [Rekor.withConditions, hc, hs, hr]
    decide
  · exact ⟨fun err x h => absurd (List.mem_of_getLast?_eq_some h) (h4 err x),
      fun err h => absurd (List.mem_of_getLast?_eq_some h) (h3 err)⟩

/-- On a Rekor on which `CanHandle` holds, `Ready` has Reason `Initialize` or
`Ready`, so it is not False with a Reason among `Pending`, `Creating`, `Failure`. -/
theorem CanHandle_ready_outside_vocabulary (inst : Rekor)
    (hcan : resolvePubKeyAction.CanHandle inst = some true) :
    ReadyFalseWithReason inst.Status.Conditions = false ∧
      ∃ c, meta.FindStatusCondition inst.Status.Conditions constants.Ready = some c ∧
        (c.Reason = constants.Initialize ∨ c.Reason = constants.Ready) := by
  obtain ⟨c0, hc0, hreason⟩ := CanHandle_ready_reason inst hcan
  refine ⟨?_, c0, hc0, hreason⟩
  unfold ReadyFalseWithReason
  rw [hc0]
  have hp : (constants.Initialize == constants.Pending || constants.Initialize == constants.Creating
      || constants.Initialize == constants.Failure) = false := by decide
  have hq : (constants.Ready == constants.Pending || constants.Ready == constants.Creating
      || constants.Ready == constants.Failure) = false := by decide
  rcases hreason with h | h
  · simp only [h, hp, Bool.and_false]
  · simp only [h, hq, Bool.and_false]

/-- C7, amended: for every Rekor on which `CanHandle` holds, when creating the
new secret fails with `err`, `Handle` returns the result of
`FailedWithStatusUpdate` and `Ready` is False with Reason `Failure` and `err` as
message. When the public key cannot be resolved, reading the discovered secret
fails or deleting the stale secret fails with `err`, `Handle` returns the result
of `Failed err`, and when the owner reference cannot be set it returns the
result of `Failed` on the wrapped error; in these four cases the instance is
exactly as it was, so `Ready` keeps its status and its Reason `Initialize` or
`Ready`. The same holds read off the last call: after `FailedWithStatusUpdate`
the ledger is the first one, after `Failed` the instance is untouched. -/
theorem Handle_failure_ledger (i : Env) (inst : Rekor)
    (hcan : resolvePubKeyAction.CanHandle inst = some true) :
    (∀ err, createFails i inst err →
      (resolvePubKeyAction.Handle i inst).result
        = i.FailedWithStatusUpdate err (resolvePubKeyAction.Handle i inst).inst ∧
      ReadyFalseWithReason (resolvePubKeyAction.Handle i inst).inst.Status.Conditions = true ∧
      ∃ c, meta.FindStatusCondition (resolvePubKeyAction.Handle i inst).inst.Status.Conditions
          constants.Ready = some c ∧
        c.Status = metav1.ConditionFalse ∧ c.Reason = constants.Failure ∧ c.Message = err) ∧
    (∀ err, (resolveFails i inst err ∨ readFails i inst err ∨ deleteFails i inst err) →
      (resolvePubKeyAction.Handle i inst).result = i.Failed err ∧
      (resolvePubKeyAction.Handle i inst).inst = inst ∧
      ReadyFalseWithReason (resolvePubKeyAction.Handle i inst).inst.Status.Conditions = false ∧
      ∃ c, meta.FindStatusCondition (resolvePubKeyAction.Handle i inst).inst.Status.Conditions
          constants.Ready = some c ∧
        (c.Reason = constants.Initialize ∨ c.Reason = constants.Ready)) ∧
    (∀ err, ownerFails i inst err →
      (resolvePubKeyAction.Handle i inst).result
        = i.Failed ("could not set controller reference for Secret: " ++ err) ∧
      (resolvePubKeyAction.Handle i inst).inst = inst ∧
      ReadyFalseWithReason (resolvePubKeyAction.Handle i inst).inst.Status.Conditions = false ∧
      ∃ c, meta.FindStatusCondition (resolvePubKeyAction.Handle i inst).inst.Status.Conditions
          constants.Ready = some c ∧
        (c.Reason = constants.Initialize ∨ c.Reason = constants.Ready)) ∧
    (∀ err x, (resolvePubKeyAction.Handle i inst).effects.getLast?
        = some (Effect.failedWithStatusUpdate err x) →
      ReadyFalseWithReason (resolvePubKeyAction.Handle i inst).inst.Status.Conditions = true ∧
      ∃ c, meta.FindStatusCondition (resolvePubKeyAction.Handle i inst).inst.Status.Conditions
          constants.Ready = some c ∧
        c.Status = metav1.ConditionFalse ∧ c.Reason = constants.Failure ∧ c.Message = err) ∧
    (∀ err, (resolvePubKeyAction.Handle i inst).effects.getLast? = some (Effect.failed err) →
      (resolvePubKeyAction.Handle i inst).inst = inst ∧
      ReadyFalseWithReason (resolvePubKeyAction.Handle i inst).inst.Status.Conditions = false ∧
      ∃ c, meta.FindStatusCondition (resolvePubKeyAction.Handle i inst).inst.Status.Conditions
          constants.Ready = some c ∧
        (c.Reason = constants.Initialize ∨ c.Reason = constants.Ready)) := by
  obtain ⟨hvocab, c0, hc0, hreason⟩ := CanHandle_ready_outside_vocabulary inst hcan
  refine ⟨?_, ?_, ?_, (Handle_ledger_of_last_call i inst hcan).1,
    (Handle_ledger_of_last_call i inst hcan).2⟩
  · rintro err ⟨hreach, hs, hcr⟩
    obtain ⟨pre, hpre⟩ := Handle_of_reachesCreate i inst hreach
    obtain ⟨hinst, hresult⟩ := createSecret_create_fails i inst
      (resolvePubKeyAction.resolvePubKey i inst).1.1 pre err hs hcr
    obtain ⟨c, hc, hst, hr, hm⟩ := ledgerAfterCreateFailure_ready i inst err
    rw [hpre, hresult, hinst]
    refine ⟨rfl, ?_, c, hc, hst, hr, hm⟩
    unfold ReadyFalseWithReason
    simp only [Rekor.withConditions, hc, hst, hr]
    decide
  · intro err h
    obtain ⟨hinst, hresult⟩ := Handle_fails_before_create i inst err h
    rw [hresult, hinst]
    exact ⟨rfl, rfl, hvocab, c0, hc0, hreason⟩
  · rintro err ⟨hreach, hs⟩
    obtain ⟨pre, hpre⟩ := Handle_of_reachesCreate i inst hreach
    obtain ⟨hinst, hresult⟩ := createSecret_owner_fails i inst
      (resolvePubKeyAction.resolvePubKey i inst).1.1 pre err hs
    rw [hpre, hresult, hinst]
    exact ⟨rfl, rfl, hvocab, c0, hc0, hreason⟩

/-- C7, amended, at concrete inputs: creating the secret fails with `forbidden`,
and the endpoint is down. -/
theorem Handle_failure_ledger_witness :
    ReadyFalseWithReason
        (resolvePubKeyAction.Handle envCreateFails
          (rekorWith metav1.ConditionFalse constants.Initialize)).inst.Status.Conditions = true ∧
      (resolvePubKeyAction.Handle envDown
        (rekorWith metav1.ConditionFalse constants.Initialize)).inst
        = rekorWith metav1.ConditionFalse constants.Initialize :=
  ⟨((Handle_failure_ledger envCreateFails (rekorWith metav1.ConditionFalse constants.Initialize)
      (by decide)).1 "forbidden"
      ⟨⟨by decide, by decide, Or.inl (by decide)⟩, by decide, rfl⟩).2.1,
    ((Handle_failure_ledger envDown (rekorWith metav1.ConditionFalse constants.Initialize)
      (by decide)).2.1 "connection refused"
      (Or.inl ⟨by decide, by decide⟩)).2.1⟩

/-- The loop itself writes nothing: when it calls no `Handle`, the target and
the cluster are as before. -/
theorem actionLoop_no_handle {T C : Type} (acs : List (Action T C)) (idx : Nat) (t : T) (c : C)
    (h : ∀ call ∈ (actionLoop acs idx t c).calls, call.isHandle = false) :
    (actionLoop acs idx t c).cluster = c ∧ (actionLoop acs idx t c).target = t := by
  induction acs generalizing idx with
  | nil => simp [actionLoop]
  | cons a rest ih =>
    by_cases hcan : a.CanHandle t c = true
    · rcases hres : a.Handle t c with ⟨⟨t1, c1⟩, _ | r⟩
      · rw [actionLoop_cons_continue a rest idx t c t1 c1 hcan hres] at h
        have := h (Call.handle idx none) (by simp)
        simp [Call.isHandle] at this
      · rw [actionLoop_cons_stop a rest idx t c t1 c1 r hcan hres] at h
        have := h (Call.handle idx (some r)) (by simp)
        simp [Call.isHandle] at this
    · have hcan : a.CanHandle t c = false := by simpa using hcan
      rw [actionLoop_cons_false a rest idx t c hcan] at h ⊢
      exact ih (idx + 1) (fun call hcall => h call (List.mem_cons_of_mem _ hcall))

/-- C8, as stated, fails: when creating the secret fails, `Handle` itself
rewrites the `Ready` entry, here from Reason `Initialize` to Reason `Failure`
with the error as message. -/
theorem Handle_writes_ready :
    meta.FindStatusCondition
        (rekorWith metav1.ConditionFalse constants.Initialize).Status.Conditions constants.Ready
        = some ⟨constants.Ready, metav1.ConditionFalse, 0, 1, constants.Initialize, ""⟩ ∧
      meta.FindStatusCondition
        (resolvePubKeyAction.Handle envCreateFails
          (rekorWith metav1.ConditionFalse constants.Initialize)).inst.Status.Conditions
        constants.Ready
        = some ⟨constants.Ready, metav1.ConditionFalse, 0, 1, constants.Failure, "forbidden"⟩ ∧
      meta.FindStatusCondition
        (resolvePubKeyAction.Handle envCreateFails
          (rekorWith metav1.ConditionFalse constants.Initialize)).inst.Status.Conditions
        constants.Ready
        ≠ meta.FindStatusCondition
          (rekorWith metav1.ConditionFalse constants.Initialize).Status.Conditions
          constants.Ready := by
  decide

/-- The `Ready` entry read off the calls made: an invocation of `Reconcile` that
calls no `Handle` leaves the cluster as it was; `resolvePubKeyAction.Handle`
leaves the `Ready` entry unchanged unless its last call is
`FailedWithStatusUpdate`, and then `Ready` is False with Reason `Failure` and
the error as message. -/
theorem Ready_entry_of_last_call {T C : Type} (r : Reconciler T C) (cluster : C)
    (i : Env) (inst : Rekor) :
    ((∀ call ∈ (Reconcile r cluster).calls, call.isHandle = false) →
      (Reconcile r cluster).cluster = cluster) ∧
    ((∀ err x, (resolvePubKeyAction.Handle i inst).effects.getLast?
        ≠ some (Effect.failedWithStatusUpdate err x)) →
      meta.FindStatusCondition (resolvePubKeyAction.Handle i inst).inst.Status.Conditions
          constants.Ready
        = meta.FindStatusCondition inst.Status.Conditions constants.Ready) ∧
    (∀ err x, (resolvePubKeyAction.Handle i inst).effects.getLast?
        = some (Effect.failedWithStatusUpdate err x) →
      ∃ c, meta.FindStatusCondition (resolvePubKeyAction.Handle i inst).inst.Status.Conditions
          constants.Ready = some c ∧
        c.Status = metav1.ConditionFalse ∧ c.Reason = constants.Failure ∧ c.Message = err) := by
  refine ⟨?_, ?_, ?_⟩
  · intro h
    rcases hget : r.Get cluster with err | loaded
    · exact (Reconcile_error r cluster err hget).2.1
    · obtain ⟨h1, h2, -, -⟩ := Reconcile_ok r cluster loaded hget
      rw [h1] at h
      rw [h2]
      exact (actionLoop_no_handle r.acs 0 loaded cluster h).1
  · intro hno
    rcases Handle_paths i inst with ⟨h1, -, -, -⟩ | ⟨h1, -, -, -⟩ | ⟨cerr, -, -, -, -, h4⟩ |
      ⟨name, -, h1, -, -, -⟩
    · rw [h1]
    · rw [h1]
    · exact absurd h4 (hno _ _)
    · rw [h1]
      exact (ledgerAfterCreate_entries i inst).1
  · intro err x h
    rcases Handle_paths i inst with ⟨-, -, -, h4⟩ | ⟨-, -, h3, -⟩ | ⟨cerr, -, h1, -, -, h4⟩ |
      ⟨name, -, -, -, -, h4⟩
    · exact absurd (List.mem_of_getLast?_eq_some h) (h4 err x)
    · exact absurd (List.mem_of_getLast?_eq_some h) (h3 err x)
    · rw [h4] at h
      injection h with h
      injection h with herr _
      subst herr
      rw [h1]
      exact ledgerAfterCreateFailure_ready i inst cerr
    · exact absurd (List.mem_of_getLast?_eq_some h) (h4 err x)

/-- The loop writes nothing of its own: the target and the cluster it leaves
are those left by the `Handle`s it logged, run in the order of the log. `all`
is the whole Action list, of which `acs` is what remains from position `idx`. -/
theorem actionLoop_replay {T C : Type} (all acs : List (Action T C)) (idx : Nat) (t : T) (c : C)
    (h : all.drop idx = acs) :
    replay all (actionLoop acs idx t c).calls t c
      = ((actionLoop acs idx t c).target, (actionLoop acs idx t c).cluster) := by
  induction acs generalizing idx t c with
  | nil => simp [actionLoop, replay]
  | cons a rest ih =>
    have hget : all[idx]? = some a := by
      have := congrArg List.head? h
      simpa [List.head?_drop] using this
    have hdrop : all.drop (idx + 1) = rest := by
      have := congrArg List.tail h
      simpa [List.tail_drop] using this
    by_cases hcan : a.CanHandle t c = true
    · rcases hres : a.Handle t c with ⟨⟨t1, c1⟩, _ | res⟩
      · rw [actionLoop_cons_continue a rest idx t c t1 c1 hcan hres]
        simp only [replay, hget, hres]
        exact ih (idx + 1) t1 c1 hdrop
      · rw [actionLoop_cons_stop a rest idx t c t1 c1 res hcan hres]
        simp only [replay, hget, hres]
    · have hcan : a.CanHandle t c = false := by simpa using hcan
      rw [actionLoop_cons_false a rest idx t c hcan]
      simp only [replay]
      exact ih (idx + 1) t c hdrop

/-- Either `Handle` reaches line 97, where the new secret is built, or it
returns before and leaves the ledger as it was. -/
theorem Handle_reaches_or_keeps (i : Env) (inst : Rekor) :
    reachesCreate i inst ∨
      (resolvePubKeyAction.Handle i inst).inst.Status.Conditions = inst.Status.Conditions := by
  by_cases hu : resolvePubKeyAction.usesDiscovered (resolvePubKeyAction.discover i.findSecret) inst
      = true
  · right
    simp [resolvePubKeyAction.Handle, hu, Rekor.withPublicKeyRef]
  · have hu : resolvePubKeyAction.usesDiscovered (resolvePubKeyAction.discover i.findSecret) inst
        = false := by simpa using hu
    rcases hres : (resolvePubKeyAction.resolvePubKey i inst).1.2 with _ | rerr
    · rcases hsks : resolvePubKeyAction.discover i.findSecret with _ | sks
      · exact Or.inl ⟨hu, hres, Or.inl hsks⟩
      · rcases hget : i.getSecretData.2 with _ | gerr
        · by_cases heq : i.getSecretData.1 = (resolvePubKeyAction.resolvePubKey i inst).1.1
          · right
            rw [hsks] at hu
            rcases hscr : i.findSecret with _ | scr
            · simp [resolvePubKeyAction.discover, hscr] at hsks
            · unfold resolvePubKeyAction.Handle
              simp only [hsks]
              simp only [hu, Bool.false_eq_true, if_false, hres, hscr, hget, heq, if_true]
              simp [Rekor.withPublicKeyRef]
          · rcases hdel : i.delete with _ | derr
            · exact Or.inl ⟨hu, hres, Or.inr ⟨hget, heq, hdel⟩⟩
            · right
              rw [(Handle_fails_before_create i inst derr
                (Or.inr (Or.inr ⟨hu, hres, by rw [hsks]; simp, hget, heq, hdel⟩))).1]
        · right
          rw [(Handle_fails_before_create i inst gerr
            (Or.inr (Or.inl ⟨hu, hres, by rw [hsks]; simp, hget⟩))).1]
    · right
      rw [(Handle_fails_before_create i inst rerr (Or.inl ⟨hu, hres⟩)).1]

/-- Unless creating the new secret fails, `Handle` leaves the `Ready` entry of
the ledger as it was. -/
theorem Handle_keeps_ready_unless_createFails (i : Env) (inst : Rekor)
    (hno : ∀ err, ¬ createFails i inst err) :
    meta.FindStatusCondition (resolvePubKeyAction.Handle i inst).inst.Status.Conditions
        constants.Ready
      = meta.FindStatusCondition inst.Status.Conditions constants.Ready := by
  rcases Handle_reaches_or_keeps i inst with hreach | hkeep
  · obtain ⟨pre, hpre⟩ := Handle_of_reachesCreate i inst hreach
    rw [hpre]
    rcases hs : i.setControllerReference with _ | serr
    · rcases hcr : i.create with cerr | name
      · exact absurd ⟨hreach, hs, hcr⟩ (hno cerr)
      · have hinst : (resolvePubKeyAction.createSecret i inst
            (resolvePubKeyAction.resolvePubKey i inst).1.1 pre).inst
            = inst.withConditions (ledgerAfterCreate i inst) := by
          simp [resolvePubKeyAction.createSecret, hs, hcr, ledgerAfterCreate]
        rw [hinst]
        exact (ledgerAfterCreate_entries i inst).1
    · rw [(createSecret_owner_fails i inst _ pre serr hs).1]
  · rw [hkeep]

/-- C8, amended: `Reconcile` has no step that recomputes `Ready`, and writes
nothing itself: after a failed load the cluster is as it was, and after a load
the cluster it leaves is exactly the one left by the `Handle`s it called, run in
the order of the calls (so an invocation that calls no `Handle` leaves the
cluster as it was). The `Ready` condition is written by Actions: when creating
the secret fails with `err`, `resolvePubKeyAction.Handle` sets `Ready` to False
with Reason `Failure` and `err` as message; in every other case it leaves the
`Ready` entry of the ledger unchanged. -/
theorem Ready_written_by_actions {T C : Type} (r : Reconciler T C) (cluster : C)
    (i : Env) (inst : Rekor) :
    (∀ loaded, r.Get cluster = .ok loaded →
      (Reconcile r cluster).cluster
        = (replay r.acs (Reconcile r cluster).calls loaded cluster).2) ∧
    (∀ err, r.Get cluster = .error err →
      (Reconcile r cluster).cluster = cluster ∧ (Reconcile r cluster).calls = []) ∧
    ((∀ call ∈ (Reconcile r cluster).calls, call.isHandle = false) →
      (Reconcile r cluster).cluster = cluster) ∧
    (∀ err, createFails i inst err →
      ∃ c, meta.FindStatusCondition (resolvePubKeyAction.Handle i inst).inst.Status.Conditions
          constants.Ready = some c ∧
        c.Status = metav1.ConditionFalse ∧ c.Reason = constants.Failure ∧ c.Message = err) ∧
    ((∀ err, ¬ createFails i inst err) →
      meta.FindStatusCondition (resolvePubKeyAction.Handle i inst).inst.Status.Conditions
          constants.Ready
        = meta.FindStatusCondition inst.Status.Conditions constants.Ready) ∧
    ((∀ err x, (resolvePubKeyAction.Handle i inst).effects.getLast?
        ≠ some (Effect.failedWithStatusUpdate err x)) →
      meta.FindStatusCondition (resolvePubKeyAction.Handle i inst).inst.Status.Conditions
          constants.Ready
        = meta.FindStatusCondition inst.Status.Conditions constants.Ready) ∧
    (∀ err x, (resolvePubKeyAction.Handle i inst).effects.getLast?
        = some (Effect.failedWithStatusUpdate err x) →
      ∃ c, meta.FindStatusCondition (resolvePubKeyAction.Handle i inst).inst.Status.Conditions
          constants.Ready = some c ∧
        c.Status = metav1.ConditionFalse ∧ c.Reason = constants.Failure ∧ c.Message = err) := by
  refine ⟨?_, ?_, (Ready_entry_of_last_call r cluster i inst).1, ?_,
    Handle_keeps_ready_unless_createFails i inst,
    (Ready_entry_of_last_call r cluster i inst).2.1,
    (Ready_entry_of_last_call r cluster i inst).2.2⟩
  · intro loaded hget
    obtain ⟨h1, h2, -, -⟩ := Reconcile_ok r cluster loaded hget
    rw [h1, h2, actionLoop_replay r.acs r.acs 0 loaded cluster rfl]
  · intro err hget
    exact ⟨(Reconcile_error r cluster err hget).2.1, (Reconcile_error r cluster err hget).1⟩
  · rintro err ⟨hreach, hs, hcr⟩
    obtain ⟨pre, hpre⟩ := Handle_of_reachesCreate i inst hreach
    rw [hpre, (createSecret_create_fails i inst _ pre err hs hcr).1]
    exact ledgerAfterCreateFailure_ready i inst err

/-- C8, amended, at concrete inputs: with the endpoint up and the secret created,
`Handle` leaves the `Ready` entry as it was; an invocation over Actions that do
not apply leaves the cluster as it was; the two writes of an invocation with two
`Handle`s are those of the two `Handle`s. -/
theorem Ready_written_by_actions_witness :
    (Reconcile (loaded [idle]) 3).cluster = 3 ∧
      meta.FindStatusCondition
        (resolvePubKeyAction.Handle envUp
          (rekorWith metav1.ConditionFalse constants.Initialize)).inst.Status.Conditions
        constants.Ready
        = some ⟨constants.Ready, metav1.ConditionFalse, 0, 1, constants.Initialize, ""⟩ ∧
      (Reconcile twoHandles 0).cluster
        = (replay twoHandles.acs (Reconcile twoHandles 0).calls () 0).2 :=
  have h := Ready_written_by_actions (loaded [idle]) 3 envUp
    (rekorWith metav1.ConditionFalse constants.Initialize)
  have hup : ∀ err, ¬ createFails envUp
      (rekorWith metav1.ConditionFalse constants.Initialize) err := by
    rintro err ⟨-, -, hcr⟩
    cases hcr
  ⟨h.2.2.1 (by decide), (h.2.2.2.2.1 hup).trans (by decide),
    (Ready_written_by_actions twoHandles 0 envUp
      (rekorWith metav1.ConditionFalse constants.Initialize)).1 () rfl⟩

/-! ## Theorems: bounded retry -/

/-- The requests counted in a concatenation. -/
theorem requests_append (a b : List Effect) : requests (a ++ b) = requests a + requests b := by
  induction a with
  | nil => simp [requests]
  | cons e rest ih =>
    cases e <;> simp [requests, ih]
    omega

/-- The two ways `resolvePubKey` ends. Either request `m` (`1 ≤ m ≤ 4`) is the
first to succeed: the data of that request is returned with a nil error after
`m` requests and the sleeps `1s, ..., m s`. Or all four requests fail: no data
is returned, with the error of the fourth request, after four requests and the
sleeps `1s, 2s, 3s, 4s`. -/
theorem resolvePubKey_cases (i : Env) (inst : Rekor) :
    (∃ m, 1 ≤ m ∧ m ≤ 4 ∧
      (∀ k, 1 ≤ k → k < m → resolvePubKeyAction.requestError i inst k ≠ none) ∧
      resolvePubKeyAction.requestError i inst m = none ∧
      (resolvePubKeyAction.resolvePubKey i inst).1
        = (resolvePubKeyAction.requestData i inst m, none) ∧
      sleeps (resolvePubKeyAction.resolvePubKey i inst).2
        = (List.range' 1 m).map (fun k => k * Second) ∧
      requests (resolvePubKeyAction.resolvePubKey i inst).2 = m) ∨
    ((∀ k, 1 ≤ k → k ≤ 4 → resolvePubKeyAction.requestError i inst k ≠ none) ∧
      resolvePubKeyAction.requestError i inst 4 ≠ none ∧
      (resolvePubKeyAction.resolvePubKey i inst).1
        = ([], resolvePubKeyAction.requestError i inst 4) ∧
      sleeps (resolvePubKeyAction.resolvePubKey i inst).2
        = (List.range' 1 4).map (fun k => k * Second) ∧
      requests (resolvePubKeyAction.resolvePubKey i inst).2 = 4) := by
  unfold resolvePubKeyAction.requestError resolvePubKeyAction.requestData
    resolvePubKeyAction.basePath
  rcases h1 : (resolvePubKeyAction.requestPublicKey i 1
      ("http://" ++ actions.ServerDeploymentName ++ "." ++ inst.Namespace ++ ".svc")).1.2
    with _ | e1
  · left
    refine ⟨1, le_refl _, by omega, fun k hk1 hk2 => by omega, h1, ?_, ?_, ?_⟩
    · simp [resolvePubKeyAction.resolvePubKey, resolvePubKeyAction.resolvePubKeyLoop, h1]
    · simp [resolvePubKeyAction.resolvePubKey, resolvePubKeyAction.resolvePubKeyLoop, h1,
        requestPublicKey_effects, sleeps, List.range']
    · simp [resolvePubKeyAction.resolvePubKey, resolvePubKeyAction.resolvePubKeyLoop, h1,
        requestPublicKey_effects, requests]
  rcases h2 : (resolvePubKeyAction.requestPublicKey i 2
      ("http://" ++ actions.ServerDeploymentName ++ "." ++ inst.Namespace ++ ".svc")).1.2
    with _ | e2
  · left
    refine ⟨2, by omega, by omega, fun k hk1 hk2 => ?_, h2, ?_, ?_, ?_⟩
    · have hk : k = 1 := by omega
      subst hk
      rw [h1]
      simp
    · simp [resolvePubKeyAction.resolvePubKey, resolvePubKeyAction.resolvePubKeyLoop, h1, h2]
    · simp [resolvePubKeyAction.resolvePubKey, resolvePubKeyAction.resolvePubKeyLoop, h1, h2,
        requestPublicKey_effects, sleeps, List.range']
    · simp [resolvePubKeyAction.resolvePubKey, resolvePubKeyAction.resolvePubKeyLoop, h1, h2,
        requestPublicKey_effects, requests]
  rcases h3 : (resolvePubKeyAction.requestPublicKey i 3
      ("http://" ++ actions.ServerDeploymentName ++ "." ++ inst.Namespace ++ ".svc")).1.2
    with _ | e3
  · left
    refine ⟨3, by omega, by omega, fun k hk1 hk2 => ?_, h3, ?_, ?_, ?_⟩
    · have hk : k = 1 ∨ k = 2 := by omega
      rcases hk with rfl | rfl
      · rw [h1]; simp
      · rw [h2]; simp
    · simp [resolvePubKeyAction.resolvePubKey, resolvePubKeyAction.resolvePubKeyLoop, h1, h2, h3]
    · simp [resolvePubKeyAction.resolvePubKey, resolvePubKeyAction.resolvePubKeyLoop, h1, h2, h3,
        requestPublicKey_effects, sleeps, List.range']
    · simp [resolvePubKeyAction.resolvePubKey, resolvePubKeyAction.resolvePubKeyLoop, h1, h2, h3,
        requestPublicKey_effects, requests]
  rcases h4 : (resolvePubKeyAction.requestPublicKey i 4
      ("http://" ++ actions.ServerDeploymentName ++ "." ++ inst.Namespace ++ ".svc")).1.2
    with _ | e4
  · left
    refine ⟨4, by omega, by omega, fun k hk1 hk2 => ?_, h4, ?_, ?_, ?_⟩
    · have hk : k = 1 ∨ k = 2 ∨ k = 3 := by omega
      rcases hk with rfl | rfl | rfl
      · rw [h1]; simp
      · rw [h2]; simp
      · rw [h3]; simp
    · simp [resolvePubKeyAction.resolvePubKey, resolvePubKeyAction.resolvePubKeyLoop, h1, h2, h3,
        h4]
    · simp [resolvePubKeyAction.resolvePubKey, resolvePubKeyAction.resolvePubKeyLoop, h1, h2, h3,
        h4, requestPublicKey_effects, sleeps, List.range']
    · simp [resolvePubKeyAction.resolvePubKey, resolvePubKeyAction.resolvePubKeyLoop, h1, h2, h3,
        h4, requestPublicKey_effects, requests]
  · right
    refine ⟨fun k hk1 hk2 => ?_, by simp, ?_, ?_, ?_⟩
    · have hk : k = 1 ∨ k = 2 ∨ k = 3 ∨ k = 4 := by omega
      rcases hk with rfl | rfl | rfl | rfl
      · rw [h1]; simp
      · rw [h2]; simp
      · rw [h3]; simp
      · rw [h4]; simp
    · simp [resolvePubKeyAction.resolvePubKey, resolvePubKeyAction.resolvePubKeyLoop, h1, h2, h3,
        h4]
    · simp [resolvePubKeyAction.resolvePubKey, resolvePubKeyAction.resolvePubKeyLoop, h1, h2, h3,
        h4, requestPublicKey_effects, sleeps, List.range']
    · simp [resolvePubKeyAction.resolvePubKey, resolvePubKeyAction.resolvePubKeyLoop, h1, h2, h3,
        h4, requestPublicKey_effects, requests]

/-- C9: if every request to the endpoint fails, `resolvePubKey` issues exactly
4 requests and returns no data together with the error of the 4th request; and
`Handle`, when it reaches the resolution step of line 70 (it did not return at
line 66 with a discovered secret), returns the result of `Failed` on that error,
after those 4 requests and without touching the instance. -/
theorem resolvePubKey_permanent_failure (i : Env) (inst : Rekor)
    (hfail : ∀ n, resolvePubKeyAction.requestError i inst n ≠ none) :
    requests (resolvePubKeyAction.resolvePubKey i inst).2 = 4 ∧
      (resolvePubKeyAction.resolvePubKey i inst).1
        = ([], resolvePubKeyAction.requestError i inst 4) ∧
      (resolvePubKeyAction.usesDiscovered (resolvePubKeyAction.discover i.findSecret) inst = false →
        ∃ err, resolvePubKeyAction.requestError i inst 4 = some err ∧
          (resolvePubKeyAction.Handle i inst).result = i.Failed err ∧
          (resolvePubKeyAction.Handle i inst).effects.getLast? = some (Effect.failed err) ∧
          requests (resolvePubKeyAction.Handle i inst).effects = 4 ∧
          (resolvePubKeyAction.Handle i inst).inst = inst) := by
  rcases resolvePubKey_cases i inst with ⟨m, -, -, -, hm, -⟩ | ⟨-, -, hres, -, hreq⟩
  · exact absurd hm (hfail m)
  · refine ⟨hreq, hres, fun hu => ?_⟩
    obtain ⟨err, herr⟩ := Option.ne_none_iff_exists'.mp (hfail 4)
    have hres2 : (resolvePubKeyAction.resolvePubKey i inst).1.2 = some err := by
      rw [hres, herr]
    refine ⟨err, herr, ?_, ?_, ?_, ?_⟩
    · unfold resolvePubKeyAction.Handle
      simp only [hu, Bool.false_eq_true, if_false, hres2]
    · unfold resolvePubKeyAction.Handle
      simp only [hu, Bool.false_eq_true, if_false, hres2]
      simp [getLast?_cons_append_cons]
    · unfold resolvePubKeyAction.Handle
      simp only [hu, Bool.false_eq_true, if_false, hres2, requests_append, hreq]
      simp [requests]
    · unfold resolvePubKeyAction.Handle
      simp only [hu, Bool.false_eq_true, if_false, hres2]

/-- C9 at a concrete input: the endpoint refuses every connection. -/
theorem resolvePubKey_permanent_failure_witness :
    requests (resolvePubKeyAction.resolvePubKey envDown
        (rekorWith metav1.ConditionFalse constants.Initialize)).2 = 4 ∧
      (resolvePubKeyAction.resolvePubKey envDown
        (rekorWith metav1.ConditionFalse constants.Initialize)).1
        = ([], some "connection refused") :=
  have h := resolvePubKey_permanent_failure envDown
    (rekorWith metav1.ConditionFalse constants.Initialize)
    (fun _ => by
      simp [resolvePubKeyAction.requestError, resolvePubKeyAction.requestPublicKey, envDown])
  ⟨h.1, h.2.1⟩

/-- C10: linear backoff. The delays `resolvePubKey` sleeps are always
`1 s, 2 s, ...`: the delay slept for attempt `k + 1` is `(k + 1) × 1 second`, so
the delays increase strictly. When attempt `m` is the first to succeed the
delays are `1 s, ..., m s` and their total is `m (m + 1) / 2` seconds; when all
four attempts fail the delays are `1 s, 2 s, 3 s, 4 s` and their total is 10
seconds. -/
theorem resolvePubKey_linear_backoff (i : Env) (inst : Rekor) :
    (∀ k (hk : k < (sleeps (resolvePubKeyAction.resolvePubKey i inst).2).length),
      (sleeps (resolvePubKeyAction.resolvePubKey i inst).2).get ⟨k, hk⟩ = (k + 1) * Second) ∧
    (sleeps (resolvePubKeyAction.resolvePubKey i inst).2).Pairwise (fun a b => a < b) ∧
    (∀ m, 1 ≤ m → m ≤ 4 →
      (∀ k, 1 ≤ k → k < m → resolvePubKeyAction.requestError i inst k ≠ none) →
      resolvePubKeyAction.requestError i inst m = none →
      sleeps (resolvePubKeyAction.resolvePubKey i inst).2
          = (List.range' 1 m).map (fun k => k * Second) ∧
        totalSlept (resolvePubKeyAction.resolvePubKey i inst).2 = m * (m + 1) / 2 * Second) ∧
    ((∀ k, 1 ≤ k → k ≤ 4 → resolvePubKeyAction.requestError i inst k ≠ none) →
      sleeps (resolvePubKeyAction.resolvePubKey i inst).2
          = [1 * Second, 2 * Second, 3 * Second, 4 * Second] ∧
        totalSlept (resolvePubKeyAction.resolvePubKey i inst).2 = 10 * Second) := by
  have key : ∃ n, 1 ≤ n ∧ n ≤ 4 ∧
      sleeps (resolvePubKeyAction.resolvePubKey i inst).2
        = (List.range' 1 n).map (fun k => k * Second) ∧
      (∀ m, 1 ≤ m → m ≤ 4 →
        (∀ k, 1 ≤ k → k < m → resolvePubKeyAction.requestError i inst k ≠ none) →
        resolvePubKeyAction.requestError i inst m = none → n = m) ∧
      ((∀ k, 1 ≤ k → k ≤ 4 → resolvePubKeyAction.requestError i inst k ≠ none) → n = 4) := by
    rcases resolvePubKey_cases i inst with ⟨n, hn1, hn4, hbefore, hn, -, hs, -⟩ |
      ⟨hall, -, -, hs, -⟩
    · refine ⟨n, hn1, hn4, hs, fun m hm1 hm4 hb hm => ?_, fun hall => absurd hn (hall n hn1 hn4)⟩
      rcases Nat.lt_trichotomy n m with hlt | heq | hgt
      · exact absurd hn (hb n hn1 hlt)
      · exact heq
      · exact absurd hm (hbefore m hm1 hgt)
    · exact ⟨4, by omega, le_refl _, hs, fun m hm1 hm4 _ hm => absurd hm (hall m hm1 hm4),
        fun _ => rfl⟩
  obtain ⟨n, hn1, hn4, hs, hfirst, hall⟩ := key
  refine ⟨?_, ?_, ?_, ?_⟩
  · intro k hk
    simp only [hs, List.get_eq_getElem, List.getElem_map, List.getElem_range']
    ring
  · rw [hs]
    have hn : n = 1 ∨ n = 2 ∨ n = 3 ∨ n = 4 := by omega
    rcases hn with rfl | rfl | rfl | rfl <;> simp [List.range', Second]
  · intro m hm1 hm4 hb hm
    have hnm := hfirst m hm1 hm4 hb hm
    subst hnm
    refine ⟨hs, ?_⟩
    unfold totalSlept
    rw [hs]
    have hn : n = 1 ∨ n = 2 ∨ n = 3 ∨ n = 4 := by omega
    rcases hn with rfl | rfl | rfl | rfl <;> simp [List.range', Second]
  · intro hfail
    have hn := hall hfail
    subst hn
    unfold totalSlept
    rw [hs]
    simp [List.range', Second]

/-- C10 at a concrete input: with the endpoint down the delays are 1, 2, 3 and
4 seconds, 10 seconds in total; with the endpoint up the first attempt
succeeds after a delay of 1 second. -/
theorem resolvePubKey_linear_backoff_witness :
    totalSlept (resolvePubKeyAction.resolvePubKey envDown
        (rekorWith metav1.ConditionFalse constants.Initialize)).2 = 10 * Second ∧
      totalSlept (resolvePubKeyAction.resolvePubKey envUp
        (rekorWith metav1.ConditionFalse constants.Initialize)).2 = 1 * (1 + 1) / 2 * Second :=
  ⟨((resolvePubKey_linear_backoff envDown
      (rekorWith metav1.ConditionFalse constants.Initialize)).2.2.2
      (fun _ _ _ => by
        simp [resolvePubKeyAction.requestError, resolvePubKeyAction.requestPublicKey, envDown])).2,
    ((resolvePubKey_linear_backoff envUp
      (rekorWith metav1.ConditionFalse constants.Initialize)).2.2.1 1 (by decide) (by decide)
      (fun k hk1 hk2 => absurd hk2 (by omega)) (by decide)).2⟩

/-- When request `m` is the first to succeed, `resolvePubKey` returns its data
with a nil error, after the calls of `m - 1` failed iterations followed by one
sleep and one request, and nothing more. -/
theorem resolvePubKey_first_success (i : Env) (inst : Rekor) (m : Nat)
    (hm1 : 1 ≤ m) (hm4 : m ≤ 4)
    (hbefore : ∀ k, 1 ≤ k → k < m → resolvePubKeyAction.requestError i inst k ≠ none)
    (hm : resolvePubKeyAction.requestError i inst m = none) :
    (resolvePubKeyAction.resolvePubKey i inst).1
        = (resolvePubKeyAction.requestData i inst m, none) ∧
      (resolvePubKeyAction.resolvePubKey i inst).2
        = resolvePubKeyAction.failedAttempts inst (m - 1)
          ++ [Effect.sleep (m * Second), Effect.httpGet (resolvePubKeyAction.url inst)] := by
  have hcases : m = 1 ∨ m = 2 ∨ m = 3 ∨ m = 4 := by omega
  have hsome : ∀ k, 1 ≤ k → k < m → ∃ e, (resolvePubKeyAction.requestPublicKey i k
      ("http://" ++ actions.ServerDeploymentName ++ "." ++ inst.Namespace ++ ".svc")).1.2
      = some e := fun k hk1 hk2 => Option.ne_none_iff_exists'.mp (hbefore k hk1 hk2)
  have hnone : (resolvePubKeyAction.requestPublicKey i m
      ("http://" ++ actions.ServerDeploymentName ++ "." ++ inst.Namespace ++ ".svc")).1.2
      = none := hm
  unfold resolvePubKeyAction.requestData resolvePubKeyAction.basePath
  rcases hcases with rfl | rfl | rfl | rfl
  · simp [resolvePubKeyAction.resolvePubKey, resolvePubKeyAction.resolvePubKeyLoop, hnone,
      requestPublicKey_effects, resolvePubKeyAction.failedAttempts, resolvePubKeyAction.url,
      resolvePubKeyAction.basePath]
  · obtain ⟨e1, h1⟩ := hsome 1 (by omega) (by omega)
    simp [resolvePubKeyAction.resolvePubKey, resolvePubKeyAction.resolvePubKeyLoop, hnone, h1,
      requestPublicKey_effects, resolvePubKeyAction.failedAttempts,
      resolvePubKeyAction.failedAttempt, resolvePubKeyAction.url, resolvePubKeyAction.basePath]
  · obtain ⟨e1, h1⟩ := hsome 1 (by omega) (by omega)
    obtain ⟨e2, h2⟩ := hsome 2 (by omega) (by omega)
    simp [resolvePubKeyAction.resolvePubKey, resolvePubKeyAction.resolvePubKeyLoop, hnone, h1, h2,
      requestPublicKey_effects, resolvePubKeyAction.failedAttempts,
      resolvePubKeyAction.failedAttempt, resolvePubKeyAction.url, resolvePubKeyAction.basePath]
  · obtain ⟨e1, h1⟩ := hsome 1 (by omega) (by omega)
    obtain ⟨e2, h2⟩ := hsome 2 (by omega) (by omega)
    obtain ⟨e3, h3⟩ := hsome 3 (by omega) (by omega)
    simp [resolvePubKeyAction.resolvePubKey, resolvePubKeyAction.resolvePubKeyLoop, hnone, h1, h2,
      h3, requestPublicKey_effects, resolvePubKeyAction.failedAttempts,
      resolvePubKeyAction.failedAttempt, resolvePubKeyAction.url, resolvePubKeyAction.basePath]

/-- Each failed iteration issues one request and sleeps once. -/
theorem failedAttempts_counts (inst : Rekor) (n : Nat) :
    requests (resolvePubKeyAction.failedAttempts inst n) = n ∧
      (sleeps (resolvePubKeyAction.failedAttempts inst n)).length = n := by
  induction n with
  | zero => simp [resolvePubKeyAction.failedAttempts, requests, sleeps]
  | succ n ih =>
    have hs : ∀ a b : List Effect, sleeps (a ++ b) = sleeps a ++ sleeps b := by
      intro a b
      induction a with
      | nil => simp [sleeps]
      | cons e rest iha => cases e <;> simp [sleeps, iha]
    simp [resolvePubKeyAction.failedAttempts, resolvePubKeyAction.failedAttempt, requests_append,
      hs, requests, sleeps, ih.1, ih.2]

/-- C11, as stated, fails: when the endpoint fails once and then succeeds
(`N = 1`), `resolvePubKey` returns the key after 2 requests, not within 1; when
it succeeds at once (`N = 0`), after 1 request, not within 0. -/
theorem resolvePubKey_needs_one_more_request :
    resolvePubKeyAction.requestError (envFlaky 1)
        (rekorWith metav1.ConditionFalse constants.Initialize) 1
        = some "unexpected http response 503 Service Unavailable" ∧
      resolvePubKeyAction.requestError (envFlaky 1)
        (rekorWith metav1.ConditionFalse constants.Initialize) 2 = none ∧
      (resolvePubKeyAction.resolvePubKey (envFlaky 1)
        (rekorWith metav1.ConditionFalse constants.Initialize)).1 = ([1, 2, 3], none) ∧
      requests (resolvePubKeyAction.resolvePubKey (envFlaky 1)
        (rekorWith metav1.ConditionFalse constants.Initialize)).2 = 2 ∧
      ¬ requests (resolvePubKeyAction.resolvePubKey (envFlaky 1)
        (rekorWith metav1.ConditionFalse constants.Initialize)).2 ≤ 1 ∧
      requests (resolvePubKeyAction.resolvePubKey (envFlaky 0)
        (rekorWith metav1.ConditionFalse constants.Initialize)).2 = 1 ∧
      ¬ requests (resolvePubKeyAction.resolvePubKey (envFlaky 0)
        (rekorWith metav1.ConditionFalse constants.Initialize)).2 ≤ 0 := by
  decide

/-- C11, amended: for every `N` smaller than the retry bound 4, if the first `N`
requests fail and request `N + 1` succeeds, `resolvePubKey` succeeds on attempt
`N + 1`: it issues exactly `N + 1` requests and returns the data of the last one
with a nil error. -/
theorem resolvePubKey_succeeds_after_failures (i : Env) (inst : Rekor) (N : Nat)
    (hN : N < 4)
    (hfail : ∀ k, 1 ≤ k → k ≤ N → resolvePubKeyAction.requestError i inst k ≠ none)
    (hok : resolvePubKeyAction.requestError i inst (N + 1) = none) :
    requests (resolvePubKeyAction.resolvePubKey i inst).2 = N + 1 ∧
      (resolvePubKeyAction.resolvePubKey i inst).1
        = (resolvePubKeyAction.requestData i inst (N + 1), none) := by
  obtain ⟨hres, hfx⟩ := resolvePubKey_first_success i inst (N + 1) (by omega) (by omega)
    (fun k hk1 hk2 => hfail k hk1 (by omega)) hok
  refine ⟨?_, hres⟩
  rw [hfx, requests_append, Nat.add_sub_cancel, (failedAttempts_counts inst N).1]
  simp [requests]

/-- C11, amended, at a concrete input: two failures, then success on the third
request. -/
theorem resolvePubKey_succeeds_after_failures_witness :
    requests (resolvePubKeyAction.resolvePubKey (envFlaky 2)
        (rekorWith metav1.ConditionFalse constants.Initialize)).2 = 2 + 1 ∧
      (resolvePubKeyAction.resolvePubKey (envFlaky 2)
        (rekorWith metav1.ConditionFalse constants.Initialize)).1 = ([1, 2, 3], none) :=
  resolvePubKey_succeeds_after_failures (envFlaky 2)
    (rekorWith metav1.ConditionFalse constants.Initialize) 2 (by decide)
    (fun k hk1 hk2 => by
      have hk : k = 1 ∨ k = 2 := by omega
      rcases hk with rfl | rfl <;> decide)
    (by decide)

/-- C12: for every `N` in `0..3`, if the first `N` requests fail and request
`N + 1` is answered 200 with body `b` (read without error), `resolvePubKey`
returns `b` with a nil error after exactly `N + 1` requests and `N + 1` sleeps;
its calls are those of `N` failed iterations followed by one sleep and the
successful request, which is the last call: nothing is slept or requested after
the success. -/
theorem resolvePubKey_resolves_on_first_200 (i : Env) (inst : Rekor) (N : Nat)
    (status : String) (b : Bytes)
    (hN : N ≤ 3)
    (hfail : ∀ k, 1 ≤ k → k ≤ N → resolvePubKeyAction.requestError i inst k ≠ none)
    (h200 : i.http (N + 1) (resolvePubKeyAction.url inst)
      = HttpReply.response StatusOK status b none) :
    (resolvePubKeyAction.resolvePubKey i inst).1 = (b, none) ∧
      requests (resolvePubKeyAction.resolvePubKey i inst).2 = N + 1 ∧
      (sleeps (resolvePubKeyAction.resolvePubKey i inst).2).length = N + 1 ∧
      (resolvePubKeyAction.resolvePubKey i inst).2
        = resolvePubKeyAction.failedAttempts inst N
          ++ [Effect.sleep ((N + 1) * Second), Effect.httpGet (resolvePubKeyAction.url inst)] ∧
      (resolvePubKeyAction.resolvePubKey i inst).2.getLast?
        = some (Effect.httpGet (resolvePubKeyAction.url inst)) := by
  unfold resolvePubKeyAction.url at h200
  have hok : resolvePubKeyAction.requestError i inst (N + 1) = none := by
    simp [resolvePubKeyAction.requestError, resolvePubKeyAction.requestPublicKey, h200]
  have hdata : resolvePubKeyAction.requestData i inst (N + 1) = b := by
    simp [resolvePubKeyAction.requestData, resolvePubKeyAction.requestPublicKey, h200]
  obtain ⟨hres, hfx⟩ := resolvePubKey_first_success i inst (N + 1) (by omega) (by omega)
    (fun k hk1 hk2 => hfail k hk1 (by omega)) hok
  rw [Nat.add_sub_cancel] at hfx
  have hsleeps : ∀ a c : List Effect, sleeps (a ++ c) = sleeps a ++ sleeps c := by
    intro a c
    induction a with
    | nil => simp [sleeps]
    | cons e rest iha => cases e <;> simp [sleeps, iha]
  refine ⟨by rw [hres, hdata], ?_, ?_, hfx, ?_⟩
  · rw [hfx, requests_append, (failedAttempts_counts inst N).1]
    simp [requests]
  · rw [hfx, hsleeps, List.length_append, (failedAttempts_counts inst N).2]
    simp [sleeps]
  · rw [hfx, List.getLast?_append]
    simp

/-- C12 at a concrete input: three non-200 responses followed by a 200; the
value is resolved on the 4th attempt. -/
theorem resolvePubKey_resolves_on_first_200_witness :
    (resolvePubKeyAction.resolvePubKey (envFlaky 3)
        (rekorWith metav1.ConditionFalse constants.Initialize)).1 = ([1, 2, 3], none) ∧
      requests (resolvePubKeyAction.resolvePubKey (envFlaky 3)
        (rekorWith metav1.ConditionFalse constants.Initialize)).2 = 3 + 1 ∧
      (sleeps (resolvePubKeyAction.resolvePubKey (envFlaky 3)
        (rekorWith metav1.ConditionFalse constants.Initialize)).2).length = 3 + 1 :=
  have h := resolvePubKey_resolves_on_first_200 (envFlaky 3)
    (rekorWith metav1.ConditionFalse constants.Initialize) 3 "200 OK" [1, 2, 3] (by decide)
    (fun k hk1 hk2 => by
      have hk : k = 1 ∨ k = 2 ∨ k = 3 := by omega
      rcases hk with rfl | rfl | rfl <;> decide)
    (by decide)
  ⟨h.1, h.2.1, h.2.2.1⟩

/-- C13: `requestPublicKey` issues exactly one GET, to `basePath` followed by
`/api/v1/log/publicKey`. A transport error is returned unchanged with no data.
For a response with status code 200 it returns what reading the body gives (the
raw body, with a nil error when the read succeeds); for every other status code
it returns no data and the error `unexpected http response <status>`. Hence it
returns without error if and only if the response has status code exactly 200
and its body is read without error. -/
theorem requestPublicKey_spec (i : Env) (n : Nat) (basePath : String) :
    (resolvePubKeyAction.requestPublicKey i n basePath).2
        = [Effect.httpGet (basePath ++ "/api/v1/log/publicKey")] ∧
      (∀ err, i.http n (basePath ++ "/api/v1/log/publicKey") = HttpReply.transportError err →
        (resolvePubKeyAction.requestPublicKey i n basePath).1 = ([], some err)) ∧
      (∀ code status body readErr,
        i.http n (basePath ++ "/api/v1/log/publicKey")
          = HttpReply.response code status body readErr →
        (code = 200 →
          (resolvePubKeyAction.requestPublicKey i n basePath).1 = (body, readErr)) ∧
        (code ≠ 200 →
          (resolvePubKeyAction.requestPublicKey i n basePath).1
            = ([], some ("unexpected http response " ++ status)))) ∧
      ((resolvePubKeyAction.requestPublicKey i n basePath).1.2 = none ↔
        ∃ status body, i.http n (basePath ++ "/api/v1/log/publicKey")
          = HttpReply.response 200 status body none) := by
  refine ⟨requestPublicKey_effects i n basePath, ?_, ?_, ?_⟩
  · intro err h
    simp [resolvePubKeyAction.requestPublicKey, h]
  · intro code status body readErr h
    constructor
    · intro hc
      simp [resolvePubKeyAction.requestPublicKey, h, hc, StatusOK]
    · intro hc
      simp [resolvePubKeyAction.requestPublicKey, h, hc, StatusOK]
  · rcases h : i.http n (basePath ++ "/api/v1/log/publicKey") with
      err | ⟨code, status, body, readErr⟩
    · simp [resolvePubKeyAction.requestPublicKey, h]
    · by_cases hc : code = 200
      · subst hc
        simp [resolvePubKeyAction.requestPublicKey, h, StatusOK]
      · simp [resolvePubKeyAction.requestPublicKey, h, hc, StatusOK]

/-- C13 at concrete inputs: a `204` answer is an error naming the status, a
`200` answer gives the body. -/
theorem requestPublicKey_spec_witness :
    (resolvePubKeyAction.requestPublicKey
        { envDown with http := fun _ _ => HttpReply.response 204 "204 No Content" [9] none }
        1 "http://rekor-server.default.svc").1
        = ([], some "unexpected http response 204 No Content") ∧
      (resolvePubKeyAction.requestPublicKey envUp 1 "http://rekor-server.default.svc").1
        = ([1, 2, 3], none) :=
  ⟨((requestPublicKey_spec
      { envDown with http := fun _ _ => HttpReply.response 204 "204 No Content" [9] none }
      1 "http://rekor-server.default.svc").2.2.1 204 "204 No Content" [9] none rfl).2
      (by decide),
    ((requestPublicKey_spec envUp 1 "http://rekor-server.default.svc").2.2.1
      200 "200 OK" [1, 2, 3] none rfl).1 rfl⟩

/-! ## Theorems: the secret with the public key -/

/-- The deletes counted in a concatenation. -/
theorem deletes_append (a b : List Effect) : deletes (a ++ b) = deletes a + deletes b := by
  induction a with
  | nil => simp [deletes]
  | cons e rest ih =>
    cases e <;> simp [deletes, ih]
    omega

/-- The creates counted in a concatenation. -/
theorem creates_append (a b : List Effect) : creates (a ++ b) = creates a + creates b := by
  induction a with
  | nil => simp [creates]
  | cons e rest ih =>
    cases e <;> simp [creates, ih]
    omega

/-- Calls of the resolver are neither deletes nor creates. -/
theorem resolver_effects_counts (l : List Effect) (h : ∀ e ∈ l, e.isResolver = true) :
    deletes l = 0 ∧ creates l = 0 := by
  induction l with
  | nil => simp [deletes, creates]
  | cons e rest ih =>
    have he := h e (List.mem_cons_self _ _)
    have hrest := ih (fun x hx => h x (List.mem_cons_of_mem _ hx))
    cases e <;> simp_all [deletes, creates, Effect.isResolver]

/-- The resolver deletes nothing and creates nothing. -/
theorem resolvePubKey_counts (i : Env) (inst : Rekor) :
    deletes (resolvePubKeyAction.resolvePubKey i inst).2 = 0 ∧
      creates (resolvePubKeyAction.resolvePubKey i inst).2 = 0 :=
  resolver_effects_counts _ (resolvePubKeyLoop_effects i inst [1, 2, 3, 4] none)

/-- After `m[k] = v` the map holds `v` under `k`. -/
theorem Labels_get?_set (m : Labels) (k v : String) : (m.set k v).get? k = some v := by
  unfold Labels.set Labels.get?
  induction m with
  | nil => simp [List.lookup]
  | cons p rest ih =>
    by_cases hp : p.1 = k
    · simpa [List.filter_cons, hp] using ih
    · have hb : (k == p.1) = false := by
        simp only [beq_eq_false_iff_ne, ne_eq]
        exact fun h => hp h.symm
      have hf : (p.1 != k) = true := by simpa using hp
      rw [List.filter_cons, if_pos hf, List.cons_append]
      rcases p with ⟨a, b⟩
      simp only [List.lookup, hb]
      exact ih

/-- The calls of `createSecret` (lines 97-133) come after the calls made so
far; it deletes nothing and submits at most one secret to `Client.Create`. -/
theorem createSecret_counts (i : Env) (inst : Rekor) (publicKey : Bytes) (pre : List Effect) :
    deletes (resolvePubKeyAction.createSecret i inst publicKey pre).effects = deletes pre ∧
      creates (resolvePubKeyAction.createSecret i inst publicKey pre).effects ≤ creates pre + 1 := by
  rcases hs : i.setControllerReference with _ | serr
  · rcases hcr : i.create with cerr | name
    · simp [resolvePubKeyAction.createSecret, hs, hcr, deletes_append, creates_append, deletes,
        creates]
    · simp [resolvePubKeyAction.createSecret, hs, hcr, deletes_append, creates_append, deletes,
        creates]
  · simp [resolvePubKeyAction.createSecret, hs, deletes_append, creates_append, deletes, creates]

/-- `Handle` past the comparison of line 85: when a labelled secret `scr` was
discovered that is not the signer's key secret, the key `publicKey` was
resolved and the bytes read from `scr` differ from it, `Handle` calls
`Client.Delete` on `scr` and goes on to `createSecret` only if that succeeds. -/
theorem Handle_of_stale (i : Env) (inst : Rekor) (scr : PartialObjectMetadata) (key : String)
    (publicKey stored : Bytes)
    (hscr : i.findSecret = some scr)
    (hkey : scr.Labels.get? RekorPubLabel = some key)
    (hu : resolvePubKeyAction.usesDiscovered (some ⟨⟨scr.Name⟩, key⟩) inst = false)
    (hres : (resolvePubKeyAction.resolvePubKey i inst).1 = (publicKey, none))
    (hget : i.getSecretData = (stored, none))
    (hne : stored ≠ publicKey) :
    resolvePubKeyAction.Handle i inst =
      match i.delete with
      | some err =>
        ⟨inst, i.Failed err,
          [Effect.findSecret inst.Namespace RekorPubLabel]
            ++ (resolvePubKeyAction.resolvePubKey i inst).2
            ++ [Effect.getSecretData inst.Namespace ⟨⟨scr.Name⟩, key⟩, Effect.delete scr,
                Effect.failed err]⟩
      | none =>
        resolvePubKeyAction.createSecret i inst publicKey
          ([Effect.findSecret inst.Namespace RekorPubLabel]
            ++ (resolvePubKeyAction.resolvePubKey i inst).2
            ++ [Effect.getSecretData inst.Namespace ⟨⟨scr.Name⟩, key⟩, Effect.delete scr,
                Effect.event "Normal" "PublicKeySecretDeleted"
                  ("Secret with public key deleted: " ++ scr.Name)]) := by
  have hsks : resolvePubKeyAction.discover i.findSecret = some ⟨⟨scr.Name⟩, key⟩ := by
    simp [resolvePubKeyAction.discover, hscr, hkey]
  have h1 : (resolvePubKeyAction.resolvePubKey i inst).1.2 = none := by rw [hres]
  have h2 : (resolvePubKeyAction.resolvePubKey i inst).1.1 = publicKey := by rw [hres]
  have h3 : i.getSecretData.2 = none := by rw [hget]
  have h4 : i.getSecretData.1 = stored := by rw [hget]
  unfold resolvePubKeyAction.Handle
  simp only [hsks]
  simp only [hu, Bool.false_eq_true, if_false, h1, h2, hscr, h3, h4, hne]
  rcases i.delete with _ | derr <;> simp

/-- C14: when a secret `scr` discovered by the public-key label (and not used as
the signer's key secret) stores bytes that differ from the key resolved from the
API, `Handle` calls `Client.Delete` exactly once, on `scr`, and `Client.Create`
at most once; no call of `Handle` updates a secret in place. When the cluster
accepts the delete, the owner reference and the create, the calls of `Handle`
are, in order: the lookup by label, the calls of the resolver, the read of the
discovered secret, the delete of `scr`, the event `PublicKeySecretDeleted`, then
the create of one immutable secret (generate-name `rekor-public-<instance name>-`,
the namespace of the instance, data `public ↦ resolved key`, public-key label
`public`, owned by the instance), the event `PublicKeySecretCreated` and the
status update. -/
theorem Handle_replaces_stale_secret (i : Env) (inst : Rekor) (scr : PartialObjectMetadata)
    (key : String) (publicKey stored : Bytes)
    (hscr : i.findSecret = some scr)
    (hkey : scr.Labels.get? RekorPubLabel = some key)
    (hu : resolvePubKeyAction.usesDiscovered (some ⟨⟨scr.Name⟩, key⟩) inst = false)
    (hres : (resolvePubKeyAction.resolvePubKey i inst).1 = (publicKey, none))
    (hget : i.getSecretData = (stored, none))
    (hne : stored ≠ publicKey) :
    deletes (resolvePubKeyAction.Handle i inst).effects = 1 ∧
      Effect.delete scr ∈ (resolvePubKeyAction.Handle i inst).effects ∧
      creates (resolvePubKeyAction.Handle i inst).effects ≤ 1 ∧
      (∀ name, i.delete = none → i.setControllerReference = none → i.create = .ok name →
        (resolvePubKeyAction.Handle i inst).effects =
          [Effect.findSecret inst.Namespace RekorPubLabel]
            ++ (resolvePubKeyAction.resolvePubKey i inst).2
            ++ [ Effect.getSecretData inst.Namespace ⟨⟨scr.Name⟩, key⟩,
                 Effect.delete scr,
                 Effect.event "Normal" "PublicKeySecretDeleted"
                   ("Secret with public key deleted: " ++ scr.Name),
                 Effect.setControllerReference inst.Name
                   { newPublicKeySecret i inst publicKey with Owner := none },
                 Effect.create (newPublicKeySecret i inst publicKey),
                 Effect.event "Normal" "PublicKeySecretCreated"
                   ("New Rekor public key created: " ++ name),
                 Effect.statusUpdate (resolvePubKeyAction.Handle i inst).inst ] ∧
        creates (resolvePubKeyAction.Handle i inst).effects = 1 ∧
        (newPublicKeySecret i inst publicKey).GenerateName
          = "rekor-public-" ++ inst.Name ++ "-" ∧
        (newPublicKeySecret i inst publicKey).Namespace = inst.Namespace ∧
        (newPublicKeySecret i inst publicKey).Data = [("public", publicKey)] ∧
        (newPublicKeySecret i inst publicKey).Labels.get? RekorPubLabel = some "public" ∧
        (newPublicKeySecret i inst publicKey).Immutable = true ∧
        (newPublicKeySecret i inst publicKey).Owner = some inst.Name) := by
  have hH := Handle_of_stale i inst scr key publicKey stored hscr hkey hu hres hget hne
  obtain ⟨hd, hc⟩ := resolvePubKey_counts i inst
  refine ⟨?_, ?_, ?_, ?_⟩
  · rw [hH]
    rcases i.delete with _ | derr
    · simp only []
      rw [(createSecret_counts i inst publicKey _).1]
      simp [deletes_append, hd, deletes]
    · simp [deletes_append, hd, deletes]
  · rw [hH]
    rcases hdel : i.delete with _ | derr
    · simp only []
      rcases hs : i.setControllerReference with _ | serr
      · rcases hcr : i.create with cerr | name <;>
          simp [resolvePubKeyAction.createSecret, hs, hcr]
      · simp [resolvePubKeyAction.createSecret, hs]
    · simp
  · rw [hH]
    rcases i.delete with _ | derr
    · simp only []
      have := (createSecret_counts i inst publicKey
        ([Effect.findSecret inst.Namespace RekorPubLabel]
          ++ (resolvePubKeyAction.resolvePubKey i inst).2
          ++ [Effect.getSecretData inst.Namespace ⟨⟨scr.Name⟩, key⟩, Effect.delete scr,
              Effect.event "Normal" "PublicKeySecretDeleted"
                ("Secret with public key deleted: " ++ scr.Name)])).2
      simpa [creates_append, hc, creates] using this
    · simp [creates_append, hc, creates]
  · intro name hdel hown hcreate
    rw [hH]
    simp only [hdel]
    refine ⟨?_, ?_, rfl, rfl, rfl, ?_, rfl, rfl⟩
    · simp [resolvePubKeyAction.createSecret, hown, hcreate, newPublicKeySecret,
        pubSecretNameFormat]
    · simp [resolvePubKeyAction.createSecret, hown, hcreate, creates_append, hc, creates]
    · exact Labels_get?_set _ _ _

/-- C14 at a concrete input: the discovered secret stores `[7, 7]`, the API
resolves `[1, 2, 3]`, and the cluster accepts every call. -/
theorem Handle_replaces_stale_secret_witness :
    deletes (resolvePubKeyAction.Handle envStale
        (rekorWith metav1.ConditionFalse constants.Initialize)).effects = 1 ∧
      Effect.delete staleSecret ∈ (resolvePubKeyAction.Handle envStale
        (rekorWith metav1.ConditionFalse constants.Initialize)).effects ∧
      creates (resolvePubKeyAction.Handle envStale
        (rekorWith metav1.ConditionFalse constants.Initialize)).effects = 1 :=
  have h := Handle_replaces_stale_secret envStale
    (rekorWith metav1.ConditionFalse constants.Initialize) staleSecret "public" [1, 2, 3] [7, 7]
    rfl (by decide) (by decide) (by decide) rfl (by decide)
  ⟨h.1, h.2.1, (h.2.2.2 "rekor-public-rekor-x2x9q" rfl rfl rfl).2.1⟩

/-- C15 at its failing input: with no labelled secret, the key resolved and the
new secret created, `Handle` ends with the event `PublicKeySecretCreated` and
returns the result of `StatusUpdate`, but `Status.PublicKeyRef` is still nil:
the path of lines 126-133 does not record the secret it has just created. -/
theorem Handle_created_without_reference :
    resolvePubKeyAction.CanHandle (rekorWith metav1.ConditionFalse constants.Initialize)
        = some true ∧
      (resolvePubKeyAction.Handle envUp
        (rekorWith metav1.ConditionFalse constants.Initialize)).result
        = envUp.StatusUpdate (resolvePubKeyAction.Handle envUp
            (rekorWith metav1.ConditionFalse constants.Initialize)).inst ∧
      (resolvePubKeyAction.Handle envUp
        (rekorWith metav1.ConditionFalse constants.Initialize)).effects.getLast?
        = some (Effect.statusUpdate (resolvePubKeyAction.Handle envUp
            (rekorWith metav1.ConditionFalse constants.Initialize)).inst) ∧
      Effect.event "Normal" "PublicKeySecretCreated"
          "New Rekor public key created: rekor-public-rekor-x2x9q"
        ∈ (resolvePubKeyAction.Handle envUp
            (rekorWith metav1.ConditionFalse constants.Initialize)).effects ∧
      (resolvePubKeyAction.Handle envUp
        (rekorWith metav1.ConditionFalse constants.Initialize)).inst.Status.PublicKeyRef
        = none := by
  decide

/-- C16: label-based self-healing. For a Rekor whose `Status.PublicKeyRef` is
nil, when a secret `scr` carrying the public-key label (with value `key`) is
found and either (a) `Status.Signer.KeyRef` names `scr`, or (b) the key is
resolved from the API and the bytes read from `scr` equal it, `Handle` sets
`Status.PublicKeyRef` to `{Name: scr.Name, Key: key}` and changes nothing else
of the instance, returns the result of `StatusUpdate` on it, and calls neither
`Client.Create` nor `Client.Delete`; in case (a) it issues no HTTP request. -/
theorem Handle_self_heals (i : Env) (inst : Rekor) (scr : PartialObjectMetadata) (key : String)
    (hnil : inst.Status.PublicKeyRef = none)
    (hscr : i.findSecret = some scr)
    (hkey : scr.Labels.get? RekorPubLabel = some key)
    (hab : (∃ keyRef, inst.Status.Signer.KeyRef = some keyRef ∧ keyRef.Name = scr.Name) ∨
      ((resolvePubKeyAction.resolvePubKey i inst).1.2 = none ∧ i.getSecretData.2 = none ∧
        i.getSecretData.1 = (resolvePubKeyAction.resolvePubKey i inst).1.1)) :
    (resolvePubKeyAction.Handle i inst).inst
        = inst.withPublicKeyRef (some ⟨⟨scr.Name⟩, key⟩) ∧
      (resolvePubKeyAction.Handle i inst).inst.Status.PublicKeyRef
        = some ⟨⟨scr.Name⟩, key⟩ ∧
      (resolvePubKeyAction.Handle i inst).result
        = i.StatusUpdate (inst.withPublicKeyRef (some ⟨⟨scr.Name⟩, key⟩)) ∧
      (resolvePubKeyAction.Handle i inst).effects.getLast?
        = some (Effect.statusUpdate (inst.withPublicKeyRef (some ⟨⟨scr.Name⟩, key⟩))) ∧
      creates (resolvePubKeyAction.Handle i inst).effects = 0 ∧
      deletes (resolvePubKeyAction.Handle i inst).effects = 0 ∧
      ((∃ keyRef, inst.Status.Signer.KeyRef = some keyRef ∧ keyRef.Name = scr.Name) →
        requests (resolvePubKeyAction.Handle i inst).effects = 0) := by
  have _ := hnil
  have hsks : resolvePubKeyAction.discover i.findSecret = some ⟨⟨scr.Name⟩, key⟩ := by
    simp [resolvePubKeyAction.discover, hscr, hkey]
  obtain ⟨hd, hc⟩ := resolvePubKey_counts i inst
  have ha : (∃ keyRef, inst.Status.Signer.KeyRef = some keyRef ∧ keyRef.Name = scr.Name) →
      resolvePubKeyAction.usesDiscovered (some ⟨⟨scr.Name⟩, key⟩) inst = true := by
    rintro ⟨keyRef, hk, hn⟩
    unfold SecretKeySelector.Name at hn
    simp [resolvePubKeyAction.usesDiscovered, hk, hn, SecretKeySelector.Name]
  by_cases hu : resolvePubKeyAction.usesDiscovered (some ⟨⟨scr.Name⟩, key⟩) inst = true
  · have hH : resolvePubKeyAction.Handle i inst =
        ⟨inst.withPublicKeyRef (some ⟨⟨scr.Name⟩, key⟩),
          i.StatusUpdate (inst.withPublicKeyRef (some ⟨⟨scr.Name⟩, key⟩)),
          [Effect.findSecret inst.Namespace RekorPubLabel,
            Effect.statusUpdate (inst.withPublicKeyRef (some ⟨⟨scr.Name⟩, key⟩))]⟩ := by
      unfold resolvePubKeyAction.Handle
      simp only [hsks]
      simp only [hu, if_true, List.singleton_append]
    rw [hH]
    simp [Rekor.withPublicKeyRef, creates, deletes, requests]
  · have hu : resolvePubKeyAction.usesDiscovered (some ⟨⟨scr.Name⟩, key⟩) inst = false := by
      simpa using hu
    rcases hab with h | ⟨h1, h3, h4⟩
    · rw [ha h] at hu
      simp at hu
    · have hH : resolvePubKeyAction.Handle i inst =
          ⟨inst.withPublicKeyRef (some ⟨⟨scr.Name⟩, key⟩),
            i.StatusUpdate (inst.withPublicKeyRef (some ⟨⟨scr.Name⟩, key⟩)),
            [Effect.findSecret inst.Namespace RekorPubLabel]
              ++ (resolvePubKeyAction.resolvePubKey i inst).2
              ++ [Effect.getSecretData inst.Namespace ⟨⟨scr.Name⟩, key⟩]
              ++ [Effect.statusUpdate (inst.withPublicKeyRef (some ⟨⟨scr.Name⟩, key⟩))]⟩ := by
        unfold resolvePubKeyAction.Handle
        simp only [hsks]
        simp only [hu, Bool.false_eq_true, if_false, h1, hscr, h3, h4, if_true]
      rw [hH]
      refine ⟨rfl, by simp [Rekor.withPublicKeyRef], rfl,
        by simp [getLast?_cons_append_cons], ?_, ?_, ?_⟩
      · simp [creates_append, hc, creates]
      · simp [deletes_append, hd, deletes]
      · intro h
        rw [ha h] at hu
        simp at hu

/-- C16 at concrete inputs: the labelled secret stores the key the API resolves
(case b); and the labelled secret is the signer's key secret while the endpoint
is down (case a). -/
theorem Handle_self_heals_witness :
    (resolvePubKeyAction.Handle envSame
        (rekorWith metav1.ConditionFalse constants.Initialize)).inst.Status.PublicKeyRef
        = some ⟨⟨"rekor-public-rekor-old"⟩, "public"⟩ ∧
      creates (resolvePubKeyAction.Handle envSame
        (rekorWith metav1.ConditionFalse constants.Initialize)).effects = 0 ∧
      deletes (resolvePubKeyAction.Handle envSame
        (rekorWith metav1.ConditionFalse constants.Initialize)).effects = 0 ∧
      requests (resolvePubKeyAction.Handle { envDown with findSecret := some staleSecret }
        { rekorWith metav1.ConditionFalse constants.Initialize with
          Status := { (rekorWith metav1.ConditionFalse constants.Initialize).Status with
            Signer := ⟨"secret", none, some ⟨⟨"rekor-public-rekor-old"⟩, "private"⟩⟩ } }).effects
        = 0 :=
  have h := Handle_self_heals envSame (rekorWith metav1.ConditionFalse constants.Initialize)
    staleSecret "public" rfl rfl (by decide) (Or.inr (by decide))
  have g := Handle_self_heals { envDown with findSecret := some staleSecret }
    { rekorWith metav1.ConditionFalse constants.Initialize with
      Status := { (rekorWith metav1.ConditionFalse constants.Initialize).Status with
        Signer := ⟨"secret", none, some ⟨⟨"rekor-public-rekor-old"⟩, "private"⟩⟩ } }
    staleSecret "public" rfl rfl (by decide)
    (Or.inl ⟨⟨⟨"rekor-public-rekor-old"⟩, "private"⟩, rfl, rfl⟩)
  ⟨h.2.1, h.2.2.2.2.1, h.2.2.2.2.2.1,
    g.2.2.2.2.2.2 ⟨⟨⟨"rekor-public-rekor-old"⟩, "private"⟩, rfl, rfl⟩⟩

/-- C17 at its failing inputs: on a Rekor whose ledger is empty, and on one whose
ledger holds a True `ServerCondition` but no `Ready` condition, `CanHandle`
does not return a boolean: it dereferences the nil pointer returned by
`meta.FindStatusCondition` (`c.Reason`, line 39) and panics. -/
theorem CanHandle_panics_without_ready :
    meta.FindStatusCondition Rekor.zero.Status.Conditions constants.Ready = none ∧
      resolvePubKeyAction.CanHandle Rekor.zero = none ∧
      resolvePubKeyAction.CanHandle
        (Rekor.zero.withConditions
          [⟨actions.ServerCondition, metav1.ConditionTrue, 0, 1, constants.Ready, ""⟩]) = none ∧
      resolvePubKeyAction.CanHandle Rekor.zero ≠ some false := by
  decide

/-- On a ledger that has a `Ready` condition, `CanHandle` returns a boolean. -/
theorem CanHandle_total_with_ready (inst : Rekor) (c : Condition)
    (h : meta.FindStatusCondition inst.Status.Conditions constants.Ready = some c) :
    ∃ b, resolvePubKeyAction.CanHandle inst = some b := by
  unfold resolvePubKeyAction.CanHandle
  rw [h]
  simp only []
  split
  · exact ⟨false, rfl⟩
  · exact ⟨_, rfl⟩

/-! ## Theorems: `CreateRekorDeployment` -/

/-- With secret-based signing and all prerequisites present,
`CreateRekorDeployment` succeeds and the slices of the deployment are: the two
fixed volumes and the private key volume; one container with the three mounts,
the password environment, and the base arguments followed by the signer
argument and the password argument. -/
theorem CreateRekorDeployment_secret (image : String) (inst : Rekor) (dpName sa : String)
    (labels : Labels) (cfg : LocalObjectReference) (treeID : Int) (keyRef : SecretKeySelector)
    (hcfg : inst.Status.ServerConfigRef = some cfg)
    (htree : inst.Status.TreeID = some treeID)
    (hsec : secretSigning inst)
    (hkey : inst.Status.Signer.KeyRef = some keyRef) :
    ∃ d c, utils.CreateRekorDeployment image inst dpName sa labels = .ok d ∧
      d.Spec.Template.Spec.Volumes =
        [ ⟨"rekor-sharding-config", ⟨some ⟨cfg.Name⟩, none, none⟩⟩,
          ⟨"storage", ⟨none, some ⟨inst.Status.PvcName⟩, none⟩⟩,
          utils.privateKeyVolume keyRef ] ∧
      d.Spec.Template.Spec.Containers = [c] ∧
      c.VolumeMounts =
        [ ⟨"rekor-sharding-config", "/sharding", false⟩,
          ⟨"storage", "/var/run/attestations", false⟩,
          ⟨"rekor-private-key-volume", "/key", true⟩ ] ∧
      c.Env = utils.passwordEnv inst.Status.Signer.PasswordRef ∧
      c.Args = utils.baseArgs inst treeID ++ ["--rekor_server.signer=/key/private"]
        ++ utils.passwordArgs inst.Status.Signer.PasswordRef := by
  have hmem : (inst.Spec.Signer.KMS == "memory") = false := by
    rcases hsec with h | h <;> rw [h] <;> decide
  have hsecb : (inst.Spec.Signer.KMS == "secret" || inst.Spec.Signer.KMS == "") = true := by
    rcases hsec with h | h <;> rw [h] <;> decide
  unfold utils.CreateRekorDeployment
  simp only [hcfg, htree, hkey, hmem, hsecb, Bool.false_eq_true, if_false, if_true]
  rcases hpwd : inst.Status.Signer.PasswordRef with _ | passwordRef
  · exact ⟨_, _, rfl, rfl, rfl, rfl, rfl, by simp [utils.baseArgs, utils.passwordArgs]⟩
  · exact ⟨_, _, rfl, rfl, rfl, rfl, rfl, by simp [utils.baseArgs, utils.passwordArgs]⟩

/-- C18: `CreateRekorDeployment` is a function of its arguments (the embedding
returns the deployment or the error and has no other effect, so equal arguments
give equal results and the instance is as before), and it reads the instance
only through `Namespace`, `Spec.ExternalTrillian`, `Spec.Signer.KMS`,
`Status.ServerConfigRef`, `Status.TreeID`, `Status.PvcName` and
`Status.Signer.KeyRef`/`PasswordRef`: two instances that agree on these fields
give the same result, whatever their other fields are. -/
theorem CreateRekorDeployment_reads_only (image : String) (inst1 inst2 : Rekor)
    (dpName sa : String) (labels : Labels)
    (hns : inst1.Namespace = inst2.Namespace)
    (hext : inst1.Spec.ExternalTrillian = inst2.Spec.ExternalTrillian)
    (hkms : inst1.Spec.Signer.KMS = inst2.Spec.Signer.KMS)
    (hcfg : inst1.Status.ServerConfigRef = inst2.Status.ServerConfigRef)
    (htree : inst1.Status.TreeID = inst2.Status.TreeID)
    (hpvc : inst1.Status.PvcName = inst2.Status.PvcName)
    (hkey : inst1.Status.Signer.KeyRef = inst2.Status.Signer.KeyRef)
    (hpwd : inst1.Status.Signer.PasswordRef = inst2.Status.Signer.PasswordRef) :
    utils.CreateRekorDeployment image inst1 dpName sa labels
      = utils.CreateRekorDeployment image inst2 dpName sa labels := by
  unfold utils.CreateRekorDeployment
  simp only [hns, hext, hkms, hcfg, htree, hpvc, hkey, hpwd]

/-- C18 at a concrete input: an instance that differs from `rekorDeployable` in
its name, `Spec.Signer.KeyRef`, `Spec.Signer.PasswordRef`, `Spec.TrillianAddress`
and `Status.Conditions` synthesizes the same deployment. -/
theorem CreateRekorDeployment_reads_only_witness :
    utils.CreateRekorDeployment "rekor-image" rekorDeployable "rekor-server" "rekor-sa"
        exampleLabels
      = utils.CreateRekorDeployment "rekor-image"
          { rekorDeployable with
            Name := "other"
            Spec :=
              { rekorDeployable.Spec with
                Signer := ⟨"secret", some ⟨⟨"spec-password"⟩, "pw"⟩, some ⟨⟨"spec-key"⟩, "k"⟩⟩
                TrillianAddress := "trillian.example" }
            Status :=
              { rekorDeployable.Status with
                Conditions :=
                  [⟨constants.Ready, metav1.ConditionTrue, 0, 1, constants.Ready, ""⟩] } }
          "rekor-server" "rekor-sa" exampleLabels :=
  CreateRekorDeployment_reads_only "rekor-image" rekorDeployable _ "rekor-server" "rekor-sa"
    exampleLabels rfl rfl rfl rfl rfl rfl rfl rfl

/-- A successful `CreateRekorDeployment` had its prerequisites: the server
config reference, the tree id and, with secret-based signing, the signer key
reference. -/
theorem CreateRekorDeployment_ok_inv (image : String) (inst : Rekor) (dpName sa : String)
    (labels : Labels) (d : apps.Deployment)
    (h : utils.CreateRekorDeployment image inst dpName sa labels = .ok d) :
    ∃ cfg treeID, inst.Status.ServerConfigRef = some cfg ∧ inst.Status.TreeID = some treeID ∧
      (secretSigning inst → ∃ keyRef, inst.Status.Signer.KeyRef = some keyRef) := by
  rcases hcfg : inst.Status.ServerConfigRef with _ | cfg
  · simp [utils.CreateRekorDeployment, hcfg] at h
  · rcases htree : inst.Status.TreeID with _ | treeID
    · simp [utils.CreateRekorDeployment, hcfg, htree] at h
    · refine ⟨cfg, treeID, rfl, rfl, fun hsec => ?_⟩
      rcases hkey : inst.Status.Signer.KeyRef with _ | keyRef
      · have hsecb : (inst.Spec.Signer.KMS == "secret" || inst.Spec.Signer.KMS == "") = true := by
          rcases hsec with hk | hk <;> rw [hk] <;> decide
        simp [utils.CreateRekorDeployment, hcfg, htree, hkey, hsecb] at h
      · exact ⟨keyRef, rfl⟩

/-- The private key volume determines the key reference it was built from. -/
theorem privateKeyVolume_injective (k1 k2 : SecretKeySelector)
    (h : utils.privateKeyVolume k1 = utils.privateKeyVolume k2) : k1 = k2 := by
  rcases k1 with ⟨⟨n1⟩, key1⟩
  rcases k2 with ⟨⟨n2⟩, key2⟩
  simp [utils.privateKeyVolume, SecretKeySelector.Name] at h
  simp [h.1, h.2]

/-- The password environment determines the password reference it was built from. -/
theorem passwordEnv_injective (p1 p2 : Option SecretKeySelector)
    (h : utils.passwordEnv p1 = utils.passwordEnv p2) : p1 = p2 := by
  rcases p1 with _ | ⟨⟨n1⟩, key1⟩ <;> rcases p2 with _ | ⟨⟨n2⟩, key2⟩
  · rfl
  · simp [utils.passwordEnv] at h
  · simp [utils.passwordEnv] at h
  · simp [utils.passwordEnv, SecretKeySelector.Name] at h
    simp [h.1, h.2]

/-- C19: for every Rekor with `Status.ServerConfigRef` and `Status.TreeID` set,
`Spec.Signer.KMS` `secret` or empty and `Status.Signer.KeyRef = {Name n, Key k}`,
`CreateRekorDeployment` returns a deployment with exactly one pod volume named
`rekor-private-key-volume`, whose secret source has `SecretName n` and maps key
`k` to path `private`; its one container mounts that volume, exactly once,
read-only at `/key`, and its arguments contain
`--rekor_server.signer=/key/private`. -/
theorem CreateRekorDeployment_private_key_volume (image : String) (inst : Rekor)
    (dpName sa : String) (labels : Labels) (cfg : LocalObjectReference) (treeID : Int)
    (n k : String)
    (hcfg : inst.Status.ServerConfigRef = some cfg)
    (htree : inst.Status.TreeID = some treeID)
    (hsec : inst.Spec.Signer.KMS = "secret" ∨ inst.Spec.Signer.KMS = "")
    (hkey : inst.Status.Signer.KeyRef = some ⟨⟨n⟩, k⟩) :
    ∃ d c, utils.CreateRekorDeployment image inst dpName sa labels = .ok d ∧
      d.Spec.Template.Spec.Volumes.filter (fun v => v.Name == "rekor-private-key-volume")
        = [⟨"rekor-private-key-volume", ⟨none, none, some ⟨n, [⟨k, "private"⟩]⟩⟩⟩] ∧
      d.Spec.Template.Spec.Containers = [c] ∧
      c.VolumeMounts.filter (fun m => m.Name == "rekor-private-key-volume")
        = [⟨"rekor-private-key-volume", "/key", true⟩] ∧
      "--rekor_server.signer=/key/private" ∈ c.Args := by
  obtain ⟨d, c, hd, hvol, hcont, hmounts, -, hargs⟩ :=
    CreateRekorDeployment_secret image inst dpName sa labels cfg treeID ⟨⟨n⟩, k⟩ hcfg htree hsec
      hkey
  refine ⟨d, c, hd, ?_, hcont, ?_, ?_⟩
  · rw [hvol]
    simp [List.filter_cons, utils.privateKeyVolume, SecretKeySelector.Name]
  · rw [hmounts]
    simp [List.filter_cons]
  · rw [hargs]
    simp

/-- C19 at a concrete input: the signer key `private` of secret `my-rekor-secret`. -/
theorem CreateRekorDeployment_private_key_volume_witness :
    ∃ d c, utils.CreateRekorDeployment "rekor-image" rekorDeployable "rekor-server" "rekor-sa"
        exampleLabels = .ok d ∧
      d.Spec.Template.Spec.Volumes.filter (fun v => v.Name == "rekor-private-key-volume")
        = [⟨"rekor-private-key-volume",
            ⟨none, none, some ⟨"my-rekor-secret", [⟨"private", "private"⟩]⟩⟩⟩] ∧
      d.Spec.Template.Spec.Containers = [c] ∧
      c.VolumeMounts.filter (fun m => m.Name == "rekor-private-key-volume")
        = [⟨"rekor-private-key-volume", "/key", true⟩] ∧
      "--rekor_server.signer=/key/private" ∈ c.Args :=
  CreateRekorDeployment_private_key_volume "rekor-image" rekorDeployable "rekor-server"
    "rekor-sa" exampleLabels ⟨"rekor-config"⟩ 42 "my-rekor-secret" "private" rfl rfl
    (Or.inl rfl) rfl

/-- C20: key rotation is visible in the synthesized deployment. With
secret-based signing, two instances that differ only in `Status.Signer.KeyRef`
(two different references) and for which `CreateRekorDeployment` succeeds give
deployments with different pod `Volumes`; two instances that differ only in
`Status.Signer.PasswordRef` (two different references, or one of them nil) give
containers with different `Env`. In both cases the deployments differ, so a
structural comparison with the previously synthesized one reports a mismatch. -/
theorem CreateRekorDeployment_key_rotation (image : String) (inst : Rekor)
    (dpName sa : String) (labels : Labels) (hsec : secretSigning inst) :
    (∀ k1 k2 d1 d2, k1 ≠ k2 →
      utils.CreateRekorDeployment image (inst.withSignerKeyRef (some k1)) dpName sa labels
        = .ok d1 →
      utils.CreateRekorDeployment image (inst.withSignerKeyRef (some k2)) dpName sa labels
        = .ok d2 →
      d1.Spec.Template.Spec.Volumes ≠ d2.Spec.Template.Spec.Volumes ∧ d1 ≠ d2) ∧
    (∀ p1 p2 d1 d2, p1 ≠ p2 →
      utils.CreateRekorDeployment image (inst.withSignerPasswordRef p1) dpName sa labels
        = .ok d1 →
      utils.CreateRekorDeployment image (inst.withSignerPasswordRef p2) dpName sa labels
        = .ok d2 →
      d1.Spec.Template.Spec.Containers.map (fun c => c.Env)
        ≠ d2.Spec.Template.Spec.Containers.map (fun c => c.Env) ∧ d1 ≠ d2) := by
  constructor
  · intro k1 k2 d1 d2 hne h1 h2
    obtain ⟨cfg, treeID, hcfg, htree, -⟩ := CreateRekorDeployment_ok_inv _ _ _ _ _ _ h1
    obtain ⟨e1, c1, he1, hv1, -⟩ := CreateRekorDeployment_secret image
      (inst.withSignerKeyRef (some k1)) dpName sa labels cfg treeID k1 hcfg htree hsec rfl
    obtain ⟨e2, c2, he2, hv2, -⟩ := CreateRekorDeployment_secret image
      (inst.withSignerKeyRef (some k2)) dpName sa labels cfg treeID k2 hcfg htree hsec rfl
    rw [h1] at he1
    rw [h2] at he2
    injection he1 with he1
    injection he2 with he2
    subst he1 he2
    have hvol : d1.Spec.Template.Spec.Volumes ≠ d2.Spec.Template.Spec.Volumes := by
      rw [hv1, hv2]
      intro heq
      simp only [List.cons.injEq, and_true, true_and] at heq
      exact hne (privateKeyVolume_injective k1 k2 heq.2)
    exact ⟨hvol, fun heq => hvol (by rw [heq])⟩
  · intro p1 p2 d1 d2 hne h1 h2
    obtain ⟨cfg, treeID, hcfg, htree, hk⟩ := CreateRekorDeployment_ok_inv _ _ _ _ _ _ h1
    obtain ⟨keyRef, hkey⟩ := hk hsec
    obtain ⟨e1, c1, he1, -, hc1, -, henv1, -⟩ := CreateRekorDeployment_secret image
      (inst.withSignerPasswordRef p1) dpName sa labels cfg treeID keyRef hcfg htree hsec hkey
    obtain ⟨e2, c2, he2, -, hc2, -, henv2, -⟩ := CreateRekorDeployment_secret image
      (inst.withSignerPasswordRef p2) dpName sa labels cfg treeID keyRef hcfg htree hsec hkey
    rw [h1] at he1
    rw [h2] at he2
    injection he1 with he1
    injection he2 with he2
    subst he1 he2
    have henv : d1.Spec.Template.Spec.Containers.map (fun c => c.Env)
        ≠ d2.Spec.Template.Spec.Containers.map (fun c => c.Env) := by
      rw [hc1, hc2]
      intro heq
      simp only [List.map_cons, List.map_nil, List.cons.injEq, and_true] at heq
      rw [henv1, henv2] at heq
      exact hne (passwordEnv_injective p1 p2 heq)
    exact ⟨henv, fun heq => henv (by rw [heq])⟩

/-- C20 at a concrete input: the signer key moves from secret `my-rekor-secret`
to secret `rotated`; and a password reference is added. -/
theorem CreateRekorDeployment_key_rotation_witness :
    utils.CreateRekorDeployment "rekor-image"
        (rekorDeployable.withSignerKeyRef (some ⟨⟨"my-rekor-secret"⟩, "private"⟩))
        "rekor-server" "rekor-sa" exampleLabels
      ≠ utils.CreateRekorDeployment "rekor-image"
          (rekorDeployable.withSignerKeyRef (some ⟨⟨"rotated"⟩, "private"⟩))
          "rekor-server" "rekor-sa" exampleLabels ∧
      utils.CreateRekorDeployment "rekor-image" (rekorDeployable.withSignerPasswordRef none)
          "rekor-server" "rekor-sa" exampleLabels
        ≠ utils.CreateRekorDeployment "rekor-image"
            (rekorDeployable.withSignerPasswordRef (some ⟨⟨"password-secret"⟩, "password"⟩))
            "rekor-server" "rekor-sa" exampleLabels := by
  have h := CreateRekorDeployment_key_rotation "rekor-image" rekorDeployable "rekor-server"
    "rekor-sa" exampleLabels (Or.inl rfl)
  obtain ⟨a1, _, ha1, -⟩ := CreateRekorDeployment_secret "rekor-image"
    (rekorDeployable.withSignerKeyRef (some ⟨⟨"my-rekor-secret"⟩, "private"⟩)) "rekor-server"
    "rekor-sa" exampleLabels ⟨"rekor-config"⟩ 42 ⟨⟨"my-rekor-secret"⟩, "private"⟩ rfl rfl
    (Or.inl rfl) rfl
  obtain ⟨a2, _, ha2, -⟩ := CreateRekorDeployment_secret "rekor-image"
    (rekorDeployable.withSignerKeyRef (some ⟨⟨"rotated"⟩, "private"⟩)) "rekor-server"
    "rekor-sa" exampleLabels ⟨"rekor-config"⟩ 42 ⟨⟨"rotated"⟩, "private"⟩ rfl rfl
    (Or.inl rfl) rfl
  obtain ⟨b1, _, hb1, -⟩ := CreateRekorDeployment_secret "rekor-image"
    (rekorDeployable.withSignerPasswordRef none) "rekor-server"
    "rekor-sa" exampleLabels ⟨"rekor-config"⟩ 42 ⟨⟨"my-rekor-secret"⟩, "private"⟩ rfl rfl
    (Or.inl rfl) rfl
  obtain ⟨b2, _, hb2, -⟩ := CreateRekorDeployment_secret "rekor-image"
    (rekorDeployable.withSignerPasswordRef (some ⟨⟨"password-secret"⟩, "password"⟩))
    "rekor-server" "rekor-sa" exampleLabels ⟨"rekor-config"⟩ 42
    ⟨⟨"my-rekor-secret"⟩, "private"⟩ rfl rfl (Or.inl rfl) rfl
  constructor
  · rw [ha1, ha2]
    intro heq
    injection heq with heq
    exact (h.1 _ _ a1 a2 (by decide) ha1 ha2).2 heq
  · rw [hb1, hb2]
    intro heq
    injection heq with heq
    exact (h.2 _ _ b1 b2 (by decide) hb1 hb2).2 heq

/-- Without secret-based signing and with the prerequisites present,
`CreateRekorDeployment` succeeds with the two fixed volumes, one container with
the two mounts, no environment, and the base arguments followed by the memory
signer argument when the KMS is `memory`. -/
theorem CreateRekorDeployment_not_secret (image : String) (inst : Rekor) (dpName sa : String)
    (labels : Labels) (cfg : LocalObjectReference) (treeID : Int)
    (hcfg : inst.Status.ServerConfigRef = some cfg)
    (htree : inst.Status.TreeID = some treeID)
    (hsec : ¬ secretSigning inst) :
    ∃ d c, utils.CreateRekorDeployment image inst dpName sa labels = .ok d ∧
      d.Spec.Template.Spec.Volumes =
        [ ⟨"rekor-sharding-config", ⟨some ⟨cfg.Name⟩, none, none⟩⟩,
          ⟨"storage", ⟨none, some ⟨inst.Status.PvcName⟩, none⟩⟩ ] ∧
      d.Spec.Template.Spec.Containers = [c] ∧
      c.VolumeMounts =
        [ ⟨"rekor-sharding-config", "/sharding", false⟩,
          ⟨"storage", "/var/run/attestations", false⟩ ] ∧
      c.Env = [] ∧
      c.Args = utils.baseArgs inst treeID
        ++ (if inst.Spec.Signer.KMS = "memory" then ["--rekor_server.signer=memory"] else []) := by
  have hsecb : (inst.Spec.Signer.KMS == "secret" || inst.Spec.Signer.KMS == "") = false := by
    unfold secretSigning at hsec
    simp only [not_or] at hsec
    simp [hsec.1, hsec.2]
  unfold utils.CreateRekorDeployment
  simp only [hcfg, htree, hsecb, Bool.false_eq_true, if_false]
  by_cases hmem : inst.Spec.Signer.KMS = "memory"
  · exact ⟨_, _, rfl, rfl, rfl, rfl, rfl, by simp [utils.baseArgs, hmem]⟩
  · exact ⟨_, _, rfl, rfl, rfl, rfl, rfl, by simp [utils.baseArgs, hmem]⟩

/-- The two ways a successful `CreateRekorDeployment` is built: with
secret-based signing from a signer key reference, or without it. -/
theorem CreateRekorDeployment_ok_cases (image : String) (inst : Rekor) (dpName sa : String)
    (labels : Labels) (d : apps.Deployment)
    (h : utils.CreateRekorDeployment image inst dpName sa labels = .ok d) :
    ∃ cfg treeID c, inst.Status.ServerConfigRef = some cfg ∧ inst.Status.TreeID = some treeID ∧
      d.Spec.Template.Spec.Containers = [c] ∧
      ((secretSigning inst ∧ ∃ keyRef, inst.Status.Signer.KeyRef = some keyRef ∧
          d.Spec.Template.Spec.Volumes =
            [ ⟨"rekor-sharding-config", ⟨some ⟨cfg.Name⟩, none, none⟩⟩,
              ⟨"storage", ⟨none, some ⟨inst.Status.PvcName⟩, none⟩⟩,
              utils.privateKeyVolume keyRef ] ∧
          c.VolumeMounts =
            [ ⟨"rekor-sharding-config", "/sharding", false⟩,
              ⟨"storage", "/var/run/attestations", false⟩,
              ⟨"rekor-private-key-volume", "/key", true⟩ ] ∧
          c.Env = utils.passwordEnv inst.Status.Signer.PasswordRef ∧
          c.Args = utils.baseArgs inst treeID ++ ["--rekor_server.signer=/key/private"]
            ++ utils.passwordArgs inst.Status.Signer.PasswordRef) ∨
       (¬ secretSigning inst ∧
          d.Spec.Template.Spec.Volumes =
            [ ⟨"rekor-sharding-config", ⟨some ⟨cfg.Name⟩, none, none⟩⟩,
              ⟨"storage", ⟨none, some ⟨inst.Status.PvcName⟩, none⟩⟩ ] ∧
          c.VolumeMounts =
            [ ⟨"rekor-sharding-config", "/sharding", false⟩,
              ⟨"storage", "/var/run/attestations", false⟩ ] ∧
          c.Env = [] ∧
          c.Args = utils.baseArgs inst treeID
            ++ (if inst.Spec.Signer.KMS = "memory" then ["--rekor_server.signer=memory"]
                else []))) := by
  obtain ⟨cfg, treeID, hcfg, htree, hk⟩ := CreateRekorDeployment_ok_inv _ _ _ _ _ _ h
  by_cases hsec : secretSigning inst
  · obtain ⟨keyRef, hkey⟩ := hk hsec
    obtain ⟨e, c, he, hv, hc, hm, henv, hargs⟩ := CreateRekorDeployment_secret image inst dpName
      sa labels cfg treeID keyRef hcfg htree hsec hkey
    rw [h] at he
    injection he with he
    subst he
    exact ⟨cfg, treeID, c, hcfg, htree, hc, Or.inl ⟨hsec, keyRef, hkey, hv, hm, henv, hargs⟩⟩
  · obtain ⟨e, c, he, hv, hc, hm, henv, hargs⟩ := CreateRekorDeployment_not_secret image inst
      dpName sa labels cfg treeID hcfg htree hsec
    rw [h] at he
    injection he with he
    subst he
    exact ⟨cfg, treeID, c, hcfg, htree, hc, Or.inr ⟨hsec, hv, hm, henv, hargs⟩⟩

/-- Whether a string starts with `p` is decided by its first `p.length`
characters: text appended after them does not matter. -/
theorem startsWith_append (p lit rest : String) (h : p.length ≤ lit.length) :
    startsWith p (lit ++ rest) = startsWith p lit := by
  unfold startsWith
  rw [String.data_append, List.take_append_of_le_length h]

/-- None of the base arguments configures a signer or passes a signer password. -/
theorem baseArgs_no_signer (inst : Rekor) (treeID : Int) :
    signerArgs (utils.baseArgs inst treeID) = [] ∧
      signerPasswdArgs (utils.baseArgs inst treeID) = [] := by
  have h1 : ∀ x : String, startsWith "--rekor_server.signer="
      ("--trillian_log_server.address=trillian-logserver." ++ x ++ ".svc") = false := by
    intro x
    rw [startsWith_append _ _ _ (by
        rw [String.length_append]; exact Nat.le_add_right_of_le (by decide)),
      startsWith_append _ _ _ (by decide)]
    decide
  have h2 : ∀ x : String, startsWith "--rekor_server.signer="
      ("--trillian_log_server.tlog_id=" ++ x) = false := by
    intro x
    rw [startsWith_append _ _ _ (by decide)]
    decide
  have h3 : ∀ x : String, startsWith "--rekor_server.signer-passwd="
      ("--trillian_log_server.address=trillian-logserver." ++ x ++ ".svc") = false := by
    intro x
    rw [startsWith_append _ _ _ (by
        rw [String.length_append]; exact Nat.le_add_right_of_le (by decide)),
      startsWith_append _ _ _ (by decide)]
    decide
  have h4 : ∀ x : String, startsWith "--rekor_server.signer-passwd="
      ("--trillian_log_server.tlog_id=" ++ x) = false := by
    intro x
    rw [startsWith_append _ _ _ (by decide)]
    decide
  constructor
  · unfold signerArgs
    rw [List.filter_eq_nil_iff]
    intro a ha
    simp only [utils.baseArgs, List.mem_cons, List.mem_singleton, List.not_mem_nil,
      or_false] at ha
    rcases ha with rfl | rfl | rfl | rfl | rfl | rfl | rfl | rfl | rfl | rfl | rfl
    · decide
    · rw [h1]; decide
    · decide
    · decide
    · decide
    · decide
    · decide
    · decide
    · rw [h2]; decide
    · decide
    · decide
  · unfold signerPasswdArgs
    rw [List.filter_eq_nil_iff]
    intro a ha
    simp only [utils.baseArgs, List.mem_cons, List.mem_singleton, List.not_mem_nil,
      or_false] at ha
    rcases ha with rfl | rfl | rfl | rfl | rfl | rfl | rfl | rfl | rfl | rfl | rfl
    · decide
    · rw [h3]; decide
    · decide
    · decide
    · decide
    · decide
    · decide
    · decide
    · rw [h4]; decide
    · decide
    · decide

/-- The signer arguments of a synthesized deployment: the key file with
secret-based signing, `memory` with the memory KMS, and none at all for every
other value of `Spec.Signer.KMS`. -/
theorem CreateRekorDeployment_signerArgs (image : String) (inst : Rekor) (dpName sa : String)
    (labels : Labels) (d : apps.Deployment)
    (h : utils.CreateRekorDeployment image inst dpName sa labels = .ok d) :
    ∃ c, d.Spec.Template.Spec.Containers = [c] ∧
      signerArgs c.Args =
        (if inst.Spec.Signer.KMS = "secret" ∨ inst.Spec.Signer.KMS = "" then
          ["--rekor_server.signer=/key/private"]
        else if inst.Spec.Signer.KMS = "memory" then ["--rekor_server.signer=memory"]
        else []) := by
  obtain ⟨cfg, treeID, c, -, -, hc, hcase⟩ := CreateRekorDeployment_ok_cases _ _ _ _ _ _ h
  refine ⟨c, hc, ?_⟩
  have hbase := (baseArgs_no_signer inst treeID).1
  unfold signerArgs at hbase ⊢
  rcases hcase with ⟨hsec, keyRef, -, -, -, -, hargs⟩ | ⟨hsec, -, -, -, hargs⟩
  · have hsec2 : inst.Spec.Signer.KMS = "secret" ∨ inst.Spec.Signer.KMS = "" := hsec
    rw [hargs, if_pos hsec2, List.filter_append, List.filter_append, hbase]
    rcases inst.Status.Signer.PasswordRef with _ | pw <;> simp only [utils.passwordArgs] <;>
      decide
  · have hsec2 : ¬ (inst.Spec.Signer.KMS = "secret" ∨ inst.Spec.Signer.KMS = "") := hsec
    rw [hargs, if_neg hsec2, List.filter_append, hbase]
    by_cases hmem : inst.Spec.Signer.KMS = "memory"
    · simp only [hmem, if_true, List.nil_append]
      decide
    · simp only [hmem, if_false, List.nil_append, List.filter_nil]

/-- C21 at its failing input: for the KMS provider URI
`awskms://1234abcd-12ab-34cd-56ef-1234567890ab?region=us-east-1`
`CreateRekorDeployment` succeeds, but the arguments of the container contain no
`--rekor_server.signer=` argument at all, and the URI appears in none of them;
for `memory` and for `secret` there is exactly one. -/
theorem CreateRekorDeployment_kms_uri_unconfigured :
    (utils.CreateRekorDeployment "rekor-image" rekorAwsKms "rekor-server" "rekor-sa"
        exampleLabels).isOk = true ∧
      signerArgs (containerArgs (utils.CreateRekorDeployment "rekor-image" rekorAwsKms
        "rekor-server" "rekor-sa" exampleLabels)) = [] ∧
      "--rekor_server.signer=awskms://1234abcd-12ab-34cd-56ef-1234567890ab?region=us-east-1"
        ∉ containerArgs (utils.CreateRekorDeployment "rekor-image" rekorAwsKms "rekor-server"
            "rekor-sa" exampleLabels) ∧
      signerArgs (containerArgs (utils.CreateRekorDeployment "rekor-image"
        (rekorDeployable.withKMS "memory") "rekor-server" "rekor-sa" exampleLabels))
        = ["--rekor_server.signer=memory"] ∧
      signerArgs (containerArgs (utils.CreateRekorDeployment "rekor-image" rekorDeployable
        "rekor-server" "rekor-sa" exampleLabels)) = ["--rekor_server.signer=/key/private"] := by
  decide

/-- C22 at its failing input: with `Spec.TrillianAddress = trillian.example.com`
and `Spec.TrillianPort = 1234`, the synthesized deployment is started with
`--trillian_log_server.address=trillian-logserver.default.svc` and
`--trillian_log_server.port=8091`; the configured address and port, which
rekor_types.go documents as the Trillian log server end point, appear in no
argument. -/
theorem CreateRekorDeployment_ignores_trillian_endpoint :
    (containerArgs (utils.CreateRekorDeployment "rekor-image"
        (rekorDeployable.withTrillian "trillian.example.com" "1234") "rekor-server" "rekor-sa"
        exampleLabels)).filter (startsWith "--trillian_log_server.address=")
        = ["--trillian_log_server.address=trillian-logserver.default.svc"] ∧
      (containerArgs (utils.CreateRekorDeployment "rekor-image"
        (rekorDeployable.withTrillian "trillian.example.com" "1234") "rekor-server" "rekor-sa"
        exampleLabels)).filter (startsWith "--trillian_log_server.port=")
        = ["--trillian_log_server.port=8091"] ∧
      "--trillian_log_server.address=trillian.example.com"
        ∉ containerArgs (utils.CreateRekorDeployment "rekor-image"
            (rekorDeployable.withTrillian "trillian.example.com" "1234") "rekor-server"
            "rekor-sa" exampleLabels) ∧
      "--trillian_log_server.port=1234"
        ∉ containerArgs (utils.CreateRekorDeployment "rekor-image"
            (rekorDeployable.withTrillian "trillian.example.com" "1234") "rekor-server"
            "rekor-sa" exampleLabels) := by
  decide

/-- The Trillian arguments of every synthesized deployment, whatever
`Spec.TrillianAddress` and `Spec.TrillianPort` are (lines 23-32 do not read
them): the arguments of the container begin with `serve`, the address argument
`--trillian_log_server.address=trillian-logserver.<ns>.svc`, where `<ns>` is
`Spec.ExternalTrillian` when that is not empty and the namespace of the instance
otherwise, and the port argument `--trillian_log_server.port=8091`. -/
theorem CreateRekorDeployment_trillian_endpoint (image : String) (inst : Rekor)
    (dpName sa : String) (labels : Labels) :
    (∀ address port,
      utils.CreateRekorDeployment image (inst.withTrillian address port) dpName sa labels
        = utils.CreateRekorDeployment image inst dpName sa labels) ∧
    (∀ d, utils.CreateRekorDeployment image inst dpName sa labels = .ok d →
      ∃ c, d.Spec.Template.Spec.Containers = [c] ∧
        c.Args.take 3 =
          [ "serve",
            "--trillian_log_server.address=trillian-logserver."
              ++ (if inst.Spec.ExternalTrillian != "" then inst.Spec.ExternalTrillian
                  else inst.Namespace) ++ ".svc",
            "--trillian_log_server.port=8091" ]) := by
  constructor
  · intro address port
    rfl
  · intro d h
    obtain ⟨cfg, treeID, c, -, -, hc, hcase⟩ := CreateRekorDeployment_ok_cases _ _ _ _ _ _ h
    refine ⟨c, hc, ?_⟩
    rcases hcase with ⟨-, keyRef, -, -, -, -, hargs⟩ | ⟨-, -, -, -, hargs⟩ <;>
      rw [hargs] <;> simp [utils.baseArgs]

/-- C28: `CreateRekorDeployment` returns an error if and only if
`Status.ServerConfigRef` is nil, or `Status.TreeID` is nil, or `Spec.Signer.KMS`
is `secret` or empty while `Status.Signer.KeyRef` is nil. The checks take
precedence in that order, with the messages `server config name not specified`,
`reference to trillian TreeID not set` and `signer key ref not specified`; in
every other case it returns a deployment (and no error). -/
theorem CreateRekorDeployment_errors (image : String) (inst : Rekor) (dpName sa : String)
    (labels : Labels) :
    (inst.Status.ServerConfigRef = none →
      utils.CreateRekorDeployment image inst dpName sa labels
        = .error "server config name not specified") ∧
    (inst.Status.ServerConfigRef ≠ none → inst.Status.TreeID = none →
      utils.CreateRekorDeployment image inst dpName sa labels
        = .error "reference to trillian TreeID not set") ∧
    (inst.Status.ServerConfigRef ≠ none → inst.Status.TreeID ≠ none →
      (inst.Spec.Signer.KMS = "secret" ∨ inst.Spec.Signer.KMS = "") →
      inst.Status.Signer.KeyRef = none →
      utils.CreateRekorDeployment image inst dpName sa labels
        = .error "signer key ref not specified") ∧
    (inst.Status.ServerConfigRef ≠ none → inst.Status.TreeID ≠ none →
      ¬ ((inst.Spec.Signer.KMS = "secret" ∨ inst.Spec.Signer.KMS = "") ∧
          inst.Status.Signer.KeyRef = none) →
      ∃ d, utils.CreateRekorDeployment image inst dpName sa labels = .ok d) ∧
    ((∃ err, utils.CreateRekorDeployment image inst dpName sa labels = .error err) ↔
      (inst.Status.ServerConfigRef = none ∨ inst.Status.TreeID = none ∨
        ((inst.Spec.Signer.KMS = "secret" ∨ inst.Spec.Signer.KMS = "") ∧
          inst.Status.Signer.KeyRef = none))) := by
  have e1 : inst.Status.ServerConfigRef = none →
      utils.CreateRekorDeployment image inst dpName sa labels
        = .error "server config name not specified" := by
    intro h
    simp [utils.CreateRekorDeployment, h]
  have e2 : inst.Status.ServerConfigRef ≠ none → inst.Status.TreeID = none →
      utils.CreateRekorDeployment image inst dpName sa labels
        = .error "reference to trillian TreeID not set" := by
    intro hcfg h
    obtain ⟨cfg, hcfg⟩ := Option.ne_none_iff_exists'.mp hcfg
    simp [utils.CreateRekorDeployment, hcfg, h]
  have e3 : inst.Status.ServerConfigRef ≠ none → inst.Status.TreeID ≠ none →
      (inst.Spec.Signer.KMS = "secret" ∨ inst.Spec.Signer.KMS = "") →
      inst.Status.Signer.KeyRef = none →
      utils.CreateRekorDeployment image inst dpName sa labels
        = .error "signer key ref not specified" := by
    intro hcfg htree hsec hkey
    obtain ⟨cfg, hcfg⟩ := Option.ne_none_iff_exists'.mp hcfg
    obtain ⟨treeID, htree⟩ := Option.ne_none_iff_exists'.mp htree
    have hsecb : (inst.Spec.Signer.KMS == "secret" || inst.Spec.Signer.KMS == "") = true := by
      rcases hsec with hk | hk <;> rw [hk] <;> decide
    simp [utils.CreateRekorDeployment, hcfg, htree, hkey, hsecb]
  have e4 : inst.Status.ServerConfigRef ≠ none → inst.Status.TreeID ≠ none →
      ¬ ((inst.Spec.Signer.KMS = "secret" ∨ inst.Spec.Signer.KMS = "") ∧
          inst.Status.Signer.KeyRef = none) →
      ∃ d, utils.CreateRekorDeployment image inst dpName sa labels = .ok d := by
    intro hcfg htree hno
    obtain ⟨cfg, hcfg⟩ := Option.ne_none_iff_exists'.mp hcfg
    obtain ⟨treeID, htree⟩ := Option.ne_none_iff_exists'.mp htree
    by_cases hsec : secretSigning inst
    · rcases hkey : inst.Status.Signer.KeyRef with _ | keyRef
      · exact absurd ⟨hsec, hkey⟩ hno
      · obtain ⟨d, -, hd, -⟩ := CreateRekorDeployment_secret image inst dpName sa labels cfg
          treeID keyRef hcfg htree hsec hkey
        exact ⟨d, hd⟩
    · obtain ⟨d, -, hd, -⟩ := CreateRekorDeployment_not_secret image inst dpName sa labels cfg
        treeID hcfg htree hsec
      exact ⟨d, hd⟩
  refine ⟨e1, e2, e3, e4, ?_, ?_⟩
  · rintro ⟨err, herr⟩
    by_contra hno
    simp only [not_or] at hno
    obtain ⟨d, hd⟩ := e4 hno.1 hno.2.1 hno.2.2
    rw [hd] at herr
    cases herr
  · intro h
    by_cases hcfg : inst.Status.ServerConfigRef = none
    · exact ⟨_, e1 hcfg⟩
    · by_cases htree : inst.Status.TreeID = none
      · exact ⟨_, e2 hcfg htree⟩
      · rcases h with h | h | ⟨hsec, hkey⟩
        · exact absurd h hcfg
        · exact absurd h htree
        · exact ⟨_, e3 hcfg htree hsec hkey⟩

/-- C28 at concrete inputs: all three prerequisites missing gives the first
message; with the server config present, the second; with the tree id too, the
third. -/
theorem CreateRekorDeployment_errors_witness :
    utils.CreateRekorDeployment "rekor-image" Rekor.zero "rekor-server" "rekor-sa"
        exampleLabels = .error "server config name not specified" ∧
      utils.CreateRekorDeployment "rekor-image"
        { Rekor.zero with Status := { RekorStatus.zero with ServerConfigRef := some ⟨"cfg"⟩ } }
        "rekor-server" "rekor-sa" exampleLabels
        = .error "reference to trillian TreeID not set" ∧
      utils.CreateRekorDeployment "rekor-image" (rekorDeployable.withSignerKeyRef none)
        "rekor-server" "rekor-sa" exampleLabels = .error "signer key ref not specified" :=
  ⟨(CreateRekorDeployment_errors "rekor-image" Rekor.zero "rekor-server" "rekor-sa"
      exampleLabels).1 rfl,
    (CreateRekorDeployment_errors "rekor-image"
      { Rekor.zero with Status := { RekorStatus.zero with ServerConfigRef := some ⟨"cfg"⟩ } }
      "rekor-server" "rekor-sa" exampleLabels).2.1 (by decide) rfl,
    (CreateRekorDeployment_errors "rekor-image" (rekorDeployable.withSignerKeyRef none)
      "rekor-server" "rekor-sa" exampleLabels).2.2.1 (by decide) (by decide) (Or.inl rfl) rfl⟩

/-- C29: in every deployment that `CreateRekorDeployment` returns, with
secret-based signing and `Status.Signer.PasswordRef = {Name n, Key k}` the
container has exactly one environment variable, `SIGNER_PASSWORD`, taken from key
`k` of secret `n`, and `--rekor_server.signer-passwd=$(SIGNER_PASSWORD)` occurs
exactly once among the arguments (and is the only argument that begins with
`--rekor_server.signer-passwd=`); when `PasswordRef` is nil, or the KMS is
`memory`, the container has no environment variable and no such argument. The
password itself never appears: only the reference to the secret does. -/
theorem CreateRekorDeployment_password (image : String) (inst : Rekor) (dpName sa : String)
    (labels : Labels) (d : apps.Deployment)
    (h : utils.CreateRekorDeployment image inst dpName sa labels = .ok d) :
    ∃ c, d.Spec.Template.Spec.Containers = [c] ∧
      (∀ n k, (inst.Spec.Signer.KMS = "secret" ∨ inst.Spec.Signer.KMS = "") →
        inst.Status.Signer.PasswordRef = some ⟨⟨n⟩, k⟩ →
        c.Env = [⟨"SIGNER_PASSWORD", some ⟨some ⟨n, k⟩⟩⟩] ∧
          signerPasswdArgs c.Args = ["--rekor_server.signer-passwd=$(SIGNER_PASSWORD)"] ∧
          c.Args.count "--rekor_server.signer-passwd=$(SIGNER_PASSWORD)" = 1) ∧
      ((inst.Status.Signer.PasswordRef = none ∨ inst.Spec.Signer.KMS = "memory") →
        c.Env = [] ∧ signerPasswdArgs c.Args = [] ∧
          "--rekor_server.signer-passwd=$(SIGNER_PASSWORD)" ∉ c.Args) := by
  obtain ⟨cfg, treeID, c, -, -, hc, hcase⟩ := CreateRekorDeployment_ok_cases _ _ _ _ _ _ h
  refine ⟨c, hc, ?_⟩
  have hbase : signerPasswdArgs (utils.baseArgs inst treeID) = [] :=
    (baseArgs_no_signer inst treeID).2
  have hlit : startsWith "--rekor_server.signer-passwd="
      "--rekor_server.signer-passwd=$(SIGNER_PASSWORD)" = true := by decide
  have hnot : "--rekor_server.signer-passwd=$(SIGNER_PASSWORD)" ∉ utils.baseArgs inst treeID := by
    intro hmem
    have : "--rekor_server.signer-passwd=$(SIGNER_PASSWORD)"
        ∈ signerPasswdArgs (utils.baseArgs inst treeID) :=
      List.mem_filter.mpr ⟨hmem, hlit⟩
    rw [hbase] at this
    exact List.not_mem_nil _ this
  have hcount : (utils.baseArgs inst treeID).count
      "--rekor_server.signer-passwd=$(SIGNER_PASSWORD)" = 0 := List.count_eq_zero.mpr hnot
  unfold signerPasswdArgs at hbase ⊢
  rcases hcase with ⟨hsec, keyRef, -, -, -, henv, hargs⟩ | ⟨hsec, -, -, henv, hargs⟩
  · constructor
    · intro n k _ hpw
      rw [henv, hargs, hpw]
      refine ⟨rfl, ?_, ?_⟩
      · rw [List.filter_append, List.filter_append, hbase]
        simp only [utils.passwordArgs]
        decide
      · rw [List.count_append, List.count_append, hcount]
        simp only [utils.passwordArgs]
        decide
    · rintro (hpw | hmem)
      · rw [henv, hargs, hpw]
        refine ⟨rfl, ?_, ?_⟩
        · rw [List.filter_append, List.filter_append, hbase]
          decide
        · simp only [utils.passwordArgs, List.append_nil, List.mem_append, List.mem_singleton,
            not_or]
          exact ⟨hnot, by decide⟩
      · exfalso
        rcases hsec with hk | hk <;> rw [hk] at hmem <;> revert hmem <;> decide
  · constructor
    · intro n k hk _
      exact absurd hk hsec
    · intro _
      refine ⟨henv, ?_, ?_⟩
      · rw [hargs, List.filter_append, hbase]
        split <;> decide
      · rw [hargs]
        simp only [List.mem_append, not_or]
        refine ⟨hnot, ?_⟩
        split <;> decide

/-- C29 at a concrete input: the password of the signer key is the key
`password` of the secret `my-rekor-secret`. -/
theorem CreateRekorDeployment_password_witness :
    ∃ c : core.Container, (containerArgs (utils.CreateRekorDeployment "rekor-image"
        (rekorDeployable.withSignerPasswordRef (some ⟨⟨"my-rekor-secret"⟩, "password"⟩))
        "rekor-server" "rekor-sa" exampleLabels)) = c.Args ∧
      c.Env = [⟨"SIGNER_PASSWORD", some ⟨some ⟨"my-rekor-secret", "password"⟩⟩⟩] ∧
      signerPasswdArgs c.Args = ["--rekor_server.signer-passwd=$(SIGNER_PASSWORD)"] ∧
      c.Args.count "--rekor_server.signer-passwd=$(SIGNER_PASSWORD)" = 1 := by
  obtain ⟨d, hd⟩ : ∃ d, utils.CreateRekorDeployment "rekor-image"
      (rekorDeployable.withSignerPasswordRef (some ⟨⟨"my-rekor-secret"⟩, "password"⟩))
      "rekor-server" "rekor-sa" exampleLabels = .ok d := ⟨_, rfl⟩
  obtain ⟨c, hc, hpw, -⟩ := CreateRekorDeployment_password "rekor-image"
    (rekorDeployable.withSignerPasswordRef (some ⟨⟨"my-rekor-secret"⟩, "password"⟩))
    "rekor-server" "rekor-sa" exampleLabels d hd
  refine ⟨c, ?_, hpw "my-rekor-secret" "password" (Or.inl rfl) rfl⟩
  rw [hd]
  simp only [containerArgs, hc, List.map_cons, List.map_nil, List.flatten_cons,
    List.flatten_nil, List.append_nil]

/-- C30: in every deployment that `CreateRekorDeployment` returns, the names of
the volume mounts of the container are the names of the volumes of the pod, in
the same order and without duplicates; there are three of them with
secret-based signing (the private key volume is the third) and two otherwise.
So every mount names a declared volume and every declared volume is mounted. -/
theorem CreateRekorDeployment_mounts_match_volumes (image : String) (inst : Rekor)
    (dpName sa : String) (labels : Labels) (d : apps.Deployment)
    (h : utils.CreateRekorDeployment image inst dpName sa labels = .ok d) :
    ∃ c, d.Spec.Template.Spec.Containers = [c] ∧
      c.VolumeMounts.map (fun m => m.Name) = d.Spec.Template.Spec.Volumes.map (fun v => v.Name) ∧
      (d.Spec.Template.Spec.Volumes.map (fun v => v.Name)).Nodup ∧
      ((inst.Spec.Signer.KMS = "secret" ∨ inst.Spec.Signer.KMS = "") →
        d.Spec.Template.Spec.Volumes.map (fun v => v.Name)
          = ["rekor-sharding-config", "storage", "rekor-private-key-volume"]) ∧
      (¬ (inst.Spec.Signer.KMS = "secret" ∨ inst.Spec.Signer.KMS = "") →
        d.Spec.Template.Spec.Volumes.map (fun v => v.Name)
          = ["rekor-sharding-config", "storage"]) ∧
      (∀ m ∈ c.VolumeMounts, ∃ v ∈ d.Spec.Template.Spec.Volumes, v.Name = m.Name) ∧
      (∀ v ∈ d.Spec.Template.Spec.Volumes, ∃ m ∈ c.VolumeMounts, m.Name = v.Name) := by
  obtain ⟨cfg, treeID, c, -, -, hc, hcase⟩ := CreateRekorDeployment_ok_cases _ _ _ _ _ _ h
  refine ⟨c, hc, ?_⟩
  rcases hcase with ⟨hsec, keyRef, -, hvol, hmnt, -, -⟩ | ⟨hsec, hvol, hmnt, -, -⟩
  · have hsec2 : inst.Spec.Signer.KMS = "secret" ∨ inst.Spec.Signer.KMS = "" := hsec
    rw [hvol, hmnt]
    refine ⟨rfl, by simp [utils.privateKeyVolume], fun _ => rfl,
      fun hno => absurd hsec2 hno, ?_, ?_⟩
    · intro m hm
      simp only [List.mem_cons, List.mem_singleton, List.not_mem_nil, or_false] at hm
      rcases hm with rfl | rfl | rfl
      · exact ⟨_, List.mem_cons_self _ _, rfl⟩
      · exact ⟨_, List.mem_cons_of_mem _ (List.mem_cons_self _ _), rfl⟩
      · exact ⟨_, List.mem_cons_of_mem _ (List.mem_cons_of_mem _ (List.mem_cons_self _ _)), rfl⟩
    · intro v hv
      simp only [List.mem_cons, List.mem_singleton, List.not_mem_nil, or_false] at hv
      rcases hv with rfl | rfl | rfl
      · exact ⟨_, List.mem_cons_self _ _, rfl⟩
      · exact ⟨_, List.mem_cons_of_mem _ (List.mem_cons_self _ _), rfl⟩
      · exact ⟨_, List.mem_cons_of_mem _ (List.mem_cons_of_mem _ (List.mem_cons_self _ _)), rfl⟩
  · have hsec2 : ¬ (inst.Spec.Signer.KMS = "secret" ∨ inst.Spec.Signer.KMS = "") := hsec
    rw [hvol, hmnt]
    refine ⟨rfl, by simp, fun hyes => absurd hyes hsec2, fun _ => rfl, ?_, ?_⟩
    · intro m hm
      simp only [List.mem_cons, List.mem_singleton, List.not_mem_nil, or_false] at hm
      rcases hm with rfl | rfl
      · exact ⟨_, List.mem_cons_self _ _, rfl⟩
      · exact ⟨_, List.mem_cons_of_mem _ (List.mem_cons_self _ _), rfl⟩
    · intro v hv
      simp only [List.mem_cons, List.mem_singleton, List.not_mem_nil, or_false] at hv
      rcases hv with rfl | rfl
      · exact ⟨_, List.mem_cons_self _ _, rfl⟩
      · exact ⟨_, List.mem_cons_of_mem _ (List.mem_cons_self _ _), rfl⟩

/-- C30 at a concrete input: the deployment of the example instance has the
three volumes, mounted in the same order. -/
theorem CreateRekorDeployment_mounts_match_volumes_witness :
    ∃ d c, utils.CreateRekorDeployment "rekor-image" rekorDeployable "rekor-server" "rekor-sa"
        exampleLabels = .ok d ∧ d.Spec.Template.Spec.Containers = [c] ∧
      c.VolumeMounts.map (fun m => m.Name)
        = ["rekor-sharding-config", "storage", "rekor-private-key-volume"] := by
  obtain ⟨d, hd⟩ : ∃ d, utils.CreateRekorDeployment "rekor-image" rekorDeployable
      "rekor-server" "rekor-sa" exampleLabels = .ok d := ⟨_, rfl⟩
  obtain ⟨c, hc, hnames, -, hthree, -⟩ := CreateRekorDeployment_mounts_match_volumes
    "rekor-image" rekorDeployable "rekor-server" "rekor-sa" exampleLabels d hd
  exact ⟨d, c, hd, hc, hnames.trans (hthree (Or.inl rfl))⟩

/-- What `CanHandle` computes from a `Ready` condition `c`, in terms of
propositions. -/
theorem CanHandle_of_ready (inst : Rekor) (c : Condition)
    (h : meta.FindStatusCondition inst.Status.Conditions constants.Ready = some c) :
    resolvePubKeyAction.CanHandle inst
      = some (decide ((c.Reason = constants.Initialize ∨ c.Reason = constants.Ready) ∧
          meta.IsStatusConditionTrue inst.Status.Conditions actions.ServerCondition = true ∧
          inst.Status.PublicKeyRef = none)) := by
  unfold resolvePubKeyAction.CanHandle
  rw [h]
  simp only []
  by_cases h1 : c.Reason = constants.Initialize <;> by_cases h2 : c.Reason = constants.Ready <;>
    by_cases h3 : meta.IsStatusConditionTrue inst.Status.Conditions actions.ServerCondition = true <;>
    by_cases h4 : inst.Status.PublicKeyRef = none <;>
    simp [h1, h2, h3, h4]

/-- C27: on a Rekor whose ledger holds a `Ready` condition `c`,
`resolvePubKeyAction.CanHandle` returns a boolean, and it is true if and only if
the Reason of `c` is `Initialize` or `Ready`, the `ServerCondition` is True and
`Status.PublicKeyRef` is nil. The status of `c` has no influence: every other
Rekor whose `Ready` condition has the same Reason, whatever its status, and
which agrees on the `ServerCondition` and on `Status.PublicKeyRef`, gets the
same answer. -/
theorem CanHandle_iff_with_ready (inst : Rekor) (c : Condition)
    (h : meta.FindStatusCondition inst.Status.Conditions constants.Ready = some c) :
    ∃ b, resolvePubKeyAction.CanHandle inst = some b ∧
      (b = true ↔
        (c.Reason = constants.Initialize ∨ c.Reason = constants.Ready) ∧
          meta.IsStatusConditionTrue inst.Status.Conditions actions.ServerCondition = true ∧
          inst.Status.PublicKeyRef = none) ∧
      (∀ (other : Rekor) (c2 : Condition),
        meta.FindStatusCondition other.Status.Conditions constants.Ready = some c2 →
        c2.Reason = c.Reason →
        meta.IsStatusConditionTrue other.Status.Conditions actions.ServerCondition
          = meta.IsStatusConditionTrue inst.Status.Conditions actions.ServerCondition →
        other.Status.PublicKeyRef = inst.Status.PublicKeyRef →
        resolvePubKeyAction.CanHandle other = some b) := by
  refine ⟨_, CanHandle_of_ready inst c h, ?_, ?_⟩
  · simp only [decide_eq_true_eq]
  · intro other c2 h2 hreason hserver hkey
    rw [CanHandle_of_ready other c2 h2, hreason, hserver, hkey]

/-- C27 at concrete inputs: `Ready` with Reason `Ready` and status True, and
with the same Reason and status False, are both handled; with Reason `Pending`
the Rekor is not handled. -/
theorem CanHandle_iff_with_ready_witness :
    resolvePubKeyAction.CanHandle (rekorWith metav1.ConditionTrue constants.Ready) = some true ∧
      resolvePubKeyAction.CanHandle (rekorWith metav1.ConditionFalse constants.Ready)
        = some true ∧
      resolvePubKeyAction.CanHandle (rekorWith metav1.ConditionTrue constants.Pending)
        = some false := by
  obtain ⟨b, hb, hiff, hindep⟩ := CanHandle_iff_with_ready
    (rekorWith metav1.ConditionTrue constants.Ready)
    ⟨constants.Ready, metav1.ConditionTrue, 0, 1, constants.Ready, ""⟩ rfl
  have hbt : b = true := hiff.mpr (by decide)
  rw [hbt] at hb hindep
  refine ⟨hb, hindep (rekorWith metav1.ConditionFalse constants.Ready)
    ⟨constants.Ready, metav1.ConditionFalse, 0, 1, constants.Ready, ""⟩ rfl rfl rfl rfl, ?_⟩
  obtain ⟨b2, hb2, hiff2, -⟩ := CanHandle_iff_with_ready
    (rekorWith metav1.ConditionTrue constants.Pending)
    ⟨constants.Ready, metav1.ConditionTrue, 0, 1, constants.Pending, ""⟩ rfl
  have hbf : b2 = false := by
    rcases b2 with _ | _
    · rfl
    · exact absurd (hiff2.mp rfl) (by decide)
  rw [hbf] at hb2
  exact hb2

/-! ## Theorems: the validation rules of `Enabled` -/

/-- Along accepted updates under a rule that accepts exactly when the new value
is true or the old one false, a true value is never followed by a false one. -/
theorem AcceptedUpdates_neverDisabled (validate : Bool → Bool → Except GoError Unit)
    (hrule : ∀ oldSelf self, validate oldSelf self = .ok () → (self = true ∨ oldSelf = false))
    (values : List Bool) (h : AcceptedUpdates validate values) : NeverDisabled values := by
  unfold AcceptedUpdates at h
  unfold NeverDisabled
  haveI : IsTrans Bool (fun earlier later => earlier = true → later = true) :=
    ⟨fun _ _ _ hab hbc ha => hbc (hab ha)⟩
  refine List.chain'_iff_pairwise.mp (List.Chain'.imp ?_ h)
  intro oldSelf self hok hold
  rcases hrule oldSelf self hok with hs | ho
  · exact hs
  · rw [ho] at hold
    cases hold

/-- C25: an update of `RekorSearchUI.Enabled` (and of `BackFillRedis.Enabled`)
from `old` to `new` is accepted if and only if `new` is true or `old` is false;
every refused update is refused with `Feature cannot be disabled`. So false to
true is accepted, true to false is refused with that message, and along every
sequence of accepted updates no true value is followed by a false one. -/
theorem Enabled_cannot_be_disabled :
    (∀ old new : RekorSearchUI,
      (RekorSearchUI.validateUpdate old new = .ok () ↔
        (new.Enabled = true ∨ old.Enabled = false)) ∧
      (RekorSearchUI.validateUpdate old new ≠ .ok () →
        RekorSearchUI.validateUpdate old new = .error "Feature cannot be disabled")) ∧
    (∀ oldSelf self : Bool,
      (BackFillRedis.validateEnabled oldSelf self = .ok () ↔
        (self = true ∨ oldSelf = false)) ∧
      (BackFillRedis.validateEnabled oldSelf self ≠ .ok () →
        BackFillRedis.validateEnabled oldSelf self = .error "Feature cannot be disabled")) ∧
    RekorSearchUI.validateUpdate ⟨false⟩ ⟨true⟩ = .ok () ∧
    RekorSearchUI.validateUpdate ⟨true⟩ ⟨false⟩ = .error "Feature cannot be disabled" ∧
    BackFillRedis.validateEnabled false true = .ok () ∧
    BackFillRedis.validateEnabled true false = .error "Feature cannot be disabled" ∧
    (∀ values : List Bool,
      AcceptedUpdates (fun oldSelf self => RekorSearchUI.validateUpdate ⟨oldSelf⟩ ⟨self⟩) values →
      NeverDisabled values) ∧
    (∀ values : List Bool,
      AcceptedUpdates BackFillRedis.validateEnabled values → NeverDisabled values) := by
  have hui : ∀ old new : RekorSearchUI,
      (RekorSearchUI.validateUpdate old new = .ok () ↔
        (new.Enabled = true ∨ old.Enabled = false)) ∧
      (RekorSearchUI.validateUpdate old new ≠ .ok () →
        RekorSearchUI.validateUpdate old new = .error "Feature cannot be disabled") := by
    rintro ⟨_ | _⟩ ⟨_ | _⟩ <;>
      simp [RekorSearchUI.validateUpdate, XValidation, RekorSearchUI.EnabledRule,
        RekorSearchUI.EnabledMessage]
  have hbf : ∀ oldSelf self : Bool,
      (BackFillRedis.validateEnabled oldSelf self = .ok () ↔
        (self = true ∨ oldSelf = false)) ∧
      (BackFillRedis.validateEnabled oldSelf self ≠ .ok () →
        BackFillRedis.validateEnabled oldSelf self = .error "Feature cannot be disabled") := by
    rintro (_ | _) (_ | _) <;>
      simp [BackFillRedis.validateEnabled, XValidation, BackFillRedis.EnabledRule,
        BackFillRedis.EnabledMessage]
  refine ⟨hui, hbf, rfl, rfl, rfl, rfl, ?_, ?_⟩
  · intro values h
    exact AcceptedUpdates_neverDisabled _ (fun o n hok => ((hui ⟨o⟩ ⟨n⟩).1).mp hok) values h
  · intro values h
    exact AcceptedUpdates_neverDisabled _ (fun o n hok => ((hbf o n).1).mp hok) values h

/-- C25 at concrete inputs: the feature is switched on by the third update and
stays on; switching it off afterwards is refused. -/
theorem Enabled_cannot_be_disabled_witness :
    AcceptedUpdates (fun oldSelf self => RekorSearchUI.validateUpdate ⟨oldSelf⟩ ⟨self⟩)
        [false, false, true, true] ∧
      NeverDisabled [false, false, true, true] ∧
      RekorSearchUI.validateUpdate ⟨true⟩ ⟨false⟩ ≠ .ok () ∧
      RekorSearchUI.validateUpdate ⟨true⟩ ⟨false⟩ = .error "Feature cannot be disabled" := by
  have hacc : AcceptedUpdates
      (fun oldSelf self => RekorSearchUI.validateUpdate ⟨oldSelf⟩ ⟨self⟩)
      [false, false, true, true] := by
    unfold AcceptedUpdates
    simp only [List.chain'_cons, List.chain'_singleton, and_true]
    exact ⟨rfl, rfl, rfl⟩
  have hno : RekorSearchUI.validateUpdate ⟨true⟩ ⟨false⟩ ≠ .ok () := by
    intro hok
    cases hok
  exact ⟨hacc, Enabled_cannot_be_disabled.2.2.2.2.2.2.1 _ hacc, hno,
    (Enabled_cannot_be_disabled.1 ⟨true⟩ ⟨false⟩).2 hno⟩

/-! ## Theorems: the generate-signer Action -/

/-- C23: `CanHandle` of the generate-signer Action returns false exactly when
the `SignerCondition` is True and Status already mirrors Spec: the same KMS, the
same password reference, and either Status holds a key reference that Spec
repeats or leaves unset, or the KMS is not secret-based and neither Spec nor
Status has a key reference. It returns true in every other case, in particular
when the `SignerCondition` is absent, False or Unknown, and when secret-based
signing has no key reference in Status. -/
theorem generateSigner_CanHandle_iff (inst : Rekor) :
    (generateSigner.CanHandle inst = false ↔
      meta.IsStatusConditionTrue inst.Status.Conditions actions.SignerCondition = true ∧
      inst.Spec.Signer.KMS = inst.Status.Signer.KMS ∧
      inst.Spec.Signer.PasswordRef = inst.Status.Signer.PasswordRef ∧
      ((∃ keyRef, inst.Status.Signer.KeyRef = some keyRef ∧
          (inst.Spec.Signer.KeyRef = some keyRef ∨ inst.Spec.Signer.KeyRef = none)) ∨
        (¬ (inst.Spec.Signer.KMS = "secret" ∨ inst.Spec.Signer.KMS = "") ∧
          inst.Spec.Signer.KeyRef = none ∧ inst.Status.Signer.KeyRef = none))) ∧
    (meta.FindStatusCondition inst.Status.Conditions actions.SignerCondition = none →
      generateSigner.CanHandle inst = true) ∧
    (∀ c, meta.FindStatusCondition inst.Status.Conditions actions.SignerCondition = some c →
      (c.Status = metav1.ConditionFalse ∨ c.Status = metav1.ConditionUnknown) →
      generateSigner.CanHandle inst = true) ∧
    ((inst.Spec.Signer.KMS = "secret" ∨ inst.Spec.Signer.KMS = "") →
      inst.Status.Signer.KeyRef = none → generateSigner.CanHandle inst = true) := by
  refine ⟨?_, ?_, ?_, ?_⟩
  · unfold generateSigner.CanHandle
    generalize meta.IsStatusConditionTrue inst.Status.Conditions actions.SignerCondition = cond
    generalize inst.Spec.Signer.KMS = kms
    generalize inst.Status.Signer.KMS = statusKms
    generalize inst.Spec.Signer.PasswordRef = pw
    generalize inst.Status.Signer.PasswordRef = statusPw
    generalize inst.Spec.Signer.KeyRef = key
    generalize inst.Status.Signer.KeyRef = statusKey
    rcases cond with _ | _
    · simp
    · by_cases hkms : kms = statusKms
      · subst hkms
        by_cases hpw : pw = statusPw
        · subst hpw
          have hsec : (kms == "secret" || kms == "") = true ↔ (kms = "secret" ∨ kms = "") := by
            simp
          by_cases hk : kms = "secret" ∨ kms = ""
          · have hb := hsec.mpr hk
            rcases statusKey with _ | sk <;> rcases key with _ | pk
            · simp only [hb]
              simp [hk]
            · simp [hb]
            · simp
            · by_cases hpk : sk = pk
              · subst hpk
                simp
              · have hpk2 : ¬ pk = sk := fun h => hpk h.symm
                simp [hpk, hpk2]
          · have hb : (kms == "secret" || kms == "") = false := by
              rcases hx : (kms == "secret" || kms == "") with _ | _
              · rfl
              · exact absurd (hsec.mp hx) hk
            rcases statusKey with _ | sk <;> rcases key with _ | pk
            · simp [hb, hk]
            · simp [hb]
            · simp
            · by_cases hpk : sk = pk
              · subst hpk
                simp
              · have hpk2 : ¬ pk = sk := fun h => hpk h.symm
                simp [hpk, hpk2]
        · simp [hpw]
      · simp [hkms]
  · intro hnone
    unfold generateSigner.CanHandle meta.IsStatusConditionTrue
    simp [hnone]
  · intro c hc hstatus
    have hne : (c.Status == metav1.ConditionTrue) = false := by
      rcases hstatus with h | h <;> rw [h] <;> decide
    unfold generateSigner.CanHandle meta.IsStatusConditionTrue
    simp [hc, hne]
  · intro hsec hkey
    have hsecb : (inst.Spec.Signer.KMS == "secret" || inst.Spec.Signer.KMS == "") = true := by
      rcases hsec with h | h <;> rw [h] <;> decide
    unfold generateSigner.CanHandle
    simp [hsecb, hkey]

/-- C23 at the thirteen rows of `TestGenerateSigner_CanHandle`, in the order of
the table: the answers are the expected ones. -/
theorem generateSigner_CanHandle_iff_witness :
    generateSigner.CanHandle (signerRow [signerCondition metav1.ConditionTrue constants.Ready]
        ⟨"", none, keySelector "secret" "private"⟩ RekorSigner.zero) = true ∧
      generateSigner.CanHandle (signerRow [signerCondition metav1.ConditionTrue constants.Ready]
        RekorSigner.zero ⟨"", none, keySelector "secret" "private"⟩) = false ∧
      generateSigner.CanHandle (signerRow [signerCondition metav1.ConditionTrue constants.Ready]
        RekorSigner.zero RekorSigner.zero) = true ∧
      generateSigner.CanHandle (signerRow [signerCondition metav1.ConditionTrue constants.Ready]
        ⟨"", none, keySelector "new_secret" "private"⟩
        ⟨"", none, keySelector "old_secret" "private"⟩) = true ∧
      generateSigner.CanHandle (signerRow [signerCondition metav1.ConditionTrue constants.Ready]
        ⟨"", none, keySelector "secret" "private"⟩
        ⟨"", none, keySelector "secret" "private"⟩) = false ∧
      generateSigner.CanHandle (signerRow [signerCondition metav1.ConditionTrue constants.Ready]
        ⟨"", keySelector "secret" "password", keySelector "secret" "private"⟩
        ⟨"", keySelector "secret" "password", keySelector "secret" "private"⟩) = false ∧
      generateSigner.CanHandle (signerRow [signerCondition metav1.ConditionTrue constants.Ready]
        ⟨"", keySelector "new_secret" "password", keySelector "new_secret" "private"⟩
        ⟨"", keySelector "old_secret" "password", keySelector "old_secret" "private"⟩) = true ∧
      generateSigner.CanHandle (signerRow [signerCondition metav1.ConditionTrue constants.Ready]
        ⟨"azurekeyvault://mykeyvaultname.vault.azure.net/keys/mykeyname", none, none⟩
        ⟨"awskms://1234abcd-12ab-34cd-56ef-1234567890ab?region=us-east-1", none, none⟩)
        = true ∧
      generateSigner.CanHandle (signerRow [signerCondition metav1.ConditionTrue constants.Ready]
        ⟨"awskms://1234abcd-12ab-34cd-56ef-1234567890ab?region=us-east-1", none, none⟩
        ⟨"awskms://1234abcd-12ab-34cd-56ef-1234567890ab?region=us-east-1", none, none⟩)
        = false ∧
      generateSigner.CanHandle (signerRow [] RekorSigner.zero RekorSigner.zero) = true ∧
      generateSigner.CanHandle (signerRow [signerCondition metav1.ConditionFalse constants.Pending]
        RekorSigner.zero RekorSigner.zero) = true ∧
      generateSigner.CanHandle (signerRow [signerCondition metav1.ConditionTrue constants.Ready]
        ⟨"", none, keySelector "secret" "private"⟩
        ⟨"", none, keySelector "secret" "private"⟩) = false ∧
      generateSigner.CanHandle (signerRow [signerCondition metav1.ConditionUnknown constants.Ready]
        RekorSigner.zero RekorSigner.zero) = true :=
  ⟨by decide,
    (generateSigner_CanHandle_iff _).1.mpr
      ⟨by decide, rfl, rfl, Or.inl ⟨⟨⟨"secret"⟩, "private"⟩, rfl, Or.inr rfl⟩⟩,
    (generateSigner_CanHandle_iff _).2.2.2 (Or.inr rfl) rfl,
    by decide, by decide, by decide, by decide, by decide,
    (generateSigner_CanHandle_iff _).1.mpr
      ⟨by decide, rfl, rfl, Or.inr ⟨by decide, rfl, rfl⟩⟩,
    (generateSigner_CanHandle_iff _).2.1 rfl,
    (generateSigner_CanHandle_iff _).2.2.1
      ⟨actions.SignerCondition, metav1.ConditionFalse, 0, 1, constants.Pending, ""⟩
      rfl (Or.inl rfl),
    by decide,
    (generateSigner_CanHandle_iff _).2.2.1
      ⟨actions.SignerCondition, metav1.ConditionUnknown, 0, 1, constants.Ready, ""⟩
      rfl (Or.inr rfl)⟩

/-- A string begins with each of its prefixes. -/
theorem startsWith_self_append (p rest : String) : startsWith p (p ++ rest) = true := by
  unfold startsWith
  have hlen : p.length = p.data.length := rfl
  rw [String.data_append, hlen, List.take_left']
  · exact beq_self_eq_true _
  · rfl

/-- After the two writes of `Handle` of the generate-signer Action, the
`SignerCondition` is True and the `ServerCondition` is False. -/
theorem generateSigner_ledger (now : Nat) (conditions : List Condition) :
    meta.IsStatusConditionTrue
        (meta.SetStatusCondition now
          (meta.SetStatusCondition now conditions
            ⟨actions.SignerCondition, metav1.ConditionTrue, 0, 0, constants.Ready, ""⟩)
          ⟨actions.ServerCondition, metav1.ConditionFalse, 0, 0, constants.Pending, ""⟩)
        actions.SignerCondition = true ∧
      meta.IsStatusConditionFalse
        (meta.SetStatusCondition now
          (meta.SetStatusCondition now conditions
            ⟨actions.SignerCondition, metav1.ConditionTrue, 0, 0, constants.Ready, ""⟩)
          ⟨actions.ServerCondition, metav1.ConditionFalse, 0, 0, constants.Pending, ""⟩)
        actions.ServerCondition = true := by
  constructor
  · unfold meta.IsStatusConditionTrue
    rw [FindStatusCondition_Set_of_ne now _
      ⟨actions.ServerCondition, metav1.ConditionFalse, 0, 0, constants.Pending, ""⟩
      actions.SignerCondition (by decide)]
    obtain ⟨c, hc, hstatus, -⟩ := FindStatusCondition_Set_same now conditions
      ⟨actions.SignerCondition, metav1.ConditionTrue, 0, 0, constants.Ready, ""⟩
    rw [hc]
    simp only [hstatus]
    decide
  · unfold meta.IsStatusConditionFalse
    obtain ⟨c, hc, hstatus, -⟩ := FindStatusCondition_Set_same now
      (meta.SetStatusCondition now conditions
        ⟨actions.SignerCondition, metav1.ConditionTrue, 0, 0, constants.Ready, ""⟩)
      ⟨actions.ServerCondition, metav1.ConditionFalse, 0, 0, constants.Pending, ""⟩
    rw [hc]
    simp only [hstatus]
    decide

/-- C24: `Handle` of the generate-signer Action returns the result of
`StatusUpdate` for the instance it leaves, whose Spec is untouched and whose
`Status.Signer` mirrors `Spec.Signer`: the KMS is the one of Spec; a key
reference given by Spec is held by Status together with the password reference
of Spec, whatever Status held before; with no key reference in Spec,
secret-based signing gets a generated key whose secret name starts with
`rekor-signer-<instance name>-`, and no password reference; with no key
reference in Spec and another KMS both references are nil. In all cases the
`SignerCondition` is True and the `ServerCondition` is False afterwards. -/
theorem generateSigner_Handle_mirrors (i : BaseAction) (now : Nat) (suffix : String)
    (inst : Rekor) :
    (generateSigner.Handle i now suffix inst).2
        = i.StatusUpdate (generateSigner.Handle i now suffix inst).1 ∧
      (generateSigner.Handle i now suffix inst).1.Spec = inst.Spec ∧
      (generateSigner.Handle i now suffix inst).1.Status.Signer.KMS = inst.Spec.Signer.KMS ∧
      (∀ keyRef, inst.Spec.Signer.KeyRef = some keyRef →
        (generateSigner.Handle i now suffix inst).1.Status.Signer.KeyRef = some keyRef ∧
          (generateSigner.Handle i now suffix inst).1.Status.Signer.PasswordRef
            = inst.Spec.Signer.PasswordRef) ∧
      (inst.Spec.Signer.KeyRef = none →
        (inst.Spec.Signer.KMS = "secret" ∨ inst.Spec.Signer.KMS = "") →
        (∃ generated,
          (generateSigner.Handle i now suffix inst).1.Status.Signer.KeyRef = some generated ∧
            startsWith ("rekor-signer-" ++ inst.Name ++ "-") generated.Name = true) ∧
          (generateSigner.Handle i now suffix inst).1.Status.Signer.PasswordRef = none) ∧
      (inst.Spec.Signer.KeyRef = none →
        ¬ (inst.Spec.Signer.KMS = "secret" ∨ inst.Spec.Signer.KMS = "") →
        (generateSigner.Handle i now suffix inst).1.Status.Signer.KeyRef = none ∧
          (generateSigner.Handle i now suffix inst).1.Status.Signer.PasswordRef = none) ∧
      meta.IsStatusConditionTrue (generateSigner.Handle i now suffix inst).1.Status.Conditions
        actions.SignerCondition = true ∧
      meta.IsStatusConditionFalse (generateSigner.Handle i now suffix inst).1.Status.Conditions
        actions.ServerCondition = true := by
  refine ⟨rfl, rfl, ?_, ?_, ?_, ?_, (generateSigner_ledger now _).1,
    (generateSigner_ledger now _).2⟩
  · simp only [generateSigner.Handle, generateSigner.effectiveSigner]
    rcases inst.Spec.Signer.KeyRef with _ | keyRef
    · simp only []
      split <;> rfl
    · rfl
  · intro keyRef hkey
    unfold generateSigner.Handle generateSigner.effectiveSigner
    rw [hkey]
    exact ⟨rfl, rfl⟩
  · intro hkey hsec
    have hsecb : (inst.Spec.Signer.KMS == "secret" || inst.Spec.Signer.KMS == "") = true := by
      rcases hsec with h | h <;> rw [h] <;> decide
    unfold generateSigner.Handle generateSigner.effectiveSigner
    rw [hkey]
    simp only []
    rw [if_pos hsecb]
    exact ⟨⟨_, rfl, startsWith_self_append _ _⟩, rfl⟩
  · intro hkey hsec
    have hsecb : (inst.Spec.Signer.KMS == "secret" || inst.Spec.Signer.KMS == "") = false := by
      simp only [not_or] at hsec
      simp [hsec.1, hsec.2]
    unfold generateSigner.Handle generateSigner.effectiveSigner
    rw [hkey]
    simp only []
    rw [if_neg (by rw [hsecb]; decide)]
    exact ⟨rfl, rfl⟩

/-- C24 at the six rows of `TestGenerateSigner_Handle`, in the order of the
table: the key reference of Spec is used; a key is generated; the key reference
of Status is replaced; the KMS of Spec is used; the KMS of Status is replaced;
the password reference of Spec is used. -/
theorem generateSigner_Handle_mirrors_witness :
    (generateSigner.Handle baseActionNil 2 "x7k2p"
        (signerHandleRow ⟨"", none, keySelector "secret" "private"⟩
          RekorSigner.zero)).1.Status.Signer.KeyRef = keySelector "secret" "private" ∧
      ((∃ generated,
          (generateSigner.Handle baseActionNil 2 "x7k2p"
            (signerHandleRow RekorSigner.zero RekorSigner.zero)).1.Status.Signer.KeyRef
            = some generated ∧
          startsWith "rekor-signer-rekor-" generated.Name = true) ∧
        (generateSigner.Handle baseActionNil 2 "x7k2p"
          (signerHandleRow RekorSigner.zero RekorSigner.zero)).1.Status.Signer.PasswordRef
          = none) ∧
      (generateSigner.Handle baseActionNil 2 "x7k2p"
        (signerHandleRow ⟨"", none, keySelector "new_secret" "private"⟩
          ⟨"", none, keySelector "old_secret" "private"⟩)).1.Status.Signer.KeyRef
        = keySelector "new_secret" "private" ∧
      ((generateSigner.Handle baseActionNil 2 "x7k2p"
          (signerHandleRow
            ⟨"awskms://1234abcd-12ab-34cd-56ef-1234567890ab?region=us-east-1", none, none⟩
            RekorSigner.zero)).1.Status.Signer.KMS
          = "awskms://1234abcd-12ab-34cd-56ef-1234567890ab?region=us-east-1" ∧
        (generateSigner.Handle baseActionNil 2 "x7k2p"
          (signerHandleRow
            ⟨"awskms://1234abcd-12ab-34cd-56ef-1234567890ab?region=us-east-1", none, none⟩
            RekorSigner.zero)).1.Status.Signer.KeyRef = none ∧
        (generateSigner.Handle baseActionNil 2 "x7k2p"
          (signerHandleRow
            ⟨"awskms://1234abcd-12ab-34cd-56ef-1234567890ab?region=us-east-1", none, none⟩
            RekorSigner.zero)).1.Status.Signer.PasswordRef = none) ∧
      ((generateSigner.Handle baseActionNil 2 "x7k2p"
          (signerHandleRow ⟨"new-kms", none, none⟩ ⟨"old-kms", none, none⟩)).1.Status.Signer
          = ⟨"new-kms", none, none⟩) ∧
      ((generateSigner.Handle baseActionNil 2 "x7k2p"
          (signerHandleRow ⟨"", keySelector "secret" "password", keySelector "secret" "private"⟩
            RekorSigner.zero)).1.Status.Signer.KeyRef = keySelector "secret" "private" ∧
        (generateSigner.Handle baseActionNil 2 "x7k2p"
          (signerHandleRow ⟨"", keySelector "secret" "password", keySelector "secret" "private"⟩
            RekorSigner.zero)).1.Status.Signer.PasswordRef = keySelector "secret" "password") ∧
      meta.IsStatusConditionTrue
        (generateSigner.Handle baseActionNil 2 "x7k2p"
          (signerHandleRow RekorSigner.zero RekorSigner.zero)).1.Status.Conditions
        actions.SignerCondition = true ∧
      meta.IsStatusConditionFalse
        (generateSigner.Handle baseActionNil 2 "x7k2p"
          (signerHandleRow RekorSigner.zero RekorSigner.zero)).1.Status.Conditions
        actions.ServerCondition = true :=
  ⟨((generateSigner_Handle_mirrors baseActionNil 2 "x7k2p"
        (signerHandleRow ⟨"", none, keySelector "secret" "private"⟩
          RekorSigner.zero)).2.2.2.1 ⟨⟨"secret"⟩, "private"⟩ rfl).1,
    (generateSigner_Handle_mirrors baseActionNil 2 "x7k2p"
      (signerHandleRow RekorSigner.zero RekorSigner.zero)).2.2.2.2.1 rfl (Or.inr rfl),
    ((generateSigner_Handle_mirrors baseActionNil 2 "x7k2p"
        (signerHandleRow ⟨"", none, keySelector "new_secret" "private"⟩
          ⟨"", none, keySelector "old_secret" "private"⟩)).2.2.2.1
        ⟨⟨"new_secret"⟩, "private"⟩ rfl).1,
    ⟨(generateSigner_Handle_mirrors baseActionNil 2 "x7k2p"
        (signerHandleRow
          ⟨"awskms://1234abcd-12ab-34cd-56ef-1234567890ab?region=us-east-1", none, none⟩
          RekorSigner.zero)).2.2.1,
      (generateSigner_Handle_mirrors baseActionNil 2 "x7k2p"
        (signerHandleRow
          ⟨"awskms://1234abcd-12ab-34cd-56ef-1234567890ab?region=us-east-1", none, none⟩
          RekorSigner.zero)).2.2.2.2.2.1 rfl (by decide)⟩,
    by decide,
    (generateSigner_Handle_mirrors baseActionNil 2 "x7k2p"
      (signerHandleRow ⟨"", keySelector "secret" "password", keySelector "secret" "private"⟩
        RekorSigner.zero)).2.2.2.1 ⟨⟨"secret"⟩, "private"⟩ rfl,
    (generateSigner_Handle_mirrors baseActionNil 2 "x7k2p"
      (signerHandleRow RekorSigner.zero RekorSigner.zero)).2.2.2.2.2.2.1,
    (generateSigner_Handle_mirrors baseActionNil 2 "x7k2p"
      (signerHandleRow RekorSigner.zero RekorSigner.zero)).2.2.2.2.2.2.2⟩

end SecureSign
